import Mathlib

/-!
# Registry, transform command, section builder and shape functions of xara

Shallow embedding of the sources

* `SRC/api/tclCommandPackage/modelbuilder/safe/TclSafeBuilder.cpp` (the tagged component
  registry),
* `SRC/runtime/commands/modeling/geomTransf.cpp` (the `geomTransf` command),
* `SRC/runtime/runtime/SectionBuilder/reinfLayer/CircReinfLayer.cpp`,
* `SRC/runtime/runtime/SectionBuilder/patch/CircPatch.cpp`,
* `include/elements/2d/triangle_lme_element.tcc` (the Newton iteration and the shape
  functions of `shapefn`),
* `SRC/element/Frame/Other/Displ/DispBeamColumnAsym3d.h` (declarations only).

Conventions of the registry part:

* Model objects live on a heap; a C++ reference is an address, a C++ pointer is an
  optional address (`none` is `nullptr`). A tag is a C++ `int`, embedded in `Int`.
* A method is a function of the builder (and of the heap when it reads or allocates objects)
  that returns the C++ return value with the builder it leaves behind. The overloads of a
  C++ name get a suffix: `_tag` (by `int` tag), `_ref` (by reference), `_ptr` (by pointer).
* Every `m_...Map` member is a finite map from `std::string` to object pointer; it is
  modelled by its lookup function (`none`: the key is absent).
* `map::at` throws `std::out_of_range` on a missing key; thrown exceptions and undefined
  behaviour are results of type `Fault`.

A loop that the source writes with `while` is a function with fuel; the end of the fuel is
the result `none`, and the theorems show that it is not reached.
-/

namespace Xara

/-! ## Heap, pointers and tagged objects -/

/-- Address of a model object on the heap. -/
abbrev Addr := Nat

/-- A C++ object pointer: `none` is `nullptr`. -/
abbrev Ptr := Option Addr

/-- A `TaggedObject` (material, section, transform, series ...): the integer returned by
`getTag()` and the internal state of the object. -/
structure TaggedObject where
  tag : Int
  state : List Int
  deriving DecidableEq, Repr

/-- The heap: the object at address `a` is the `a`-th entry; `new` appends. -/
abbrev Heap := List TaggedObject

/-- Abnormal outcomes of a call. -/
inductive Fault where
  /-- The exception `std::out_of_range`, thrown by `map::at`. -/
  | out_of_range
  /-- Undefined behaviour: a null or dangling pointer is dereferenced. -/
  | undefined
  deriving DecidableEq, Repr

/-- The call `p->getTag()` on the object at address `p`. -/
def getTag (h : Heap) (p : Addr) : Except Fault Int :=
  match h[p]? with
  | some o => .ok o.tag
  | none => .error .undefined

/-- Modelled from the spec: the virtual `getCopy()` of the stateful component classes
(`UniaxialMaterial`, `NDMaterial`, `SectionForceDeformation`, `TimeSeries`), which are
declared outside `src/`. "Callers that retrieve a stateful component receive an independent
copy with deep-copied internal state": a new object is allocated and holds the tag and the
state of the object at `p`; the result is the pointer to the new object. -/
def getCopy (h : Heap) (p : Addr) : Except Fault (Ptr × Heap) :=
  match h[p]? with
  | some o => .ok (some h.length, h ++ [o])
  | none => .error .undefined

/-! ## `std::to_string(int)` -/

/-- Decimal digits of `n` pushed in front of `acc`, most significant first; `fuel` bounds
the number of digits. -/
def natDigitCharsAux : Nat → Nat → List Char → List Char
  | 0, _, acc => acc
  | fuel + 1, n, acc =>
    if n < 10 then Nat.digitChar n :: acc
    else natDigitCharsAux fuel (n / 10) (Nat.digitChar (n % 10) :: acc)

/-- Decimal digits of a natural number, most significant first; `0` is written `0`. -/
def natDigitChars (n : Nat) : List Char :=
  natDigitCharsAux (n + 1) n []

/-- Value of a string of decimal digits (a character below `0` counts as the digit zero). -/
def decValue (l : List Char) : Nat :=
  l.foldl (fun v c => 10 * v + (c.toNat - 48)) 0

/-- The library function `std::to_string(int)`: the decimal representation, with a leading
minus sign for a negative value (the format `%d`). -/
def to_string (t : Int) : String :=
  match t with
  | Int.ofNat n => String.mk (natDigitChars n)
  | Int.negSucc n => String.mk ('-' :: natDigitChars (n + 1))

/-! ## The name-keyed tables -/

/-- A `std::map` from `std::string` to object pointer, given by its lookup function:
`none` when the key is absent, `some p` when the key holds the pointer `p`. -/
abbrev Table := String → Option Ptr

/-- The table without any key. -/
def map_empty : Table := fun _ => none

/-- The test `m.find(name) != m.end()`. -/
def map_contains (m : Table) (name : String) : Bool :=
  (m name).isSome

/-- The call `m.at(name)`: the mapped pointer, or `std::out_of_range` on a missing key. -/
def map_at (m : Table) (name : String) : Except Fault Ptr :=
  match m name with
  | some p => .ok p
  | none => .error .out_of_range

/-- The statement `m[name] = p`: insert the key or overwrite its entry. -/
def map_assign (m : Table) (name : String) (p : Ptr) : Table :=
  fun k => if k = name then some p else m k

/-- The call `m.insert({name, p})`: insert the key unless it is already present. -/
def map_insert (m : Table) (name : String) (p : Ptr) : Table :=
  if map_contains m name then m else map_assign m name p

/-- The Tcl completion code `TCL_OK` of `tcl.h`. -/
def TCL_OK : Int := 0

/-! ## The builder -/

/-- The members of `TclSafeBuilder` used by the registry operations. -/
structure TclSafeBuilder where
  no_clobber : Bool
  m_TimeSeriesMap : Table
  m_SectionForceDeformationMap : Table
  m_SectionRepresMap : Table
  m_NDMaterialMap : Table
  m_UniaxialMaterialMap : Table
  m_HystereticBackboneMap : Table
  m_CrdTransfMap : Table

namespace TclSafeBuilder

/-- The method `letClobber(bool let_clobber)`. -/
def letClobber (b : TclSafeBuilder) (let_clobber : Bool) : TclSafeBuilder :=
  { b with no_clobber := !let_clobber }

/-- The method `canClobber()`. -/
def canClobber (b : TclSafeBuilder) : Bool :=
  !b.no_clobber

/-- Outcome of a `get...` call: the pointer returned or the fault raised, and the heap and
the builder as the call leaves them. -/
structure Outcome where
  value : Except Fault Ptr
  heap : Heap
  builder : TclSafeBuilder

/-! ### TimeSeries -/

/-- The method `getTimeSeries(const std::string &name)`. -/
def getTimeSeries (b : TclSafeBuilder) (h : Heap) (name : String) : Outcome :=
  match map_at b.m_TimeSeriesMap name with
  | .error e => ⟨.error e, h, b⟩
  | .ok (some series) =>
    match getCopy h series with
    | .ok (copy, h1) => ⟨.ok copy, h1, b⟩
    | .error e => ⟨.error e, h, b⟩
  | .ok none => ⟨.ok none, h, b⟩

/-- The method `addTimeSeries(const std::string &name, TimeSeries *series)`. -/
def addTimeSeries (b : TclSafeBuilder) (name : String) (series : Ptr) : Int × TclSafeBuilder :=
  (1, { b with m_TimeSeriesMap := map_assign b.m_TimeSeriesMap name series })

/-- The method `addTimeSeries(TimeSeries *series)`. -/
def addTimeSeries_ptr (b : TclSafeBuilder) (h : Heap) (series : Ptr) :
    Except Fault (Int × TclSafeBuilder) :=
  match series with
  | none => .error .undefined
  | some p =>
    match getTag h p with
    | .error e => .error e
    | .ok tag =>
      .ok (1, { b with m_TimeSeriesMap := map_assign b.m_TimeSeriesMap (to_string tag) series })

/-! ### SectionForceDeformation -/

/-- The method `getSection(const std::string &name)`. -/
def getSection (b : TclSafeBuilder) (h : Heap) (name : String) : Outcome :=
  match map_at b.m_SectionForceDeformationMap name with
  | .error e => ⟨.error e, h, b⟩
  | .ok (some inst) =>
    match getCopy h inst with
    | .ok (copy, h1) => ⟨.ok copy, h1, b⟩
    | .error e => ⟨.error e, h, b⟩
  | .ok none => ⟨.ok none, h, b⟩

/-- The method `getSection(int tag)`. -/
def getSection_tag (b : TclSafeBuilder) (h : Heap) (tag : Int) : Outcome :=
  b.getSection h (to_string tag)

/-- The method `addSection(const std::string &name, SectionForceDeformation &instance)`. -/
def addSection (b : TclSafeBuilder) (name : String) (inst : Addr) : Int × TclSafeBuilder :=
  (1, { b with
    m_SectionForceDeformationMap := map_assign b.m_SectionForceDeformationMap name (some inst) })

/-- The method `addSection(SectionForceDeformation &instance)`. -/
def addSection_ref (b : TclSafeBuilder) (h : Heap) (inst : Addr) :
    Except Fault (Int × TclSafeBuilder) :=
  match getTag h inst with
  | .error e => .error e
  | .ok tag =>
    .ok (1, { b with
      m_SectionForceDeformationMap :=
        map_assign b.m_SectionForceDeformationMap (to_string tag) (some inst) })

/-! ### SectionRepres -/

/-- The method `getSectionRepres(const std::string &name)`. -/
def getSectionRepres (b : TclSafeBuilder) (h : Heap) (name : String) : Outcome :=
  match map_at b.m_SectionRepresMap name with
  | .error e => ⟨.error e, h, b⟩
  | .ok (some inst) => ⟨.ok (some inst), h, b⟩
  | .ok none => ⟨.ok none, h, b⟩

/-- The method `getSectionRepres(int tag)`. -/
def getSectionRepres_tag (b : TclSafeBuilder) (h : Heap) (tag : Int) : Outcome :=
  b.getSectionRepres h (to_string tag)

/-- The method `addSectionRepres(const std::string &name, SectionRepres &instance)`. -/
def addSectionRepres (b : TclSafeBuilder) (name : String) (inst : Addr) :
    Int × TclSafeBuilder :=
  (1, { b with m_SectionRepresMap := map_assign b.m_SectionRepresMap name (some inst) })

/-- The method `addSectionRepres(SectionRepres &instance)`. -/
def addSectionRepres_ref (b : TclSafeBuilder) (h : Heap) (inst : Addr) :
    Except Fault (Int × TclSafeBuilder) :=
  match getTag h inst with
  | .error e => .error e
  | .ok tag =>
    .ok (1, { b with
      m_SectionRepresMap := map_assign b.m_SectionRepresMap (to_string tag) (some inst) })

/-! ### NDMaterial -/

/-- The method `getNDMaterial(const std::string &name)`. -/
def getNDMaterial (b : TclSafeBuilder) (h : Heap) (name : String) : Outcome :=
  match map_at b.m_NDMaterialMap name with
  | .error e => ⟨.error e, h, b⟩
  | .ok (some inst) =>
    match getCopy h inst with
    | .ok (copy, h1) => ⟨.ok copy, h1, b⟩
    | .error e => ⟨.error e, h, b⟩
  | .ok none => ⟨.ok none, h, b⟩

/-- The method `getNDMaterial(int tag)`. -/
def getNDMaterial_tag (b : TclSafeBuilder) (h : Heap) (tag : Int) : Outcome :=
  b.getNDMaterial h (to_string tag)

/-- The method `addNDMaterial(const std::string &name, NDMaterial &instance)`. -/
def addNDMaterial (b : TclSafeBuilder) (name : String) (inst : Addr) : Int × TclSafeBuilder :=
  (1, { b with m_NDMaterialMap := map_assign b.m_NDMaterialMap name (some inst) })

/-- The method `addNDMaterial(NDMaterial &instance)`. -/
def addNDMaterial_ref (b : TclSafeBuilder) (h : Heap) (inst : Addr) :
    Except Fault (Int × TclSafeBuilder) :=
  match getTag h inst with
  | .error e => .error e
  | .ok tag =>
    .ok (1, { b with
      m_NDMaterialMap := map_assign b.m_NDMaterialMap (to_string tag) (some inst) })

/-! ### UniaxialMaterial -/

/-- The method `getUniaxialMaterial(const std::string &name)`. -/
def getUniaxialMaterial (b : TclSafeBuilder) (h : Heap) (name : String) : Outcome :=
  match map_at b.m_UniaxialMaterialMap name with
  | .error e => ⟨.error e, h, b⟩
  | .ok (some inst) =>
    match getCopy h inst with
    | .ok (copy, h1) => ⟨.ok copy, h1, b⟩
    | .error e => ⟨.error e, h, b⟩
  | .ok none => ⟨.ok none, h, b⟩

/-- The method `getUniaxialMaterial(int tag)`. -/
def getUniaxialMaterial_tag (b : TclSafeBuilder) (h : Heap) (tag : Int) : Outcome :=
  b.getUniaxialMaterial h (to_string tag)

/-- The method `addUniaxialMaterial(const std::string &name, UniaxialMaterial &instance)`. -/
def addUniaxialMaterial (b : TclSafeBuilder) (name : String) (inst : Addr) :
    Int × TclSafeBuilder :=
  if !b.canClobber && map_contains b.m_UniaxialMaterialMap name then
    (-1, b)
  else
    (TCL_OK, { b with
      m_UniaxialMaterialMap := map_assign b.m_UniaxialMaterialMap name (some inst) })

/-- The method `addUniaxialMaterial(UniaxialMaterial &instance)`. -/
def addUniaxialMaterial_ref (b : TclSafeBuilder) (h : Heap) (inst : Addr) :
    Except Fault (Int × TclSafeBuilder) :=
  match getTag h inst with
  | .error e => .error e
  | .ok tag => .ok (b.addUniaxialMaterial (to_string tag) inst)

/-- The method `addUniaxialMaterial(UniaxialMaterial *mat)`. -/
def addUniaxialMaterial_ptr (b : TclSafeBuilder) (h : Heap) (mat : Ptr) :
    Except Fault (Int × TclSafeBuilder) :=
  match mat with
  | none => .error .undefined
  | some p => b.addUniaxialMaterial_ref h p

/-! ### HystereticBackbone -/

/-- The method `getHystereticBackbone(const std::string &name)`. -/
def getHystereticBackbone (b : TclSafeBuilder) (h : Heap) (name : String) : Outcome :=
  match map_at b.m_HystereticBackboneMap name with
  | .error e => ⟨.error e, h, b⟩
  | .ok (some inst) => ⟨.ok (some inst), h, b⟩
  | .ok none => ⟨.ok none, h, b⟩

/-- The method `addHystereticBackbone(const std::string &name, HystereticBackbone &instance)`. -/
def addHystereticBackbone (b : TclSafeBuilder) (name : String) (inst : Addr) :
    Int × TclSafeBuilder :=
  (1, { b with m_HystereticBackboneMap := map_assign b.m_HystereticBackboneMap name (some inst) })

/-! ### CrdTransf -/

/-- The method `getCrdTransf(const std::string &name)`. -/
def getCrdTransf (b : TclSafeBuilder) (h : Heap) (name : String) : Outcome :=
  match map_at b.m_CrdTransfMap name with
  | .error e => ⟨.error e, h, b⟩
  | .ok (some inst) => ⟨.ok (some inst), h, b⟩
  | .ok none => ⟨.ok none, h, b⟩

/-- The method `getCrdTransf(int tag)`. -/
def getCrdTransf_tag (b : TclSafeBuilder) (h : Heap) (tag : Int) : Outcome :=
  b.getCrdTransf h (to_string tag)

/-- The method `addCrdTransf(const std::string name, CrdTransf *instance)`. -/
def addCrdTransf (b : TclSafeBuilder) (name : String) (inst : Ptr) : Int × TclSafeBuilder :=
  (1, { b with m_CrdTransfMap := map_insert b.m_CrdTransfMap name inst })

/-- The method `addCrdTransf(CrdTransf *instance)`. -/
def addCrdTransf_ptr (b : TclSafeBuilder) (h : Heap) (inst : Ptr) :
    Except Fault (Int × TclSafeBuilder) :=
  match inst with
  | none => .error .undefined
  | some p =>
    match getTag h p with
    | .error e => .error e
    | .ok tag => .ok (b.addCrdTransf (to_string tag) inst)

/-! ### The categories side by side -/

/-- The component categories of the registry, one per `m_...Map` member. -/
inductive Category where
  | TimeSeries
  | Section
  | SectionRepres
  | NDMaterial
  | UniaxialMaterial
  | HystereticBackbone
  | CrdTransf
  deriving DecidableEq, Repr

/-- The table of a category. -/
def table (b : TclSafeBuilder) : Category → Table
  | .TimeSeries => b.m_TimeSeriesMap
  | .Section => b.m_SectionForceDeformationMap
  | .SectionRepres => b.m_SectionRepresMap
  | .NDMaterial => b.m_NDMaterialMap
  | .UniaxialMaterial => b.m_UniaxialMaterialMap
  | .HystereticBackbone => b.m_HystereticBackboneMap
  | .CrdTransf => b.m_CrdTransfMap

/-- The name-keyed `get...` method of a category. -/
def get (b : TclSafeBuilder) (h : Heap) (c : Category) (name : String) : Outcome :=
  match c with
  | .TimeSeries => b.getTimeSeries h name
  | .Section => b.getSection h name
  | .SectionRepres => b.getSectionRepres h name
  | .NDMaterial => b.getNDMaterial h name
  | .UniaxialMaterial => b.getUniaxialMaterial h name
  | .HystereticBackbone => b.getHystereticBackbone h name
  | .CrdTransf => b.getCrdTransf h name

/-- The name-keyed `add...` method of a category, called on the object at `inst`. -/
def add (b : TclSafeBuilder) (c : Category) (name : String) (inst : Addr) :
    Int × TclSafeBuilder :=
  match c with
  | .TimeSeries => b.addTimeSeries name (some inst)
  | .Section => b.addSection name inst
  | .SectionRepres => b.addSectionRepres name inst
  | .NDMaterial => b.addNDMaterial name inst
  | .UniaxialMaterial => b.addUniaxialMaterial name inst
  | .HystereticBackbone => b.addHystereticBackbone name inst
  | .CrdTransf => b.addCrdTransf name (some inst)

/-- The stateful categories: their `get...` returns `getCopy()` of the stored object. -/
def Category.stateful : Category → Bool
  | .TimeSeries | .Section | .NDMaterial | .UniaxialMaterial => true
  | .SectionRepres | .HystereticBackbone | .CrdTransf => false

/-- A builder without any registered component. -/
def empty (no_clobber : Bool) : TclSafeBuilder :=
  ⟨no_clobber, map_empty, map_empty, map_empty, map_empty, map_empty, map_empty, map_empty⟩

/-- Two outcomes agree on what the caller receives: the value and the heap. -/
def Outcome.sameResult (r1 r2 : Outcome) : Prop :=
  r1.value = r2.value ∧ r1.heap = r2.heap

/-! ### Removal -/

/-- The call `m.erase(name)`: the key is absent afterwards, the other entries stay. -/
def map_erase (m : Table) (name : String) : Table :=
  fun k => if k = name then none else m k

/-- Modelled from the spec: the operation `remove(tag_or_name)` of the registry, which
`TclSafeBuilder.cpp` does not define. "`remove(tag_or_name)`: releases ownership; subsequent
`get` fails with NotFound": the entry of the key is erased from the table of the category and
nothing else changes. -/
def remove (b : TclSafeBuilder) (c : Category) (name : String) : TclSafeBuilder :=
  match c with
  | .TimeSeries => { b with m_TimeSeriesMap := map_erase b.m_TimeSeriesMap name }
  | .Section =>
    { b with m_SectionForceDeformationMap := map_erase b.m_SectionForceDeformationMap name }
  | .SectionRepres => { b with m_SectionRepresMap := map_erase b.m_SectionRepresMap name }
  | .NDMaterial => { b with m_NDMaterialMap := map_erase b.m_NDMaterialMap name }
  | .UniaxialMaterial =>
    { b with m_UniaxialMaterialMap := map_erase b.m_UniaxialMaterialMap name }
  | .HystereticBackbone =>
    { b with m_HystereticBackboneMap := map_erase b.m_HystereticBackboneMap name }
  | .CrdTransf => { b with m_CrdTransfMap := map_erase b.m_CrdTransfMap name }

/-- Modelled from the spec: `remove` by integer tag; the key is the decimal string of the
tag, as in the `get...(int tag)` overloads. -/
def remove_tag (b : TclSafeBuilder) (c : Category) (tag : Int) : TclSafeBuilder :=
  b.remove c (to_string tag)

/-! ### Fixtures -/

/-- A heap with three objects: two of tag 5 (addresses 0 and 1) and one of tag 7. -/
def sampleHeap : Heap :=
  [⟨5, [10]⟩, ⟨5, [20]⟩, ⟨7, [30]⟩]

/-- The builder obtained from the empty one, with the given clobber setting, by registering
the object at address 0 under the key `5` in every category. -/
def sampleBuilder (no_clobber : Bool) : TclSafeBuilder :=
  let b1 := ((empty no_clobber).addTimeSeries "5" (some 0)).2
  let b2 := (b1.addSection "5" 0).2
  let b3 := (b2.addSectionRepres "5" 0).2
  let b4 := (b3.addNDMaterial "5" 0).2
  let b5 := (b4.addUniaxialMaterial "5" 0).2
  let b6 := (b5.addHystereticBackbone "5" 0).2
  (b6.addCrdTransf "5" (some 0)).2

end TclSafeBuilder

/-! ## The `geomTransf` command -/

/-- The Tcl completion code `TCL_ERROR` of `tcl.h`. -/
def TCL_ERROR : Int := 1

/-- A numeric vector (`Vector`, `Vector3D`), given by its components; a `double` is taken
as an exact number, no arithmetic is done on it here. -/
abbrev Vec := Nat → Rat

/-- The vector after `zero()`. -/
def vec_zero : Vec := fun _ => 0

/-- The assignment `v[i] = x`. -/
def vec_set (v : Vec) (i : Nat) (x : Rat) : Vec :=
  fun j => if j = i then x else v j

/-- The members of `FrameTransformBuilder` that the command writes. -/
structure FrameTransformBuilder where
  ndm : Int
  tag : Int
  name : String
  vz : Vec
  offsets : Int → Vec
  offset_flags : Nat

/-- The assignment of the whole vector `offsets[k]`. -/
def FrameTransformBuilder.setOffset (t : FrameTransformBuilder) (k : Int) (v : Vec) :
    FrameTransformBuilder :=
  { t with offsets := fun j => if j = k then v else t.offsets j }

/-- The transform classes that the command constructs. -/
inductive TransfClass where
  | LinearCrdTransf2d
  | LinearCrdTransf2dInt
  | PDeltaCrdTransf2d
  | CorotCrdTransf2d
  | CorotCrdTransfWarping2d
  | LinearFrameTransf3d
  | LinearCrdTransf3d
  | PDeltaFrameTransf3d
  | PDeltaCrdTransf3d
  | CorotFrameTransf3d03
  | CorotFrameTransf3d
  | BasicFrameTransf3d
  deriving DecidableEq, Repr

/-- A constructed transform object: its class and the arguments of its constructor (the
orientation vector is unused by the 2-D classes). -/
structure FrameTransform where
  cls : TransfClass
  tag : Int
  vecxzPlane : Vec
  jntOffsetI : Vec
  jntOffsetJ : Vec

/-- What the command functions take from outside the file: the Tcl library calls, the
environment variables read with `getenv`, and the declarations of
`FrameTransformBuilder.hpp`. A Tcl conversion yields `none` when it does not return
`TCL_OK`. `Tcl_SplitList` yields the elements of a well-formed list; for a word that is no
well-formed list it yields `none`: it returns `TCL_ERROR` and assigns neither the count nor
the array of the elements. `Tcl_Eval` is given the script, the command procedure registered
under the names `1` .. `9` and its client data, and yields the client data as the script
leaves it, `none` when the script does not return `TCL_OK`, or a fault when the evaluation
has undefined behaviour. -/
structure Externals where
  Tcl_GetInt : String → Option Int
  Tcl_GetDouble : String → Option Rat
  Tcl_SplitList : String → Option (List String)
  Tcl_Eval : String →
    (List String → FrameTransformBuilder → Except Fault (Option FrameTransformBuilder)) →
    FrameTransformBuilder → Except Fault (Option FrameTransformBuilder)
  getenv_CRD04 : Bool
  getenv_CRD : Bool
  getenv_CRD03 : Bool
  OffsetLocal : Nat
  OffsetNormalized : Nat
  FrameTransformBuilder_ctor : Int → Int → String → FrameTransformBuilder
  BasicFrameTransf3d_create : FrameTransformBuilder → FrameTransform

/-- Modelled from the spec: the registry of `BasicModelBuilder`, whose source is not under
`src/`. One table per object type, keyed by integer tag, the model dimensions, and the
clobber policy ("a single process-wide policy toggle"). -/
structure BasicModelBuilder where
  ndm : Int
  ndf : Int
  no_clobber : Bool
  m_FrameTransformBuilder : Int → Option FrameTransformBuilder
  m_FrameTransform2d : Int → Option FrameTransform
  m_FrameTransform3d : Int → Option FrameTransform

/-- Modelled from the spec: `add(tag_or_name, instance) -> success|conflict`, "fails with a
NameConflict condition if an entry already exists at that key and clobber is disabled;
otherwise overwrites". The completion code and the table after the call. -/
def registry_add {α : Type} (no_clobber : Bool) (m : Int → Option α) (tag : Int) (obj : α) :
    Int × (Int → Option α) :=
  if no_clobber && (m tag).isSome then (TCL_ERROR, m)
  else (TCL_OK, fun t => if t = tag then some obj else m t)

namespace BasicModelBuilder

/-- The method `getNDM()`. -/
def getNDM (b : BasicModelBuilder) : Int := b.ndm

/-- The method `getNDF()`. -/
def getNDF (b : BasicModelBuilder) : Int := b.ndf

/-- Modelled from the spec: `addTaggedObject<FrameTransformBuilder>(obj)`, the registry add
under the tag of the object. -/
def addTaggedObject_FrameTransformBuilder (b : BasicModelBuilder) (obj : FrameTransformBuilder) :
    Int × BasicModelBuilder :=
  ((registry_add b.no_clobber b.m_FrameTransformBuilder obj.tag obj).1,
    { b with m_FrameTransformBuilder :=
      (registry_add b.no_clobber b.m_FrameTransformBuilder obj.tag obj).2 })

/-- Modelled from the spec: `addTaggedObject<FrameTransform2d>(obj)`. -/
def addTaggedObject_FrameTransform2d (b : BasicModelBuilder) (obj : FrameTransform) :
    Int × BasicModelBuilder :=
  ((registry_add b.no_clobber b.m_FrameTransform2d obj.tag obj).1,
    { b with m_FrameTransform2d := (registry_add b.no_clobber b.m_FrameTransform2d obj.tag obj).2 })

/-- Modelled from the spec: `addTaggedObject<FrameTransform3d>(obj)`. -/
def addTaggedObject_FrameTransform3d (b : BasicModelBuilder) (obj : FrameTransform) :
    Int × BasicModelBuilder :=
  ((registry_add b.no_clobber b.m_FrameTransform3d obj.tag obj).1,
    { b with m_FrameTransform3d := (registry_add b.no_clobber b.m_FrameTransform3d obj.tag obj).2 })

/-- Modelled from the spec: `getTypedObject<FrameTransformBuilder>(tag)`, `none` being the
null pointer of a lookup miss. -/
def getTypedObject_FrameTransformBuilder (b : BasicModelBuilder) (tag : Int) :
    Option FrameTransformBuilder :=
  b.m_FrameTransformBuilder tag

end BasicModelBuilder

/-- The word `argv[i]` (the empty string outside the array). -/
def argAt (argv : List String) (i : Nat) : String :=
  argv.getD i ""

/-- What a command leaves: its completion code and the builder. -/
structure CmdResult where
  code : Int
  builder : BasicModelBuilder

/-- The loop `for (i = 0; i < n; ++i) if (argi == argc || Tcl_GetDouble(interp,
argv[argi++], &v[i]) != TCL_OK) return TCL_ERROR;`, with `k` components still to read from
index `i` on: the `argi` and the vector it leaves, or `none` for the return of `TCL_ERROR`. -/
def readDoubles (ext : Externals) (argv : List String) :
    Nat → Nat → Nat → Vec → Option (Nat × Vec)
  | 0, _, argi, v => some (argi, v)
  | k + 1, i, argi, v =>
    if argi = argv.length then none
    else
      match ext.Tcl_GetDouble (argAt argv argi) with
      | none => none
      | some x => readDoubles ext argv k (i + 1) (argi + 1) (vec_set v i x)

/-- The loop `for (i = 0; i < xznum; ++i) if (Tcl_GetDouble(interp, xzarg[i], &v[i]) !=
TCL_OK) return TCL_ERROR;` over the elements that remain, from index `i` on. -/
def readElems (ext : Externals) : List String → Nat → Vec → Option Vec
  | [], _, v => some v
  | x :: xs, i, v =>
    match ext.Tcl_GetDouble x with
    | none => none
    | some d => readElems ext xs (i + 1) (vec_set v i d)

/-- Three calls `Tcl_GetDouble(interp, argv[argi++], &v[i])`, without a test on `argc`. -/
def readArgs3 (ext : Externals) (argv : List String) (argi : Nat) (v : Vec) : Option Vec :=
  readElems ext [argAt argv argi, argAt argv (argi + 1), argAt argv (argi + 2)] 0 v

/-- The command procedure `TclCommand_addOffset` (the lambda registered under the names `1`
.. `9`), called with the words `oargv` on the transform builder: the transform builder it
leaves, or `none` for the return of `TCL_ERROR`. The return code of `Tcl_SplitList` is not
tested: when the call fails, `xznum` and `xzarg` are read without having been assigned, which
is undefined behaviour. -/
def TclCommand_addOffset (ext : Externals) (oargv : List String)
    (transform : FrameTransformBuilder) : Except Fault (Option FrameTransformBuilder) :=
  if oargv.length < 2 then .ok none
  else
    match ext.Tcl_GetInt (argAt oargv 0) with
    | none => .ok none
    | some offset_tag =>
      if offset_tag < 1 ∨ offset_tag > 9 then .ok none
      else
        match (if oargv.length = 2 then ext.Tcl_SplitList (argAt oargv 1)
            else some oargv.tail) with
        | none => .error .undefined
        | some xzarg =>
          match readElems ext xzarg 0 (transform.offsets offset_tag) with
          | none => .ok none
          | some v => .ok (some (transform.setOffset offset_tag v))

/-- The variables of the option loop of `TclCommand_addTransformBuilder`. -/
structure ScanState where
  transform : FrameTransformBuilder
  parsed_xz : Bool
  argxz : Nat

/-- The loop `while (argi != argc)` of `TclCommand_addTransformBuilder` from `argi` on. The
outer `none` is the end of the fuel; inside, `.ok none` is the return of `TCL_ERROR`,
`.ok (some st)` the end of the loop with the variables `st`, and `.error` undefined
behaviour: the return code of `Tcl_SplitList` is not tested, and when the call fails `xznum`
is read without having been assigned. -/
def optionLoop (ext : Externals) (ndm : Int) (argv : List String) :
    Nat → Nat → ScanState → Option (Except Fault (Option ScanState))
  | 0, _, _ => none
  | fuel + 1, argi, st =>
    if argi = argv.length then some (.ok (some st))
    else if argAt argv argi = "-jntOffset" then
      match readDoubles ext argv ndm.toNat 0 (argi + 1) vec_zero with
      | none => some (.ok none)
      | some (argi1, offI) =>
        match readDoubles ext argv ndm.toNat 0 argi1 vec_zero with
        | none => some (.ok none)
        | some (argi2, offJ) =>
          optionLoop ext ndm argv fuel argi2
            { st with transform := (st.transform.setOffset 1 offI).setOffset 2 offJ }
    else if argAt argv argi = "-orient" then
      if st.parsed_xz then some (.ok none)
      else if argi + 1 = argv.length then some (.ok none)
      else
        match ext.Tcl_SplitList (argAt argv (argi + 1)) with
        | none => some (.error .undefined)
        | some xzarg =>
          if xzarg.length ≠ 3 then some (.ok none)
          else
            match readElems ext xzarg 0 st.transform.vz with
            | none => some (.ok none)
            | some vz =>
              optionLoop ext ndm argv fuel (argi + 2)
                { st with transform := { st.transform with vz := vz }, parsed_xz := true }
    else if argAt argv argi = "-offset-local" then
      optionLoop ext ndm argv fuel (argi + 1)
        { st with transform :=
          { st.transform with offset_flags := st.transform.offset_flags ||| ext.OffsetLocal } }
    else if argAt argv argi = "-offset-length" then
      optionLoop ext ndm argv fuel (argi + 1)
        { st with transform :=
          { st.transform with
            offset_flags := st.transform.offset_flags ||| ext.OffsetNormalized } }
    else if argAt argv argi = "-offset" then
      if argi + 1 = argv.length then some (.ok none)
      else
        match ext.Tcl_Eval (argAt argv (argi + 1)) (TclCommand_addOffset ext) st.transform with
        | .error e => some (.error e)
        | .ok none => some (.ok none)
        | .ok (some tr) => optionLoop ext ndm argv fuel (argi + 2) { st with transform := tr }
    else
      optionLoop ext ndm argv fuel (argi + 1)
        { st with argxz := if st.argxz = 0 then argi else st.argxz }

/-- The part "Ensure orientation was provided" of `TclCommand_addTransformBuilder`: the
transform builder with its orientation, `none` for the return of `TCL_ERROR`, or undefined
behaviour when `Tcl_SplitList` fails on `argv[argxz]` (its return code is not tested and
`xznum` is read). -/
def ensureOrientation (ext : Externals) (argv : List String) (st : ScanState) :
    Except Fault (Option FrameTransformBuilder) :=
  if st.parsed_xz then .ok (some st.transform)
  else if st.argxz = 0 ∨ st.argxz ≥ argv.length then .ok none
  else
    match ext.Tcl_SplitList (argAt argv st.argxz) with
    | none => .error .undefined
    | some xzarg =>
      if xzarg.length = 3 then
        match readElems ext xzarg 0 st.transform.vz with
        | none => .ok none
        | some vz => .ok (some { st.transform with vz := vz })
      else if st.argxz + 3 > argv.length then .ok none
      else
        match readArgs3 ext argv st.argxz st.transform.vz with
        | none => .ok none
        | some vz => .ok (some { st.transform with vz := vz })

/-- The function `TclCommand_addTransformBuilder(clientData, interp, argc, argv)`; `none`
is the end of the fuel of the option loop, `.error` undefined behaviour, `.ok` the return
with a completion code. -/
def TclCommand_addTransformBuilder (ext : Externals) (builder : BasicModelBuilder)
    (argv : List String) : Option (Except Fault CmdResult) :=
  if argv.length < 3 then some (.ok ⟨TCL_ERROR, builder⟩)
  else if builder.getNDM ≠ 2 ∧ builder.getNDM ≠ 3 then some (.ok ⟨TCL_ERROR, builder⟩)
  else
    match ext.Tcl_GetInt (argAt argv 2) with
    | none => some (.ok ⟨TCL_ERROR, builder⟩)
    | some tag =>
      match optionLoop ext builder.getNDM argv (argv.length + 1) 3
          ⟨ext.FrameTransformBuilder_ctor builder.getNDM tag (argAt argv 1),
            decide (builder.getNDM = 2), 0⟩ with
      | none => none
      | some (.error e) => some (.error e)
      | some (.ok none) => some (.ok ⟨TCL_ERROR, builder⟩)
      | some (.ok (some st)) =>
        match ensureOrientation ext argv st with
        | .error e => some (.error e)
        | .ok none => some (.ok ⟨TCL_ERROR, builder⟩)
        | .ok (some transform) =>
          if (builder.addTaggedObject_FrameTransformBuilder transform).1 ≠ TCL_OK then
            some (.ok ⟨TCL_ERROR, (builder.addTaggedObject_FrameTransformBuilder transform).2⟩)
          else some (.ok ⟨TCL_OK, (builder.addTaggedObject_FrameTransformBuilder transform).2⟩)

/-- The loop `while (argi != argc)` of `TclCommand_addGeomTransf`, the same in the 2-D case
(`n = 2`) and in the 3-D case (`n = 3`): the joint offsets it leaves. The outer `none` is
the end of the fuel, the inner `none` the return of `TCL_ERROR`. -/
def jntOffsetLoop (ext : Externals) (n : Nat) (argv : List String) :
    Nat → Nat → Vec → Vec → Option (Option (Vec × Vec))
  | 0, _, _, _ => none
  | fuel + 1, argi, jntOffsetI, jntOffsetJ =>
    if argi = argv.length then some (some (jntOffsetI, jntOffsetJ))
    else if argAt argv argi = "-jntOffset" then
      match readDoubles ext argv n 0 (argi + 1) jntOffsetI with
      | none => some none
      | some (argi1, offI) =>
        match readDoubles ext argv n 0 argi1 jntOffsetJ with
        | none => some none
        | some (argi2, offJ) => jntOffsetLoop ext n argv fuel argi2 offI offJ
    else some none

/-- The part "construct the transformation" of the 2-D case: the object built for the type
name `argv[1]`, or `none` for "invalid Type". -/
def construct2d (typeName : String) (ndf : Int) (tag : Int) (jntOffsetI jntOffsetJ : Vec) :
    Option FrameTransform :=
  if typeName = "Linear" then
    some ⟨.LinearCrdTransf2d, tag, vec_zero, jntOffsetI, jntOffsetJ⟩
  else if typeName = "LinearInt" then
    some ⟨.LinearCrdTransf2dInt, tag, vec_zero, jntOffsetI, jntOffsetJ⟩
  else if typeName = "PDelta" ∨ typeName = "LinearWithPDelta" then
    some ⟨.PDeltaCrdTransf2d, tag, vec_zero, jntOffsetI, jntOffsetJ⟩
  else if typeName = "Corotational" ∧ ndf = 3 then
    some ⟨.CorotCrdTransf2d, tag, vec_zero, jntOffsetI, jntOffsetJ⟩
  else if typeName = "Corotational" ∧ ndf = 4 then
    some ⟨.CorotCrdTransfWarping2d, tag, vec_zero, jntOffsetI, jntOffsetJ⟩
  else none

/-- The part "construct the transformation" of the 3-D case. -/
def construct3d (ext : Externals) (typeName : String) (tag : Int)
    (vecxzPlane jntOffsetI jntOffsetJ : Vec) : Option FrameTransform :=
  if typeName = "Linear" then
    if !ext.getenv_CRD then some ⟨.LinearFrameTransf3d, tag, vecxzPlane, jntOffsetI, jntOffsetJ⟩
    else some ⟨.LinearCrdTransf3d, tag, vecxzPlane, jntOffsetI, jntOffsetJ⟩
  else if typeName = "PDelta" ∨ typeName = "LinearWithPDelta" then
    if !ext.getenv_CRD then some ⟨.PDeltaFrameTransf3d, tag, vecxzPlane, jntOffsetI, jntOffsetJ⟩
    else some ⟨.PDeltaCrdTransf3d, tag, vecxzPlane, jntOffsetI, jntOffsetJ⟩
  else if typeName = "Corotational" then
    if ext.getenv_CRD03 then
      some ⟨.CorotFrameTransf3d03, tag, vecxzPlane, jntOffsetI, jntOffsetJ⟩
    else some ⟨.CorotFrameTransf3d, tag, vecxzPlane, jntOffsetI, jntOffsetJ⟩
  else none

/-- The 2-D case of `TclCommand_addGeomTransf` (`ndm == 2` and `ndf == 3` or `4`). -/
def addGeomTransf_2d (ext : Externals) (builder : BasicModelBuilder) (argv : List String)
    (tag : Int) : Option CmdResult :=
  match jntOffsetLoop ext 2 argv (argv.length + 1) 3 vec_zero vec_zero with
  | none => none
  | some none => some ⟨TCL_ERROR, builder⟩
  | some (some (jntOffsetI, jntOffsetJ)) =>
    match construct2d (argAt argv 1) builder.getNDF tag jntOffsetI jntOffsetJ with
    | none => some ⟨TCL_ERROR, builder⟩
    | some crdTransf2d =>
      if (builder.addTaggedObject_FrameTransform2d crdTransf2d).1 ≠ TCL_OK then
        some ⟨TCL_ERROR, (builder.addTaggedObject_FrameTransform2d crdTransf2d).2⟩
      else some ⟨TCL_OK, (builder.addTaggedObject_FrameTransform2d crdTransf2d).2⟩

/-- The orientation of the 3-D case of `TclCommand_addGeomTransf`, read at `argv[3]`: one
list of three numbers, or three numbers; the `argi` and the vector it leaves, `none` for the
return of `TCL_ERROR`, or undefined behaviour when `Tcl_SplitList` fails (its return code is
not tested and `xznum` is read). -/
def orientation3d (ext : Externals) (argv : List String) : Except Fault (Option (Nat × Vec)) :=
  match ext.Tcl_SplitList (argAt argv 3) with
  | none => .error .undefined
  | some xzarg =>
    if xzarg.length = 3 then
      match readElems ext xzarg 0 vec_zero with
      | none => .ok none
      | some v => .ok (some (4, v))
    else
      match readArgs3 ext argv 3 vec_zero with
      | none => .ok none
      | some v => .ok (some (6, v))

/-- The 3-D case of `TclCommand_addGeomTransf` (`ndm == 3` and `ndf >= 6`). -/
def addGeomTransf_3d (ext : Externals) (builder : BasicModelBuilder) (argv : List String) :
    Option (Except Fault CmdResult) :=
  if argv.length < 6 then some (.ok ⟨TCL_ERROR, builder⟩)
  else
    match ext.Tcl_GetInt (argAt argv 2) with
    | none => some (.ok ⟨TCL_ERROR, builder⟩)
    | some tag =>
      match orientation3d ext argv with
      | .error e => some (.error e)
      | .ok none => some (.ok ⟨TCL_ERROR, builder⟩)
      | .ok (some (argi, vecxzPlane)) =>
        match jntOffsetLoop ext 3 argv (argv.length + 1) argi vec_zero vec_zero with
        | none => none
        | some none => some (.ok ⟨TCL_ERROR, builder⟩)
        | some (some (jntOffsetI, jntOffsetJ)) =>
          match construct3d ext (argAt argv 1) tag vecxzPlane jntOffsetI jntOffsetJ with
          | none => some (.ok ⟨TCL_ERROR, builder⟩)
          | some crdTransf3d =>
            if (builder.addTaggedObject_FrameTransform3d crdTransf3d).1 ≠ TCL_OK then
              some (.ok ⟨TCL_ERROR, (builder.addTaggedObject_FrameTransform3d crdTransf3d).2⟩)
            else some (.ok ⟨TCL_OK, (builder.addTaggedObject_FrameTransform3d crdTransf3d).2⟩)

/-- The function `TclCommand_addGeomTransf(clientData, interp, argc, argv)`; `none` is
the end of the fuel of a loop, `.error` undefined behaviour, `.ok` the return with a
completion code. -/
def TclCommand_addGeomTransf (ext : Externals) (builder : BasicModelBuilder)
    (argv : List String) : Option (Except Fault CmdResult) :=
  match TclCommand_addTransformBuilder ext builder argv with
  | none => none
  | some (.error e) => some (.error e)
  | some (.ok r) =>
    if r.code ≠ TCL_OK then some (.ok ⟨TCL_ERROR, r.builder⟩)
    else if argAt argv 0 = "transform" then some (.ok ⟨TCL_OK, r.builder⟩)
    else if argv.length < 3 then some (.ok ⟨TCL_ERROR, r.builder⟩)
    else
      match ext.Tcl_GetInt (argAt argv 2) with
      | none => some (.ok ⟨TCL_ERROR, r.builder⟩)
      | some tag =>
        if ext.getenv_CRD04 then
          match r.builder.getTypedObject_FrameTransformBuilder tag with
          | none => some (.ok ⟨TCL_ERROR, r.builder⟩)
          | some tb =>
            some (.ok ⟨(r.builder.addTaggedObject_FrameTransform3d
                (ext.BasicFrameTransf3d_create tb)).1,
              (r.builder.addTaggedObject_FrameTransform3d
                (ext.BasicFrameTransf3d_create tb)).2⟩)
        else if (r.builder.getNDM = 2 ∧ r.builder.getNDF = 3) ∨
            (r.builder.getNDM = 2 ∧ r.builder.getNDF = 4) then
          (addGeomTransf_2d ext r.builder argv tag).map .ok
        else if r.builder.getNDM = 3 ∧ r.builder.getNDF ≥ 6 then
          addGeomTransf_3d ext r.builder argv
        else some (.ok ⟨TCL_ERROR, r.builder⟩)

/-- The arguments `argv[argi]`, ..., `argv[argi + k - 1]` exist and each is a number for
`Tcl_GetDouble`. -/
def numbersAt (ext : Externals) (argv : List String) : Nat → Nat → Bool
  | 0, _ => true
  | k + 1, argi =>
    decide (argi < argv.length) && (ext.Tcl_GetDouble (argAt argv argi)).isSome &&
      numbersAt ext argv k (argi + 1)

/-- The number that `Tcl_GetDouble` reads from `argv[j]` (zero when it reads none). -/
def numberAt (ext : Externals) (argv : List String) (j : Nat) : Rat :=
  (ext.Tcl_GetDouble (argAt argv j)).getD 0

/-- The offset vector made of the `n` numbers read from `argv[a]` on, the other components
being zero. -/
def offsetFrom (ext : Externals) (argv : List String) (a n : Nat) : Vec :=
  fun m => if m < n then numberAt ext argv (a + m) else 0

/-- The kinematic variants of a transform, as the type names of the command tell them apart. -/
inductive Variant where
  | linear
  | linearInterior
  | pDelta
  | corotational
  | corotationalWarping
  deriving DecidableEq, Repr

/-- The variant that a transform class implements, by its name (none for the wrapper
`BasicFrameTransf3d`, whose variant is the one of the wrapped transform). -/
def TransfClass.variant : TransfClass → Option Variant
  | .LinearCrdTransf2d | .LinearFrameTransf3d | .LinearCrdTransf3d => some .linear
  | .LinearCrdTransf2dInt => some .linearInterior
  | .PDeltaCrdTransf2d | .PDeltaFrameTransf3d | .PDeltaCrdTransf3d => some .pDelta
  | .CorotCrdTransf2d | .CorotFrameTransf3d03 | .CorotFrameTransf3d => some .corotational
  | .CorotCrdTransfWarping2d => some .corotationalWarping
  | .BasicFrameTransf3d => none

/-- The selection of the variant by the type name as the specification words it: in 2-D
`Linear`, `PDelta` or `LinearWithPDelta`, `LinearInt`, and `Corotational` (warping for
`ndf = 4`); in 3-D `Linear`, `PDelta` or `LinearWithPDelta`, `Corotational`; `none` for every
other type name. -/
def variantByTypeName (ndm ndf : Int) (typeName : String) : Option Variant :=
  if ndm = 2 then
    if typeName = "Linear" then some .linear
    else if typeName = "PDelta" ∨ typeName = "LinearWithPDelta" then some .pDelta
    else if typeName = "LinearInt" then some .linearInterior
    else if typeName = "Corotational" then
      (if ndf = 3 then some .corotational
        else if ndf = 4 then some .corotationalWarping else none)
    else none
  else if ndm = 3 then
    if typeName = "Linear" then some .linear
    else if typeName = "PDelta" ∨ typeName = "LinearWithPDelta" then some .pDelta
    else if typeName = "Corotational" then some .corotational
    else none
  else none

/-- The option positions of a command: the indices, from `argi` on, at which the option
loop of `TclCommand_addTransformBuilder` reads a word as a keyword or as a positional
argument, when no error stops it. `-jntOffset` is followed by `2 * ndm` values, `-orient` and
`-offset` by one value, `-offset-local`, `-offset-length` and a positional argument by
none. -/
def optionPositions (ndm : Int) (argv : List String) : Nat → Nat → List Nat
  | 0, _ => []
  | fuel + 1, argi =>
    if argi ≥ argv.length then []
    else if argAt argv argi = "-jntOffset" then
      argi :: optionPositions ndm argv fuel (argi + 1 + ndm.toNat + ndm.toNat)
    else if argAt argv argi = "-orient" then argi :: optionPositions ndm argv fuel (argi + 2)
    else if argAt argv argi = "-offset-local" then
      argi :: optionPositions ndm argv fuel (argi + 1)
    else if argAt argv argi = "-offset-length" then
      argi :: optionPositions ndm argv fuel (argi + 1)
    else if argAt argv argi = "-offset" then argi :: optionPositions ndm argv fuel (argi + 2)
    else argi :: optionPositions ndm argv fuel (argi + 1)

/-- The keywords of the option loop. -/
def isKeyword (w : String) : Bool :=
  w = "-jntOffset" || w = "-orient" || w = "-offset-local" || w = "-offset-length" ||
    w = "-offset"

/-- The flags that the keywords `-offset-local` and `-offset-length` among the words `ws`
stand for: the union of `OffsetLocal`, when the first keyword occurs, and of
`OffsetNormalized`, when the second one occurs. -/
def offsetFlagsOf (ext : Externals) (ws : List String) : Nat :=
  (if "-offset-local" ∈ ws then ext.OffsetLocal else 0) |||
    (if "-offset-length" ∈ ws then ext.OffsetNormalized else 0)

/-! ### Fixtures of the command -/

/-- Value of a nonempty string of decimal digits. -/
def sampleDigits : List Char → Option Nat
  | [] => none
  | cs => if cs.all Char.isDigit then some (cs.foldl (fun v c => 10 * v + (c.toNat - 48)) 0)
    else none

/-- A conversion of decimal integers, with an optional minus sign. -/
def sampleGetInt (s : String) : Option Int :=
  match s.data with
  | '-' :: cs => (sampleDigits cs).map (fun n => -(n : Int))
  | cs => (sampleDigits cs).map (fun n => (n : Int))

/-- Splitting of a string at blanks. -/
def sampleSplit : List Char → List Char → List String
  | [], [] => []
  | [], w => [String.mk w.reverse]
  | c :: cs, w =>
    if c = ' ' then (if w = [] then sampleSplit cs [] else String.mk w.reverse :: sampleSplit cs [])
    else sampleSplit cs (c :: w)

/-- A splitting of lists: a word with as many opening as closing braces is split at
blanks, any other word is no well-formed list. -/
def sampleSplitList (s : String) : Option (List String) :=
  if s.data.count '{' = s.data.count '}' then some (sampleSplit s.data []) else none

/-- Sample externals: decimal integers as numbers, lists split at blanks, scripts without
offset commands, no environment variable set. -/
def sampleExternals : Externals where
  Tcl_GetInt := sampleGetInt
  Tcl_GetDouble := fun s => (sampleGetInt s).map (fun z => (z : Rat))
  Tcl_SplitList := sampleSplitList
  Tcl_Eval := fun _ _ t => .ok (some t)
  getenv_CRD04 := false
  getenv_CRD := false
  getenv_CRD03 := false
  OffsetLocal := 1
  OffsetNormalized := 2
  FrameTransformBuilder_ctor := fun ndm tag name => ⟨ndm, tag, name, vec_zero, fun _ => vec_zero, 0⟩
  BasicFrameTransf3d_create := fun tb =>
    ⟨.BasicFrameTransf3d, tb.tag, tb.vz, tb.offsets 1, tb.offsets 2⟩

/-- A builder with an empty registry. -/
def sampleModel (ndm ndf : Int) (no_clobber : Bool) : BasicModelBuilder :=
  ⟨ndm, ndf, no_clobber, fun _ => none, fun _ => none, fun _ => none⟩

/-! ## `CircReinfLayer` -/

/-- The functions and the constant of `<math.h>` that the section builder uses, over the
field `K` of exact numbers that stands for `double`: `pi` is the value of `acos(-1.0)`. -/
structure MathLib (K : Type) where
  pi : K
  cos : K → K
  sin : K → K

/-- A `Cell` as built by `Cell(material, area, position)`. -/
structure Cell (K : Type) where
  material : Int
  area : K
  position : K × K

/-- The members of `CircReinfLayer`; `material` and `area` are those of the base class
`ReinfLayer`. -/
structure CircReinfLayer (K : Type) where
  material : Int
  area : K
  nReinfBars : Int
  centerPosit : K × K
  arcRad : K
  initAng : K
  finalAng : K

namespace CircReinfLayer

variable {K : Type} [LinearOrderedField K]

/-- The constructor `CircReinfLayer(material, numReinfBars, reinfBarArea, centerPosition,
arcRadius, initialAngle, finalAngle)` of an arc. -/
def arc (material numReinfBars : Int) (reinfBarArea : K) (centerPosition : K × K)
    (arcRadius initialAngle finalAngle : K) : CircReinfLayer K :=
  ⟨material, reinfBarArea, numReinfBars, centerPosition, arcRadius, initialAngle, finalAngle⟩

/-- The constructor `CircReinfLayer(materialID, numReinfBars, reinfBarArea, centerPosition,
radius)` of a full circle. Its base class is initialised with `ReinfLayer(materialID, area)`,
`area` being the member itself, read before it has a value: `area0` is that indeterminate
value, and `reinfBarArea` is not used. -/
def fullCircle (area0 : K) (materialID numReinfBars : Int) (_reinfBarArea : K)
    (centerPosition : K × K) (radius : K) : CircReinfLayer K :=
  ⟨materialID, area0, numReinfBars, centerPosition, radius, 0,
    if numReinfBars > 0 then 360 - 360 / (numReinfBars : K) else 0⟩

/-- The method `getNumReinfBars()`. -/
def getNumReinfBars (L : CircReinfLayer K) : Int :=
  L.nReinfBars

/-- The value of `dtheta` in `getReinfBars()`, for a positive number of bars. -/
def dtheta (M : MathLib K) (L : CircReinfLayer K) : K :=
  if L.nReinfBars > 1 then
    (M.pi * L.finalAng / 180 - M.pi * L.initAng / 180) / ((L.nReinfBars - 1 : Int) : K)
  else 0

/-- The value of `theta` in the pass `i` of the loop of `getReinfBars()`. -/
def theta (M : MathLib K) (L : CircReinfLayer K) (i : Nat) : K :=
  M.pi * L.initAng / 180 + dtheta M L * (i : K)

/-- The cell `bars[i]` that the pass `i` of the loop of `getReinfBars()` assigns. -/
def bar (M : MathLib K) (L : CircReinfLayer K) (i : Nat) : Cell K :=
  ⟨L.material, L.area,
    (L.centerPosit.1 + L.arcRad * M.cos (theta M L i),
      L.centerPosit.2 + L.arcRad * M.sin (theta M L i))⟩

/-- The method `getReinfBars()`: the vector of the bars, or `none` when the constructor of
`std::vector` throws for a negative size. -/
def getReinfBars (M : MathLib K) (L : CircReinfLayer K) : Option (List (Cell K)) :=
  if L.nReinfBars < 0 then none
  else if L.nReinfBars > 0 then some ((List.range L.nReinfBars.toNat).map (bar M L))
  else some []

/-- The angle of the bar `k` of `n` bars spread on the full circle, in degrees. -/
def fullCircleDegrees (n : Int) (k : Nat) : K :=
  (k : K) * 360 / (n : K)

end CircReinfLayer

/-! ## `CircPatch` -/

namespace CircSectionCell

variable {K : Type} [LinearOrderedField K]

end CircSectionCell

namespace CircPatch

variable {K : Type} [LinearOrderedField K]

end CircPatch

/-! ## `TriangleLMEElement`: the control of `shapefn` and `grad_shapefn` -/

/-- A message sent to the console. -/
inductive LogEntry where
  /-- The warning "Max number of iteration for shapefn computation is reached!". -/
  | warn_max_iteration
  /-- The warning "The Hessian matrix is singular!". -/
  | warn_singular
  /-- The error message of the `catch` block. -/
  | error_exception
  deriving DecidableEq, Repr

/-- The floating-point computations of `shapefn` or of `grad_shapefn`, taken from outside:
the functions work on the arguments `X` (the element with `xi`, `lambda` and the deformation
gradient) and on the local variables `σ` (`lambda`, `f`, `p`, `r`, `J`), and give a value `V`
and the `lambda` they leave, of type `L`. A step that throws an exception yields
`Except.error` with the `lambda` it leaves behind. -/
structure LMEKernel (X σ V L : Type) where
  /-- The member `nconnectivity_`. -/
  nconnectivity : X → Nat
  /-- The argument `lambda` as passed in. -/
  lambda_in : X → L
  /-- Modelled from the spec: the call of `TriangleElement<Tdim, 3>::shapefn` or
  `grad_shapefn` with the same arguments. The class `TriangleElement` is not under `src/`;
  as the specification has it, the call gives the linear finite-element value and does not
  assign its argument `lambda`. -/
  fem : X → V
  /-- The variable declared before the `try` block: `shapefn` or `grad_shapefn`. -/
  initial : X → V
  /-- The computations from the start of the `try` block to the Newton iteration. -/
  setup : X → Except L σ
  /-- The test `r.norm() > tolerance`. -/
  residual_large : σ → Bool
  /-- One pass through the body of the loop, up to the convergence check. -/
  body : σ → Except L σ
  /-- The test `r.norm() < tolerance` (in `grad_shapefn`: `r.norm() <= tolerance`). -/
  residual_small : σ → Bool
  /-- The test `rcond < 1E-8` on the singular values of `J`. -/
  singular : σ → Bool
  /-- The value computed from the local variables after the iteration. -/
  value : σ → V
  /-- The argument `lambda` as the local variables hold it. -/
  lambda : σ → L

/-- What `shapefn` or `grad_shapefn` leaves: the value returned, the argument `lambda`, the
number of passes through the loop body, and the messages on the console. -/
structure ShapeResult (V L : Type) where
  value : V
  lambda : L
  iterations : Nat
  log : List LogEntry

/-- What the Newton loop leaves: the local variables, the number of passes through the body,
the messages, and, when an exception left the loop, the `lambda` it leaves. -/
structure LoopEnd (σ L : Type) where
  state : σ
  iterations : Nat
  log : List LogEntry
  thrown : Option L

namespace TriangleLMEElement

variable {X σ V L : Type}

/-- The constant `max_it`. -/
def max_it : Nat := 10

/-- The loop `while (!convergence)` of `shapefn`, entered with the counter `it` after `n`
passes; `none` is the end of the fuel. -/
def shapefn_loop (k : LMEKernel X σ V L) : Nat → Nat → σ → Nat → Option (LoopEnd σ L)
  | 0, _, _, _ => none
  | fuel + 1, it, s, n =>
    match k.body s with
    | .error l => some ⟨s, n + 1, [.error_exception], some l⟩
    | .ok s1 =>
      if k.residual_small s1 then some ⟨s1, n + 1, [], none⟩
      else if it = max_it then
        some ⟨s1, n + 1,
          .warn_max_iteration :: (if k.singular s1 then [.warn_singular] else []), none⟩
      else shapefn_loop k fuel (it + 1) s1 (n + 1)

/-- The loop `while (!convergence)` of `grad_shapefn`. -/
def grad_shapefn_loop (k : LMEKernel X σ V L) : Nat → Nat → σ → Nat → Option (LoopEnd σ L)
  | 0, _, _, _ => none
  | fuel + 1, it, s, n =>
    match k.body s with
    | .error l => some ⟨s, n + 1, [.error_exception], some l⟩
    | .ok s1 =>
      if k.residual_small s1 || decide (it = max_it) then some ⟨s1, n + 1, [], none⟩
      else grad_shapefn_loop k fuel (it + 1) s1 (n + 1)

/-- The function `shapefn(xi, lambda, deformation_gradient)` around the loop `loop`, which
is run with the fuel `fuel`. -/
def run (k : LMEKernel X σ V L)
    (loop : Nat → Nat → σ → Nat → Option (LoopEnd σ L)) (fuel : Nat) (x : X) :
    Option (ShapeResult V L) :=
  if k.nconnectivity x = 3 then some ⟨k.fem x, k.lambda_in x, 0, []⟩
  else
    match k.setup x with
    | .error l => some ⟨k.initial x, l, 0, [.error_exception]⟩
    | .ok s =>
      if k.residual_large s then
        match loop fuel 1 s 0 with
        | none => none
        | some e =>
          match e.thrown with
          | some l => some ⟨k.initial x, l, e.iterations, e.log⟩
          | none => some ⟨k.value e.state, k.lambda e.state, e.iterations, e.log⟩
      else some ⟨k.value s, k.lambda s, 0, []⟩

/-- The method `shapefn(xi, lambda, deformation_gradient)`. -/
def shapefn (k : LMEKernel X σ V L) (x : X) : Option (ShapeResult V L) :=
  run k (shapefn_loop k) max_it x

/-- The method `grad_shapefn(xi, lambda, deformation_gradient)`. -/
def grad_shapefn (k : LMEKernel X σ V L) (x : X) : Option (ShapeResult V L) :=
  run k (grad_shapefn_loop k) max_it x

/-- A kernel on numbers whose residual is never small: the state counts the passes. -/
def sampleKernel (n : Nat) : LMEKernel Nat Nat Nat Nat where
  nconnectivity := fun _ => n
  lambda_in := fun x => x
  fem := fun x => x + 100
  initial := fun _ => 1
  setup := fun x => .ok x
  residual_large := fun _ => true
  body := fun s => .ok (s + 1)
  residual_small := fun _ => false
  singular := fun _ => false
  value := fun s => s
  lambda := fun s => s

end TriangleLMEElement

/-! ## `TriangleLMEElement::shapefn`: the shape functions -/

/-- What the first statements of the `try` block of `shapefn` compute from the arguments
(`pcoord`, `rel_coordinates`, `metric`), seen through the quantities that the rest of the
function takes from them. None of them changes during the Newton iteration. -/
structure LMEGeometry (K Λ : Type) where
  /-- The argument `lambda` as the call of `shapefn_local` leaves it. -/
  lambda : Λ
  /-- The metric distance of the node `n` from the evaluation point, `std::sqrt` of
  `rel_coordinates.col(n).transpose() * metric * rel_coordinates.col(n)`. -/
  distance : Nat → K
  /-- The product `lambda.dot(rel_coordinates.col(n))`. -/
  dot : Λ → Nat → K
  /-- The value of `r.norm()` for the vector `r` summed from the entries `p(n)`. -/
  r_norm : (Nat → K) → K
  /-- The first statements of a pass of the Newton loop: `J` from `p` and `r`, `dlambda`,
  and `lambda = lambda + dlambda`. It yields the new `lambda` and whether `J` has
  `rcond < 1E-8`, or, when a statement throws, the `lambda` left behind. -/
  newton : Λ → (Nat → K) → Except Λ (Λ × Bool)

/-- The element and the arguments of a call of `shapefn`. -/
structure LMEArguments (K Λ : Type) where
  /-- The member `nconnectivity_`. -/
  nconnectivity : Nat
  /-- The member `beta_`. -/
  beta : K
  /-- The member `support_radius_`. -/
  support_radius : K
  /-- The argument `lambda` as passed in. -/
  lambda : Λ
  /-- Modelled from the spec: the value of the call of `TriangleElement<Tdim, 3>::shapefn`
  with the same arguments, a class that is not under `src/`. -/
  fem : Nat → K
  /-- The first statements of the `try` block; when one of them throws, the `lambda` left
  behind. -/
  geometry : Except Λ (LMEGeometry K Λ)

/-- The local variables of `shapefn` during the Newton iteration, with the arguments and
the geometry they belong to; `singular` tells whether the `J` of the last pass has
`rcond < 1E-8`. A vector is given by its entries. -/
structure LMEVars (K Λ : Type) where
  x : LMEArguments K Λ
  g : LMEGeometry K Λ
  lambda : Λ
  f : Nat → K
  p : Nat → K
  singular : Bool

namespace TriangleLMEElement

variable {K Λ : Type} [LinearOrderedField K]

/-- The constant `tolerance`, `1.e-12`. -/
def tolerance : K := 1 / 1000000000000

/-- The loop "Compute functional f in each connectivity", as far as it assigns `f`: the
entries of the nodes inside the support are assigned, the other entries stay. -/
def eval_f (x : LMEArguments K Λ) (g : LMEGeometry K Λ) (lam : Λ) (f : Nat → K) : Nat → K :=
  fun n =>
    if n < x.nconnectivity ∧ g.distance n < x.support_radius then
      -x.beta * g.distance n * g.distance n + g.dot lam n
    else f n

/-- The value of `sum_exp_f` after the loop "Compute functional f in each connectivity":
it starts at `0.` and `std::exp(f(n))` is added for each node inside the support. -/
def sum_exp_f (exp : K → K) (x : LMEArguments K Λ) (g : LMEGeometry K Λ) (f : Nat → K) : K :=
  (List.range x.nconnectivity).foldl
    (fun acc n => if g.distance n < x.support_radius then acc + exp (f n) else acc) 0

/-- The loop "Compute p in each connectivity": the entries of the nodes inside the support
are assigned `std::exp(f(n)) / sum_exp_f`, the other entries stay. -/
def eval_p (exp : K → K) (x : LMEArguments K Λ) (g : LMEGeometry K Λ) (f p : Nat → K) :
    Nat → K :=
  fun n =>
    if n < x.nconnectivity ∧ g.distance n < x.support_radius then
      exp (f n) / sum_exp_f exp x g f
    else p n

/-- The steps of `shapefn` as a kernel of the Newton iteration; `exp` is `std::exp`. Before
the iteration `f` and `p` are `Constant(nconnectivity_, 0.0)` and the variable `shapefn` is
`Constant(nconnectivity_, 1.0)`. -/
def shapefn_kernel (exp : K → K) :
    LMEKernel (LMEArguments K Λ) (LMEVars K Λ) (Nat → K) Λ where
  nconnectivity := fun x => x.nconnectivity
  lambda_in := fun x => x.lambda
  fem := fun x => x.fem
  initial := fun _ _ => 1
  setup := fun x =>
    match x.geometry with
    | .error l => .error l
    | .ok g =>
      .ok ⟨x, g, g.lambda, eval_f x g g.lambda (fun _ => 0),
        eval_p exp x g (eval_f x g g.lambda (fun _ => 0)) (fun _ => 0), false⟩
  residual_large := fun s => decide (s.g.r_norm s.p > tolerance)
  body := fun s =>
    match s.g.newton s.lambda s.p with
    | .error l => .error l
    | .ok (lam, sing) =>
      .ok ⟨s.x, s.g, lam, eval_f s.x s.g lam s.f,
        eval_p exp s.x s.g (eval_f s.x s.g lam s.f) s.p, sing⟩
  residual_small := fun s => decide (s.g.r_norm s.p < tolerance)
  singular := fun s => s.singular
  value := fun s => s.p
  lambda := fun s => s.lambda

/-- The value `f(n)` of a node inside the support for the multiplier `lam`. -/
def f_of (x : LMEArguments K Λ) (g : LMEGeometry K Λ) (lam : Λ) (n : Nat) : K :=
  -x.beta * g.distance n * g.distance n + g.dot lam n

/-- The entries of `p` are those of a partition of unity for the multiplier held: zero
outside the support, the quotient of the exponentials inside. -/
def IsPartition (exp : K → K) (x : LMEArguments K Λ) (g : LMEGeometry K Λ)
    (s : LMEVars K Λ) : Prop :=
  s.x = x ∧ s.g = g ∧
  ∀ n, s.p n =
    if n < x.nconnectivity ∧ g.distance n < x.support_radius then
      exp (f_of x g s.lambda n) /
        ∑ m ∈ (Finset.range x.nconnectivity).filter
          (fun m => g.distance m < x.support_radius), exp (f_of x g s.lambda m)
    else 0

/-- Sample geometry: the node `n` at the distance `n / 2`, a residual that is zero and a
Newton step that leaves `lambda` as it is. -/
def sampleGeometry (K : Type) [LinearOrderedField K] : LMEGeometry K K :=
  ⟨0, fun n => (n : K) / 2, fun l n => l * (n : K), fun _ => 0, fun l _ => .ok (l, false)⟩

/-- Sample arguments: 4 nodes and the support radius 1, with the sample geometry. -/
def sampleArguments (K : Type) [LinearOrderedField K] : LMEArguments K K :=
  ⟨4, 1, 1, 0, fun _ => 0, .ok (sampleGeometry K)⟩

end TriangleLMEElement

/-! ## The element state machine -/

/-- Modelled from the spec: the state of an element, `DispBeamColumnAsym3d.cpp` (the
definitions of the methods declared in `DispBeamColumnAsym3d.h`) being outside `src/`.
"internal state split into trial and committed snapshots"; a snapshot of type `σ` holds the
state of the element with the states of the sections and materials it owns; `initial` is
the as-constructed configuration. -/
structure ElementState (σ : Type) where
  trial : σ
  committed : σ
  initial : σ

namespace ElementState

variable {σ M F : Type}

/-- Modelled from the spec: `commitState()` "promotes trial state (including all owned
sections/materials, each of which is independently committed) to committed"; the code
returned is that of success. -/
def commitState (e : ElementState σ) : Int × ElementState σ :=
  (0, { e with committed := e.trial })

/-- Modelled from the spec: `revertToLastCommit()` returns the state "to the last Committed
snapshot" and restores all owned sub-objects with it. -/
def revertToLastCommit (e : ElementState σ) : Int × ElementState σ :=
  (0, { e with trial := e.committed })

/-- Modelled from the spec: `revertToStart()` "resets all history to the as-constructed
configuration". -/
def revertToStart (e : ElementState σ) : Int × ElementState σ :=
  (0, { e with trial := e.initial, committed := e.initial })

/-- Modelled from the spec: `getTangentStiff()`, a "pure read accessor over current trial
state"; `stiff` is the stiffness of a snapshot. -/
def getTangentStiff (stiff : σ → M) (e : ElementState σ) : M :=
  stiff e.trial

/-- Modelled from the spec: `getResistingForce()`, a pure read accessor over the current
trial state; `force` is the resisting force of a snapshot. -/
def getResistingForce (force : σ → F) (e : ElementState σ) : F :=
  force e.trial

end ElementState

/-! ## Lemmas on the decimal representation -/

theorem digitChar_decValue (d : Nat) (hd : d < 10) :
    (Nat.digitChar d).toNat - 48 = d ∧ Nat.digitChar d ≠ '-' := by
  interval_cases d <;> decide

theorem natDigitCharsAux_spec (fuel : Nat) : ∀ (n : Nat) (acc : List Char), n < fuel →
    ∃ ds : List Char, natDigitCharsAux fuel n acc = ds ++ acc ∧ decValue ds = n ∧
      ∀ c ∈ ds, c ≠ '-' := by
  induction fuel with
  | zero => intro n acc hn; omega
  | succ fuel ih =>
    intro n acc hn
    unfold natDigitCharsAux
    by_cases h10 : n < 10
    · refine ⟨[Nat.digitChar n], by simp [h10], ?_, ?_⟩
      · simp [decValue, (digitChar_decValue n h10).1]
      · intro c hc
        simp only [List.mem_singleton] at hc
        subst hc
        exact (digitChar_decValue n h10).2
    · have hlt : n / 10 < fuel := by omega
      obtain ⟨ds, hds, hval, hminus⟩ := ih (n / 10) (Nat.digitChar (n % 10) :: acc) hlt
      have hmod : n % 10 < 10 := Nat.mod_lt _ (by decide)
      refine ⟨ds ++ [Nat.digitChar (n % 10)], by simp [h10, hds], ?_, ?_⟩
      · unfold decValue at hval ⊢
        rw [List.foldl_append, hval]
        simp only [List.foldl_cons, List.foldl_nil, (digitChar_decValue _ hmod).1]
        omega
      · intro c hc
        rcases List.mem_append.mp hc with hc | hc
        · exact hminus c hc
        · simp only [List.mem_singleton] at hc
          subst hc
          exact (digitChar_decValue _ hmod).2

theorem natDigitChars_spec (n : Nat) :
    decValue (natDigitChars n) = n ∧ ∀ c ∈ natDigitChars n, c ≠ '-' := by
  obtain ⟨ds, hds, hval, hminus⟩ := natDigitCharsAux_spec (n + 1) n [] (Nat.lt_succ_self n)
  have : natDigitChars n = ds := by simpa [natDigitChars] using hds
  rw [this]
  exact ⟨hval, hminus⟩

theorem natDigitChars_injective {m n : Nat} (h : natDigitChars m = natDigitChars n) : m = n := by
  have := congrArg decValue h
  rwa [(natDigitChars_spec m).1, (natDigitChars_spec n).1] at this

/-- Two different integers have different decimal representations. -/
theorem to_string_injective : Function.Injective to_string := by
  intro s t h
  have hd := congrArg String.data h
  cases s with
  | ofNat m =>
    cases t with
    | ofNat n =>
      simp only [to_string] at hd
      rw [natDigitChars_injective hd]
    | negSucc n =>
      simp only [to_string] at hd
      exact absurd rfl ((natDigitChars_spec m).2 '-' (by rw [hd]; simp))
  | negSucc m =>
    cases t with
    | ofNat n =>
      simp only [to_string] at hd
      exact absurd rfl ((natDigitChars_spec n).2 '-' (by rw [← hd]; simp))
    | negSucc n =>
      simp only [to_string, List.cons.injEq, true_and] at hd
      have := natDigitChars_injective hd
      have : m = n := by omega
      rw [this]

/-! ## Lemmas on tables and the heap -/

theorem map_assign_same (m : Table) (name : String) (p : Ptr) :
    map_assign m name p name = some p := by
  simp [map_assign]

theorem map_assign_other (m : Table) (name k : String) (p : Ptr) (hk : k ≠ name) :
    map_assign m name p k = m k := by
  simp [map_assign, hk]

theorem map_insert_absent (m : Table) (name : String) (p : Ptr) (hm : m name = none) :
    map_insert m name p = map_assign m name p := by
  simp [map_insert, map_contains, hm]

theorem map_insert_present (m : Table) (name : String) (p : Ptr)
    (hm : map_contains m name = true) : map_insert m name p = m := by
  simp [map_insert, hm]

theorem map_insert_other (m : Table) (name k : String) (p : Ptr) (hk : k ≠ name) :
    map_insert m name p k = m k := by
  unfold map_insert
  split
  · rfl
  · exact map_assign_other m name k p hk

theorem map_at_present (m : Table) (name : String) (p : Ptr) (hm : m name = some p) :
    map_at m name = .ok p := by
  simp [map_at, hm]

theorem map_at_absent (m : Table) (name : String) (hm : m name = none) :
    map_at m name = .error .out_of_range := by
  simp [map_at, hm]

theorem heap_live_lt {h : Heap} {p : Addr} {o : TaggedObject} (hp : h[p]? = some o) :
    p < h.length := by
  by_contra hge
  rw [List.getElem?_eq_none (Nat.le_of_not_lt hge)] at hp
  exact Option.noConfusion hp

theorem heap_append_live {h : Heap} {p : Addr} {o : TaggedObject} (hp : h[p]? = some o)
    (l : List TaggedObject) : (h ++ l)[p]? = some o := by
  rw [List.getElem?_append_left (heap_live_lt hp)]
  exact hp

theorem getCopy_live {h : Heap} {p : Addr} {o : TaggedObject} (hp : h[p]? = some o) :
    getCopy h p = .ok (some h.length, h ++ [o]) := by
  simp [getCopy, hp]

theorem getTag_live {h : Heap} {p : Addr} {o : TaggedObject} (hp : h[p]? = some o) :
    getTag h p = .ok o.tag := by
  simp [getTag, hp]

namespace TclSafeBuilder

/-! ## Lemmas on the single methods -/

theorem getUniaxialMaterial_live (b : TclSafeBuilder) {h : Heap} {name : String} {p : Addr}
    {o : TaggedObject} (hkey : b.m_UniaxialMaterialMap name = some (some p))
    (hlive : h[p]? = some o) :
    b.getUniaxialMaterial h name = (⟨.ok (some h.length), h ++ [o], b⟩ : Outcome) := by
  simp [getUniaxialMaterial, map_at, hkey, getCopy_live hlive]

theorem getSection_live (b : TclSafeBuilder) {h : Heap} {name : String} {p : Addr}
    {o : TaggedObject} (hkey : b.m_SectionForceDeformationMap name = some (some p))
    (hlive : h[p]? = some o) :
    b.getSection h name = (⟨.ok (some h.length), h ++ [o], b⟩ : Outcome) := by
  simp [getSection, map_at, hkey, getCopy_live hlive]

theorem getNDMaterial_live (b : TclSafeBuilder) {h : Heap} {name : String} {p : Addr}
    {o : TaggedObject} (hkey : b.m_NDMaterialMap name = some (some p))
    (hlive : h[p]? = some o) :
    b.getNDMaterial h name = (⟨.ok (some h.length), h ++ [o], b⟩ : Outcome) := by
  simp [getNDMaterial, map_at, hkey, getCopy_live hlive]

theorem getTimeSeries_live (b : TclSafeBuilder) {h : Heap} {name : String} {p : Addr}
    {o : TaggedObject} (hkey : b.m_TimeSeriesMap name = some (some p))
    (hlive : h[p]? = some o) :
    b.getTimeSeries h name = (⟨.ok (some h.length), h ++ [o], b⟩ : Outcome) := by
  simp [getTimeSeries, map_at, hkey, getCopy_live hlive]

theorem getSectionRepres_present (b : TclSafeBuilder) (h : Heap) {name : String} {p : Ptr}
    (hkey : b.m_SectionRepresMap name = some p) :
    b.getSectionRepres h name = (⟨.ok p, h, b⟩ : Outcome) := by
  cases p <;> simp [getSectionRepres, map_at, hkey]

theorem getHystereticBackbone_present (b : TclSafeBuilder) (h : Heap) {name : String} {p : Ptr}
    (hkey : b.m_HystereticBackboneMap name = some p) :
    b.getHystereticBackbone h name = (⟨.ok p, h, b⟩ : Outcome) := by
  cases p <;> simp [getHystereticBackbone, map_at, hkey]

theorem getCrdTransf_present (b : TclSafeBuilder) (h : Heap) {name : String} {p : Ptr}
    (hkey : b.m_CrdTransfMap name = some p) :
    b.getCrdTransf h name = (⟨.ok p, h, b⟩ : Outcome) := by
  cases p <;> simp [getCrdTransf, map_at, hkey]

/-- A stateful `get...` on a key that holds a live object copies that object. -/
theorem get_stateful_live (b : TclSafeBuilder) {h : Heap} {c : Category} {name : String}
    {p : Addr} {o : TaggedObject} (hc : c.stateful = true)
    (hkey : b.table c name = some (some p)) (hlive : h[p]? = some o) :
    b.get h c name = (⟨.ok (some h.length), h ++ [o], b⟩ : Outcome) := by
  cases c
  case TimeSeries => exact getTimeSeries_live b hkey hlive
  case Section => exact getSection_live b hkey hlive
  case NDMaterial => exact getNDMaterial_live b hkey hlive
  case UniaxialMaterial => exact getUniaxialMaterial_live b hkey hlive
  all_goals exact absurd hc (by decide)

/-- A structural `get...` on a present key returns the stored pointer. -/
theorem get_structural_present (b : TclSafeBuilder) (h : Heap) {c : Category} {name : String}
    {p : Ptr} (hc : c.stateful = false) (hkey : b.table c name = some p) :
    b.get h c name = (⟨.ok p, h, b⟩ : Outcome) := by
  cases c
  case SectionRepres => exact getSectionRepres_present b h hkey
  case HystereticBackbone => exact getHystereticBackbone_present b h hkey
  case CrdTransf => exact getCrdTransf_present b h hkey
  all_goals exact absurd hc (by decide)

/-- The value and the heap of a `get...` depend on the builder through the entry of the key
in the table of the category only. -/
theorem get_congr (b1 b2 : TclSafeBuilder) (h : Heap) (c : Category) (name : String)
    (heq : b1.table c name = b2.table c name) :
    (b1.get h c name).sameResult (b2.get h c name) := by
  cases c <;>
    simp only [table] at heq <;>
    simp only [get, getTimeSeries, getSection, getSectionRepres, getNDMaterial,
      getUniaxialMaterial, getHystereticBackbone, getCrdTransf, map_at, heq,
      Outcome.sameResult] <;>
    (split <;> (try split) <;> simp)

/-- An add touches no table of another category. -/
theorem add_table_other (b : TclSafeBuilder) (c c1 : Category) (name : String) (inst : Addr)
    (hc : c1 ≠ c) : (b.add c name inst).2.table c1 = b.table c1 := by
  cases c <;> cases c1 <;>
    first
    | exact absurd rfl hc
    | rfl
    | (simp only [add, addUniaxialMaterial]; split <;> rfl)

/-- An add touches the entry of no other key. -/
theorem add_table_other_key (b : TclSafeBuilder) (c : Category) (name k : String) (inst : Addr)
    (hk : k ≠ name) : (b.add c name inst).2.table c k = b.table c k := by
  cases c
  case UniaxialMaterial =>
    simp only [add, addUniaxialMaterial]
    split
    · rfl
    · exact map_assign_other _ _ _ _ hk
  case CrdTransf => exact map_insert_other _ _ _ _ hk
  all_goals exact map_assign_other _ _ _ _ hk

/-- An add leaves the clobber flag as it is. -/
theorem add_no_clobber (b : TclSafeBuilder) (c : Category) (name : String) (inst : Addr) :
    (b.add c name inst).2.no_clobber = b.no_clobber := by
  cases c
  case UniaxialMaterial =>
    simp only [add, addUniaxialMaterial]
    split <;> rfl
  all_goals rfl

/-- An add of a uniaxial material that is not rejected assigns the entry and returns
`TCL_OK`. -/
theorem addUniaxialMaterial_accept (b : TclSafeBuilder) (name : String) (inst : Addr)
    (hok : b.canClobber = true ∨ b.m_UniaxialMaterialMap name = none) :
    ∃ b1, b.addUniaxialMaterial name inst = (TCL_OK, b1) ∧
      b1.m_UniaxialMaterialMap = map_assign b.m_UniaxialMaterialMap name (some inst) ∧
      b1.no_clobber = b.no_clobber := by
  have hadd : b.addUniaxialMaterial name inst = (TCL_OK, { b with
      m_UniaxialMaterialMap := map_assign b.m_UniaxialMaterialMap name (some inst) }) := by
    rcases hok with hok | hok
    · simp [addUniaxialMaterial, hok]
    · simp [addUniaxialMaterial, map_contains, hok]
  exact ⟨_, hadd, rfl, rfl⟩

/-! ## The clobber policy and the uniaxial-material table -/

/-- C1: with clobbering disabled and the key already in the uniaxial-material table,
`addUniaxialMaterial(name, instance)` returns `-1` and leaves the builder as it was, and so do
the overloads by reference and by pointer when the tag of the instance is written `name`; a
following `getUniaxialMaterial` on that key returns a copy of the instance registered first. -/
theorem addUniaxialMaterial_conflict (b : TclSafeBuilder) (name : String) (inst : Addr)
    (hclob : b.canClobber = false)
    (hkey : map_contains b.m_UniaxialMaterialMap name = true) :
    b.addUniaxialMaterial name inst = (-1, b) ∧
    (∀ (h : Heap) (t : Int), getTag h inst = .ok t → to_string t = name →
      b.addUniaxialMaterial_ref h inst = .ok (-1, b) ∧
      b.addUniaxialMaterial_ptr h (some inst) = .ok (-1, b)) ∧
    (∀ (h : Heap) (orig : Addr) (o : TaggedObject),
      b.m_UniaxialMaterialMap name = some (some orig) → h[orig]? = some o →
      (b.addUniaxialMaterial name inst).2.getUniaxialMaterial h name
        = (⟨.ok (some h.length), h ++ [o], b⟩ : Outcome)) := by
  have hadd : b.addUniaxialMaterial name inst = (-1, b) := by
    simp [addUniaxialMaterial, hclob, hkey]
  refine ⟨hadd, ?_, ?_⟩
  · intro h t ht hname
    subst hname
    simp [addUniaxialMaterial_ptr, addUniaxialMaterial_ref, ht, hadd]
  · intro h orig o horig hlive
    rw [hadd]
    simp [getUniaxialMaterial, map_at_present _ _ _ horig, getCopy_live hlive]

/-- Witness of C1: the object at address 0 is registered under `5` with clobbering disabled,
and the object at address 1, also of tag 5, is added. -/
theorem addUniaxialMaterial_conflict_witness :
    (sampleBuilder true).canClobber = false ∧
    map_contains (sampleBuilder true).m_UniaxialMaterialMap "5" = true ∧
    (sampleBuilder true).addUniaxialMaterial "5" 1 = (-1, sampleBuilder true) ∧
    (sampleBuilder true).addUniaxialMaterial_ref sampleHeap 1 = .ok (-1, sampleBuilder true) ∧
    (((sampleBuilder true).addUniaxialMaterial "5" 1).2.getUniaxialMaterial sampleHeap "5").value
      = .ok (some 3) ∧
    (((sampleBuilder true).addUniaxialMaterial "5" 1).2.getUniaxialMaterial sampleHeap "5").heap
      = sampleHeap ++ [⟨5, [10]⟩] := by
  have H := addUniaxialMaterial_conflict (sampleBuilder true) "5" 1 (by decide) (by decide)
  have Hget := H.2.2 sampleHeap 0 ⟨5, [10]⟩ (by decide) (by decide)
  exact ⟨by decide, by decide, H.1, (H.2.1 sampleHeap 5 rfl (by decide)).1,
    by rw [Hget]; rfl, by rw [Hget]⟩

/-- C10: `letClobber(x)` makes `canClobber()` return `x`, whatever was set before, and
changes no table; `addUniaxialMaterial` rejects the add with `-1` exactly when `canClobber()`
is false and the key is present, and otherwise assigns the entry and returns `TCL_OK`. -/
theorem letClobber_canClobber (b : TclSafeBuilder) (x y : Bool) (name : String) (inst : Addr) :
    (b.letClobber x).canClobber = x ∧
    ((b.letClobber y).letClobber x).canClobber = x ∧
    (∀ c : Category, (b.letClobber x).table c = b.table c) ∧
    ((b.addUniaxialMaterial name inst).1 = -1 ↔
      (b.canClobber = false ∧ map_contains b.m_UniaxialMaterialMap name = true)) ∧
    (b.canClobber = true →
      b.addUniaxialMaterial name inst = (TCL_OK, { b with
        m_UniaxialMaterialMap := map_assign b.m_UniaxialMaterialMap name (some inst) })) ∧
    ((b.letClobber true).addUniaxialMaterial name inst).1 = TCL_OK ∧
    (((b.letClobber false).addUniaxialMaterial name inst).1 = -1 ↔
      map_contains b.m_UniaxialMaterialMap name = true) := by
  refine ⟨by simp [letClobber, canClobber], by simp [letClobber, canClobber],
    ?_, ?_, ?_, ?_, ?_⟩
  · intro c
    cases c <;> rfl
  · unfold addUniaxialMaterial
    cases hc : b.canClobber <;> cases hk : map_contains b.m_UniaxialMaterialMap name <;>
      simp [TCL_OK]
  · intro hc
    simp [addUniaxialMaterial, hc]
  · simp [addUniaxialMaterial, letClobber, canClobber]
  · unfold addUniaxialMaterial
    cases hk : map_contains b.m_UniaxialMaterialMap name <;>
      simp [letClobber, canClobber, TCL_OK, hk]

/-- C3: on a builder with clobbering disabled and no uniaxial material under the tag `t`,
adding `A` (tag `t`) succeeds, adding `B` (tag `t`) is then rejected with `-1` and `A` stays
registered; after `letClobber(true)` adding `B` succeeds, the entry of `t` is `B`, and
`getUniaxialMaterial(t)` returns a copy of `B`. -/
theorem addUniaxialMaterial_clobber_scenario (b : TclSafeBuilder) (h : Heap) (t : Int)
    (A B : Addr) (oA oB : TaggedObject)
    (hclob : b.canClobber = false)
    (hfree : b.m_UniaxialMaterialMap (to_string t) = none)
    (hA : h[A]? = some oA) (hB : h[B]? = some oB) (htA : oA.tag = t) (htB : oB.tag = t) :
    ∃ b1 b2 : TclSafeBuilder,
      b.addUniaxialMaterial_ref h A = .ok (TCL_OK, b1) ∧
      b1.addUniaxialMaterial_ref h B = .ok (-1, b1) ∧
      b1.getUniaxialMaterial_tag h t = (⟨.ok (some h.length), h ++ [oA], b1⟩ : Outcome) ∧
      (b1.letClobber true).addUniaxialMaterial_ref h B = .ok (TCL_OK, b2) ∧
      b2.canClobber = true ∧
      b2.m_UniaxialMaterialMap (to_string t) = some (some B) ∧
      (A ≠ B → b2.m_UniaxialMaterialMap (to_string t) ≠ some (some A)) ∧
      b2.getUniaxialMaterial_tag h t = (⟨.ok (some h.length), h ++ [oB], b2⟩ : Outcome) := by
  have hgA : getTag h A = .ok t := by rw [getTag_live hA, htA]
  have hgB : getTag h B = .ok t := by rw [getTag_live hB, htB]
  obtain ⟨b1, hadd1, hm1, hc1⟩ :=
    addUniaxialMaterial_accept b (to_string t) A (Or.inr hfree)
  have hclob1 : b1.canClobber = false := by
    simpa [canClobber, hc1] using hclob
  have hkey1 : b1.m_UniaxialMaterialMap (to_string t) = some (some A) := by
    rw [hm1, map_assign_same]
  obtain ⟨b2, hadd2, hm2, hc2⟩ :=
    addUniaxialMaterial_accept (b1.letClobber true) (to_string t) B
      (Or.inl (by simp [letClobber, canClobber]))
  have hkey2 : b2.m_UniaxialMaterialMap (to_string t) = some (some B) := by
    rw [hm2, map_assign_same]
  refine ⟨b1, b2, ?_, ?_, ?_, ?_, ?_, hkey2, ?_, ?_⟩
  · simp [addUniaxialMaterial_ref, hgA, hadd1]
  · have hrej : b1.addUniaxialMaterial (to_string t) B = (-1, b1) := by
      simp [addUniaxialMaterial, hclob1, map_contains, hkey1]
    simp [addUniaxialMaterial_ref, hgB, hrej]
  · exact getUniaxialMaterial_live b1 hkey1 hA
  · simp [addUniaxialMaterial_ref, hgB, hadd2]
  · simp [canClobber, hc2, letClobber]
  · intro hAB
    rw [hkey2]
    simp [Ne.symm hAB]
  · exact getUniaxialMaterial_live b2 hkey2 hB

/-- Witness of C3: tag 5 on the empty builder, with the objects at addresses 0 and 1. -/
theorem addUniaxialMaterial_clobber_scenario_witness :
    ∃ b1 b2 : TclSafeBuilder,
      (empty true).addUniaxialMaterial_ref sampleHeap 0 = .ok (TCL_OK, b1) ∧
      b1.addUniaxialMaterial_ref sampleHeap 1 = .ok (-1, b1) ∧
      b1.getUniaxialMaterial_tag sampleHeap 5
        = (⟨.ok (some sampleHeap.length), sampleHeap ++ [⟨5, [10]⟩], b1⟩ : Outcome) ∧
      (b1.letClobber true).addUniaxialMaterial_ref sampleHeap 1 = .ok (TCL_OK, b2) ∧
      b2.canClobber = true ∧
      b2.m_UniaxialMaterialMap (to_string 5) = some (some 1) ∧
      ((0 : Addr) ≠ 1 → b2.m_UniaxialMaterialMap (to_string 5) ≠ some (some 0)) ∧
      b2.getUniaxialMaterial_tag sampleHeap 5
        = (⟨.ok (some sampleHeap.length), sampleHeap ++ [⟨5, [20]⟩], b2⟩ : Outcome) :=
  addUniaxialMaterial_clobber_scenario (empty true) sampleHeap 5 0 1 ⟨5, [10]⟩ ⟨5, [20]⟩
    (by decide) (by decide) (by decide) (by decide) (by decide) (by decide)

/-! ## Tags and their decimal strings -/

/-- C5: in the five categories with tag overloads, `get(t)` is `get(std::to_string(t))`; and
when an instance of tag `t` is added by its tag (for uniaxial materials and coordinate
transforms: to a builder without that key), the add succeeds and the lookup by `t` and the
lookup by the decimal string of `t` both find it: a copy of it in the stateful categories,
the instance itself for section representations and coordinate transforms. -/
theorem get_by_tag_eq_get_by_string (b : TclSafeBuilder) (h : Heap) (t : Int) (inst : Addr)
    (o : TaggedObject) (hlive : h[inst]? = some o) (htag : o.tag = t)
    (huni : b.m_UniaxialMaterialMap (to_string t) = none)
    (hcrd : b.m_CrdTransfMap (to_string t) = none) :
    (∀ (b0 : TclSafeBuilder) (h0 : Heap) (s : Int),
      b0.getSection_tag h0 s = b0.getSection h0 (to_string s) ∧
      b0.getSectionRepres_tag h0 s = b0.getSectionRepres h0 (to_string s) ∧
      b0.getNDMaterial_tag h0 s = b0.getNDMaterial h0 (to_string s) ∧
      b0.getUniaxialMaterial_tag h0 s = b0.getUniaxialMaterial h0 (to_string s) ∧
      b0.getCrdTransf_tag h0 s = b0.getCrdTransf h0 (to_string s)) ∧
    (∃ b1, b.addSection_ref h inst = .ok (1, b1) ∧
      b1.getSection_tag h t = (⟨.ok (some h.length), h ++ [o], b1⟩ : Outcome) ∧
      b1.getSection h (to_string t) = (⟨.ok (some h.length), h ++ [o], b1⟩ : Outcome)) ∧
    (∃ b1, b.addSectionRepres_ref h inst = .ok (1, b1) ∧
      b1.getSectionRepres_tag h t = (⟨.ok (some inst), h, b1⟩ : Outcome) ∧
      b1.getSectionRepres h (to_string t) = (⟨.ok (some inst), h, b1⟩ : Outcome)) ∧
    (∃ b1, b.addNDMaterial_ref h inst = .ok (1, b1) ∧
      b1.getNDMaterial_tag h t = (⟨.ok (some h.length), h ++ [o], b1⟩ : Outcome) ∧
      b1.getNDMaterial h (to_string t) = (⟨.ok (some h.length), h ++ [o], b1⟩ : Outcome)) ∧
    (∃ b1, b.addUniaxialMaterial_ref h inst = .ok (TCL_OK, b1) ∧
      b.addUniaxialMaterial_ptr h (some inst) = .ok (TCL_OK, b1) ∧
      b1.getUniaxialMaterial_tag h t = (⟨.ok (some h.length), h ++ [o], b1⟩ : Outcome) ∧
      b1.getUniaxialMaterial h (to_string t)
        = (⟨.ok (some h.length), h ++ [o], b1⟩ : Outcome)) ∧
    (∃ b1, b.addCrdTransf_ptr h (some inst) = .ok (1, b1) ∧
      b1.getCrdTransf_tag h t = (⟨.ok (some inst), h, b1⟩ : Outcome) ∧
      b1.getCrdTransf h (to_string t) = (⟨.ok (some inst), h, b1⟩ : Outcome)) := by
  have hg : getTag h inst = .ok t := by rw [getTag_live hlive, htag]
  refine ⟨fun b0 h0 s => ⟨rfl, rfl, rfl, rfl, rfl⟩, ?_, ?_, ?_, ?_, ?_⟩
  · have hkey : (b.addSection (to_string t) inst).2.m_SectionForceDeformationMap (to_string t)
        = some (some inst) := map_assign_same _ _ _
    exact ⟨(b.addSection (to_string t) inst).2, by simp [addSection_ref, hg, addSection],
      getSection_live _ hkey hlive, getSection_live _ hkey hlive⟩
  · have hkey : (b.addSectionRepres (to_string t) inst).2.m_SectionRepresMap (to_string t)
        = some (some inst) := map_assign_same _ _ _
    exact ⟨(b.addSectionRepres (to_string t) inst).2,
      by simp [addSectionRepres_ref, hg, addSectionRepres],
      getSectionRepres_present _ h hkey, getSectionRepres_present _ h hkey⟩
  · have hkey : (b.addNDMaterial (to_string t) inst).2.m_NDMaterialMap (to_string t)
        = some (some inst) := map_assign_same _ _ _
    exact ⟨(b.addNDMaterial (to_string t) inst).2, by simp [addNDMaterial_ref, hg, addNDMaterial],
      getNDMaterial_live _ hkey hlive, getNDMaterial_live _ hkey hlive⟩
  · obtain ⟨b1, hadd, hm, _⟩ := addUniaxialMaterial_accept b (to_string t) inst (Or.inr huni)
    have hkey : b1.m_UniaxialMaterialMap (to_string t) = some (some inst) := by
      rw [hm, map_assign_same]
    exact ⟨b1, by simp [addUniaxialMaterial_ref, hg, hadd],
      by simp [addUniaxialMaterial_ptr, addUniaxialMaterial_ref, hg, hadd],
      getUniaxialMaterial_live _ hkey hlive, getUniaxialMaterial_live _ hkey hlive⟩
  · have hkey : (b.addCrdTransf (to_string t) (some inst)).2.m_CrdTransfMap (to_string t)
        = some (some inst) := by
      simp [addCrdTransf, map_insert_absent _ _ _ hcrd, map_assign_same]
    exact ⟨(b.addCrdTransf (to_string t) (some inst)).2,
      by simp [addCrdTransf_ptr, hg, addCrdTransf],
      getCrdTransf_present _ h hkey, getCrdTransf_present _ h hkey⟩

/-- Witness of C5: the object of tag 7 at address 2 is added to the empty builder. -/
theorem get_by_tag_eq_get_by_string_witness :
    sampleHeap[2]? = some ⟨7, [30]⟩ ∧
    (empty true).m_UniaxialMaterialMap (to_string 7) = none ∧
    (empty true).m_CrdTransfMap (to_string 7) = none ∧
    (∃ b1, (empty true).addSection_ref sampleHeap 2 = .ok (1, b1) ∧
      b1.getSection_tag sampleHeap 7
        = (⟨.ok (some sampleHeap.length), sampleHeap ++ [⟨7, [30]⟩], b1⟩ : Outcome) ∧
      b1.getSection sampleHeap (to_string 7)
        = (⟨.ok (some sampleHeap.length), sampleHeap ++ [⟨7, [30]⟩], b1⟩ : Outcome)) ∧
    (∃ b1, (empty true).addCrdTransf_ptr sampleHeap (some 2) = .ok (1, b1) ∧
      b1.getCrdTransf_tag sampleHeap 7 = (⟨.ok (some 2), sampleHeap, b1⟩ : Outcome) ∧
      b1.getCrdTransf sampleHeap (to_string 7)
        = (⟨.ok (some 2), sampleHeap, b1⟩ : Outcome)) := by
  have H := get_by_tag_eq_get_by_string (empty true) sampleHeap 7 2 ⟨7, [30]⟩
    (by decide) (by decide) (by decide) (by decide)
  exact ⟨by decide, by decide, by decide, H.2.1, H.2.2.2.2.2⟩

/-! ## Copies and shared instances -/

/-- C6: in the stateful categories (section, ND material, uniaxial material, time series) a
`get` on a key that holds a live object returns the result of `getCopy()` on that object,
which is a new object and not the stored one; a second `get` returns another new object;
the builder is left as it was and the stored object is still in place, with its contents. -/
theorem get_stateful_returns_copy (b : TclSafeBuilder) (h : Heap) (c : Category)
    (name : String) (p : Addr) (o : TaggedObject)
    (hc : c.stateful = true) (hkey : b.table c name = some (some p))
    (hlive : h[p]? = some o) :
    (∃ q h1, getCopy h p = .ok (q, h1) ∧ b.get h c name = (⟨.ok q, h1, b⟩ : Outcome)) ∧
    b.get h c name = (⟨.ok (some h.length), h ++ [o], b⟩ : Outcome) ∧
    (b.get h c name).value ≠ .ok (some p) ∧
    (b.get h c name).builder.get (b.get h c name).heap c name
      = (⟨.ok (some (h.length + 1)), h ++ [o] ++ [o], b⟩ : Outcome) ∧
    ((b.get h c name).builder.get (b.get h c name).heap c name).value
      ≠ (b.get h c name).value ∧
    ((b.get h c name).builder.get (b.get h c name).heap c name).value ≠ .ok (some p) ∧
    ((b.get h c name).builder.get (b.get h c name).heap c name).heap[p]? = some o ∧
    ((b.get h c name).builder.get (b.get h c name).heap c name).heap[h.length]? = some o ∧
    ((b.get h c name).builder.get (b.get h c name).heap c name).heap[h.length + 1]? = some o ∧
    (b.get h c name).builder.table c name = some (some p) := by
  have hlt : p < h.length := heap_live_lt hlive
  have h1 : b.get h c name = (⟨.ok (some h.length), h ++ [o], b⟩ : Outcome) :=
    get_stateful_live b hc hkey hlive
  have hlive2 : (h ++ [o])[p]? = some o := heap_append_live hlive [o]
  have h2 : b.get (h ++ [o]) c name
      = (⟨.ok (some (h.length + 1)), h ++ [o] ++ [o], b⟩ : Outcome) := by
    rw [get_stateful_live b hc hkey hlive2]
    simp
  refine ⟨⟨some h.length, h ++ [o], getCopy_live hlive, h1⟩, h1,
    ?_, ?_, ?_, ?_, ?_, ?_, ?_, ?_⟩
  · rw [h1]
    intro hcontra
    have : h.length = p := by simpa using hcontra
    exact Nat.ne_of_gt hlt this
  · rw [h1]
    exact h2
  · rw [h1]
    show (b.get (h ++ [o]) c name).value ≠ _
    rw [h2]
    intro hcontra
    simp at hcontra
  · rw [h1]
    show (b.get (h ++ [o]) c name).value ≠ _
    rw [h2]
    intro hcontra
    have : h.length + 1 = p := by simpa using hcontra
    exact Nat.ne_of_gt (Nat.lt_succ_of_lt hlt) this
  · rw [h1]
    show (b.get (h ++ [o]) c name).heap[p]? = _
    rw [h2]
    exact heap_append_live hlive2 [o]
  · rw [h1]
    show (b.get (h ++ [o]) c name).heap[h.length]? = _
    rw [h2]
    show (h ++ [o] ++ [o])[h.length]? = some o
    rw [List.append_assoc, List.getElem?_append_right (le_refl _)]
    simp
  · rw [h1]
    show (b.get (h ++ [o]) c name).heap[h.length + 1]? = _
    rw [h2]
    show (h ++ [o] ++ [o])[h.length + 1]? = some o
    rw [List.append_assoc, List.getElem?_append_right (Nat.le_succ _)]
    simp
  · rw [h1]
    exact hkey

/-- Witness of C6: the section registered under `5` in the sample builder. -/
theorem get_stateful_returns_copy_witness :
    Category.stateful .Section = true ∧
    (sampleBuilder true).table .Section "5" = some (some 0) ∧
    sampleHeap[0]? = some ⟨5, [10]⟩ ∧
    (sampleBuilder true).get sampleHeap .Section "5"
      = (⟨.ok (some sampleHeap.length), sampleHeap ++ [⟨5, [10]⟩], sampleBuilder true⟩
          : Outcome) ∧
    ((sampleBuilder true).get sampleHeap .Section "5").value ≠ .ok (some 0) := by
  have H := get_stateful_returns_copy (sampleBuilder true) sampleHeap .Section "5" 0 ⟨5, [10]⟩
    (by decide) (by decide) (by decide)
  exact ⟨by decide, by decide, by decide, H.2.1, H.2.2.1⟩

/-- C7: in the structural categories (coordinate transform, section representation,
hysteretic backbone) a `get` on a present key returns the stored pointer itself and changes
neither the heap nor the builder, so a second `get` returns the same pointer; the stored
pointer is the instance given to the add that created the entry. -/
theorem get_structural_returns_instance (b : TclSafeBuilder) (h : Heap) (c : Category)
    (name : String) (p : Ptr)
    (hc : c.stateful = false) (hkey : b.table c name = some p) :
    b.get h c name = (⟨.ok p, h, b⟩ : Outcome) ∧
    (b.get h c name).builder.get (b.get h c name).heap c name = b.get h c name ∧
    (b.get h c name).builder = b ∧
    (b.get h c name).heap = h ∧
    (∀ (b0 : TclSafeBuilder) (inst : Addr), b0.table c name = none →
      (b0.add c name inst).2.get h c name
        = (⟨.ok (some inst), h, (b0.add c name inst).2⟩ : Outcome)) := by
  have h1 : b.get h c name = (⟨.ok p, h, b⟩ : Outcome) := get_structural_present b h hc hkey
  refine ⟨h1, ?_, ?_, ?_, ?_⟩
  · rw [h1]
    exact h1
  · rw [h1]
  · rw [h1]
  · intro b0 inst hfree
    apply get_structural_present _ h hc
    cases c
    case SectionRepres => exact map_assign_same _ _ _
    case HystereticBackbone => exact map_assign_same _ _ _
    case CrdTransf =>
      simp only [table] at hfree
      simp [add, addCrdTransf, table, map_insert_absent _ _ _ hfree, map_assign_same]
    all_goals exact absurd hc (by decide)

/-- Witness of C7: the coordinate transform registered under `5` in the sample builder. -/
theorem get_structural_returns_instance_witness :
    Category.stateful .CrdTransf = false ∧
    (sampleBuilder true).table .CrdTransf "5" = some (some 0) ∧
    (sampleBuilder true).get sampleHeap .CrdTransf "5"
      = (⟨.ok (some 0), sampleHeap, sampleBuilder true⟩ : Outcome) ∧
    ((sampleBuilder true).get sampleHeap .CrdTransf "5").builder.get
        ((sampleBuilder true).get sampleHeap .CrdTransf "5").heap .CrdTransf "5"
      = (sampleBuilder true).get sampleHeap .CrdTransf "5" := by
  have H := get_structural_returns_instance (sampleBuilder true) sampleHeap .CrdTransf "5"
    (some 0) (by decide) (by decide)
  exact ⟨by decide, by decide, H.1, H.2.1⟩

/-- C8: in every category a `get` on a key that is not in the table of the category raises
`std::out_of_range` instead of returning a pointer, and leaves the heap and the builder as
they were: the key is still absent afterwards. -/
theorem get_missing_key (b : TclSafeBuilder) (h : Heap) (c : Category) (name : String)
    (hmiss : b.table c name = none) :
    b.get h c name = (⟨.error .out_of_range, h, b⟩ : Outcome) ∧
    (∀ q : Ptr, (b.get h c name).value ≠ .ok q) ∧
    (b.get h c name).builder = b ∧
    (b.get h c name).builder.table c name = none ∧
    (b.get h c name).heap = h := by
  have h1 : b.get h c name = (⟨.error .out_of_range, h, b⟩ : Outcome) := by
    cases c <;> simp only [table] at hmiss <;>
      simp [get, getTimeSeries, getSection, getSectionRepres, getNDMaterial,
        getUniaxialMaterial, getHystereticBackbone, getCrdTransf, map_at, hmiss]
  refine ⟨h1, ?_, ?_, ?_, ?_⟩
  · intro q
    rw [h1]
    intro hcontra
    cases hcontra
  · rw [h1]
  · rw [h1]
    exact hmiss
  · rw [h1]

/-- Witness of C8: the key `6` is in no table of the sample builder. -/
theorem get_missing_key_witness :
    (sampleBuilder true).table .NDMaterial "6" = none ∧
    (sampleBuilder true).get sampleHeap .NDMaterial "6"
      = (⟨.error .out_of_range, sampleHeap, sampleBuilder true⟩ : Outcome) ∧
    ((sampleBuilder true).get sampleHeap .NDMaterial "6").builder.table .NDMaterial "6"
      = none := by
  have H := get_missing_key (sampleBuilder true) sampleHeap .NDMaterial "6" (by decide)
  exact ⟨by decide, H.1, H.2.2.2.1⟩

/-! ## Frame of an add -/

/-- C9: an add in the category `c` under `name` leaves the table of every other category
`c1` and the entry of every other key `k` as they were, so every `get` in another category
and the `get` on another key return what they returned before, and it leaves the clobber
flag alone; the overloads by tag add under the decimal string of the tag, so adding an
instance of tag `t1` leaves the result of `get(t)` unchanged for every other tag `t`. -/
theorem add_changes_only_its_entry (b : TclSafeBuilder) (h : Heap) (c c1 : Category)
    (name k : String) (inst : Addr) (t t1 : Int)
    (hc : c1 ≠ c) (hk : k ≠ name) (ht : t ≠ t1) (hg : getTag h inst = .ok t1) :
    (b.add c name inst).2.table c1 = b.table c1 ∧
    (∀ (h0 : Heap) (k0 : String),
      ((b.add c name inst).2.get h0 c1 k0).sameResult (b.get h0 c1 k0)) ∧
    (b.add c name inst).2.table c k = b.table c k ∧
    (∀ h0 : Heap, ((b.add c name inst).2.get h0 c k).sameResult (b.get h0 c k)) ∧
    (b.add c name inst).2.no_clobber = b.no_clobber ∧
    b.addTimeSeries_ptr h (some inst) = .ok (b.add .TimeSeries (to_string t1) inst) ∧
    b.addSection_ref h inst = .ok (b.add .Section (to_string t1) inst) ∧
    b.addSectionRepres_ref h inst = .ok (b.add .SectionRepres (to_string t1) inst) ∧
    b.addNDMaterial_ref h inst = .ok (b.add .NDMaterial (to_string t1) inst) ∧
    b.addUniaxialMaterial_ref h inst = .ok (b.add .UniaxialMaterial (to_string t1) inst) ∧
    b.addCrdTransf_ptr h (some inst) = .ok (b.add .CrdTransf (to_string t1) inst) ∧
    (∀ h0 : Heap, ((b.add .Section (to_string t1) inst).2.getSection_tag h0 t).sameResult
      (b.getSection_tag h0 t)) ∧
    (∀ h0 : Heap,
      ((b.add .SectionRepres (to_string t1) inst).2.getSectionRepres_tag h0 t).sameResult
        (b.getSectionRepres_tag h0 t)) ∧
    (∀ h0 : Heap, ((b.add .NDMaterial (to_string t1) inst).2.getNDMaterial_tag h0 t).sameResult
      (b.getNDMaterial_tag h0 t)) ∧
    (∀ h0 : Heap,
      ((b.add .UniaxialMaterial (to_string t1) inst).2.getUniaxialMaterial_tag h0 t).sameResult
        (b.getUniaxialMaterial_tag h0 t)) ∧
    (∀ h0 : Heap, ((b.add .CrdTransf (to_string t1) inst).2.getCrdTransf_tag h0 t).sameResult
      (b.getCrdTransf_tag h0 t)) := by
  have hkey : to_string t ≠ to_string t1 := fun heq => ht (to_string_injective heq)
  have htag : ∀ (c0 : Category) (h0 : Heap),
      ((b.add c0 (to_string t1) inst).2.get h0 c0 (to_string t)).sameResult
        (b.get h0 c0 (to_string t)) := fun c0 h0 =>
    get_congr _ _ h0 c0 _ (add_table_other_key b c0 (to_string t1) (to_string t) inst hkey)
  refine ⟨add_table_other b c c1 name inst hc, ?_, add_table_other_key b c name k inst hk, ?_,
    add_no_clobber b c name inst, ?_, ?_, ?_, ?_, ?_, ?_, htag .Section, htag .SectionRepres,
    htag .NDMaterial, htag .UniaxialMaterial, htag .CrdTransf⟩
  · intro h0 k0
    exact get_congr _ _ h0 c1 k0 (by rw [add_table_other b c c1 name inst hc])
  · intro h0
    exact get_congr _ _ h0 c k (add_table_other_key b c name k inst hk)
  · simp [addTimeSeries_ptr, hg, add, addTimeSeries]
  · simp [addSection_ref, hg, add, addSection]
  · simp [addSectionRepres_ref, hg, add, addSectionRepres]
  · simp [addNDMaterial_ref, hg, add, addNDMaterial]
  · simp [addUniaxialMaterial_ref, hg, add]
  · simp [addCrdTransf_ptr, hg, add]

/-- Witness of C9: a section of tag 7 is added to the sample builder under the key `6`; the
ND materials and the section under `5` are untouched. -/
theorem add_changes_only_its_entry_witness :
    Category.NDMaterial ≠ Category.Section ∧ "5" ≠ "6" ∧ (5 : Int) ≠ 7 ∧
    getTag sampleHeap 2 = .ok 7 ∧
    ((sampleBuilder true).add .Section "6" 2).2.table .NDMaterial
      = (sampleBuilder true).table .NDMaterial ∧
    ((sampleBuilder true).add .Section "6" 2).2.table .Section "5"
      = (sampleBuilder true).table .Section "5" ∧
    (∀ h0 : Heap,
      (((sampleBuilder true).add .Section (to_string 7) 2).2.getSection_tag h0 5).sameResult
        ((sampleBuilder true).getSection_tag h0 5)) := by
  have H := add_changes_only_its_entry (sampleBuilder true) sampleHeap .Section .NDMaterial
    "6" "5" 2 5 7 (by decide) (by decide) (by decide) rfl
  exact ⟨by decide, by decide, by decide, rfl, H.1, H.2.2.1, H.2.2.2.2.2.2.2.2.2.2.2.1⟩

/-- An add that is not rejected overwrites the entry in every category but the coordinate
transforms: the key then holds the instance just added. -/
theorem add_accepted_overwrites (b : TclSafeBuilder) (c : Category) (name : String)
    (inst : Addr) (hc : c ≠ .CrdTransf) (hacc : (b.add c name inst).1 ≠ -1) :
    (b.add c name inst).2.table c name = some (some inst) := by
  cases c
  case CrdTransf => exact absurd rfl hc
  case UniaxialMaterial =>
    simp only [add, addUniaxialMaterial] at hacc ⊢
    split
    · rename_i hrej
      simp [hrej] at hacc
    · exact map_assign_same _ _ _
  all_goals exact map_assign_same _ _ _

/-! ## Adds that miss the clobber policy -/

/-- C2 (the code at the failing input): the sample builder has clobbering disabled and holds
the object at address 0 under `5` in every category. A second add under `5` returns `1`, the
code of a first add, in the six categories other than uniaxial material; for sections, ND
materials, time series, section representations and hysteretic backbones the entry is
replaced, and `get` then yields the second instance (a copy of it for the stateful ones);
for coordinate transforms the entry is kept. The uniaxial add alone returns `-1`. -/
theorem add_second_without_clobber :
    (sampleBuilder true).canClobber = false ∧
    (∀ c : Category, (sampleBuilder true).table c "5" = some (some 0)) ∧
    (∀ c : Category, c ≠ .UniaxialMaterial →
      ((empty true).add c "5" 0).1 = 1 ∧ ((sampleBuilder true).add c "5" 1).1 = 1) ∧
    (∀ c : Category, c ≠ .UniaxialMaterial → c ≠ .CrdTransf →
      ((sampleBuilder true).add c "5" 1).2.table c "5" = some (some 1)) ∧
    (((sampleBuilder true).addSection "5" 1).2.getSection sampleHeap "5").value
      = .ok (some 3) ∧
    (((sampleBuilder true).addSection "5" 1).2.getSection sampleHeap "5").heap
      = sampleHeap ++ [⟨5, [20]⟩] ∧
    (((sampleBuilder true).addNDMaterial "5" 1).2.getNDMaterial sampleHeap "5").heap
      = sampleHeap ++ [⟨5, [20]⟩] ∧
    (((sampleBuilder true).addTimeSeries "5" (some 1)).2.getTimeSeries sampleHeap "5").heap
      = sampleHeap ++ [⟨5, [20]⟩] ∧
    (((sampleBuilder true).addSectionRepres "5" 1).2.getSectionRepres sampleHeap "5").value
      = .ok (some 1) ∧
    (((sampleBuilder true).addHystereticBackbone "5" 1).2.getHystereticBackbone
      sampleHeap "5").value = .ok (some 1) ∧
    ((sampleBuilder true).addCrdTransf "5" (some 1)).1 = 1 ∧
    (((sampleBuilder true).addCrdTransf "5" (some 1)).2.getCrdTransf sampleHeap "5").value
      = .ok (some 0) ∧
    ((sampleBuilder true).addUniaxialMaterial "5" 1).1 = -1 := by
  refine ⟨by decide, ?_, ?_, ?_, rfl, rfl, rfl, rfl, rfl, rfl, rfl, rfl, by decide⟩
  · intro c
    cases c <;> decide
  · intro c hc
    cases c <;> first | exact absurd rfl hc | exact ⟨rfl, rfl⟩
  · intro c hc hc1
    cases c <;> first | exact absurd rfl hc | exact absurd rfl hc1 | decide

/-- C4 (the code at the failing input): the sample builder with clobbering enabled holds the
coordinate transform at address 0 under `5`. Adding the transform at address 1 under `5`
(by name, or by its tag 5) returns `1` and changes nothing: `getCrdTransf` still returns the
transform at address 0. The same second add of a section representation replaces the
entry. -/
theorem addCrdTransf_second_add_keeps_first :
    (sampleBuilder false).canClobber = true ∧
    (sampleBuilder false).m_CrdTransfMap "5" = some (some 0) ∧
    ((sampleBuilder false).addCrdTransf "5" (some 1)).1 = 1 ∧
    ((sampleBuilder false).addCrdTransf "5" (some 1)).2.m_CrdTransfMap "5" = some (some 0) ∧
    (((sampleBuilder false).addCrdTransf "5" (some 1)).2.getCrdTransf sampleHeap "5").value
      = .ok (some 0) ∧
    (((sampleBuilder false).addCrdTransf "5" (some 1)).2.getCrdTransf sampleHeap "5").value
      ≠ .ok (some 1) ∧
    (∃ b1, (sampleBuilder false).addCrdTransf_ptr sampleHeap (some 1) = .ok (1, b1) ∧
      (b1.getCrdTransf_tag sampleHeap 5).value = .ok (some 0)) ∧
    (((sampleBuilder false).addSectionRepres "5" 1).2.getSectionRepres sampleHeap "5").value
      = .ok (some 1) := by
  refine ⟨by decide, by decide, rfl, by decide, rfl, ?_, ⟨_, rfl, rfl⟩, rfl⟩
  intro hcontra
  have h0 : (((sampleBuilder false).addCrdTransf "5" (some 1)).2.getCrdTransf
      sampleHeap "5").value = .ok (some 0) := rfl
  rw [h0] at hcontra
  cases hcontra

/-! ## Removal -/

theorem remove_table_same (b : TclSafeBuilder) (c : Category) (name : String) :
    (b.remove c name).table c name = none := by
  cases c <;> simp [remove, table, map_erase]

/-- C11: in every category, after `remove(key)` a `get(key)` yields NotFound: it raises
`std::out_of_range` and returns no pointer, whatever was registered before, also when the key
was added just before the removal; the same holds for the removal and the lookup by tag. -/
theorem get_after_remove (b : TclSafeBuilder) (h : Heap) (c : Category) (name : String)
    (inst : Addr) (t : Int) :
    (b.remove c name).get h c name
      = (⟨.error .out_of_range, h, b.remove c name⟩ : Outcome) ∧
    (∀ q : Ptr, ((b.remove c name).get h c name).value ≠ .ok q) ∧
    (((b.add c name inst).2.remove c name).get h c name).value = .error .out_of_range ∧
    ((b.remove_tag .Section t).getSection_tag h t).value = .error .out_of_range ∧
    ((b.remove_tag .SectionRepres t).getSectionRepres_tag h t).value = .error .out_of_range ∧
    ((b.remove_tag .NDMaterial t).getNDMaterial_tag h t).value = .error .out_of_range ∧
    ((b.remove_tag .UniaxialMaterial t).getUniaxialMaterial_tag h t).value
      = .error .out_of_range ∧
    ((b.remove_tag .CrdTransf t).getCrdTransf_tag h t).value = .error .out_of_range := by
  have key : ∀ (b0 : TclSafeBuilder) (c0 : Category) (k : String),
      (b0.remove c0 k).get h c0 k = (⟨.error .out_of_range, h, b0.remove c0 k⟩ : Outcome) := by
    intro b0 c0 k
    have hmiss := remove_table_same b0 c0 k
    cases c0 <;> simp only [table] at hmiss <;>
      simp [get, getTimeSeries, getSection, getSectionRepres, getNDMaterial,
        getUniaxialMaterial, getHystereticBackbone, getCrdTransf, map_at, hmiss]
  refine ⟨key b c name, ?_, ?_, ?_, ?_, ?_, ?_, ?_⟩
  · intro q
    rw [key b c name]
    intro hcontra
    cases hcontra
  · rw [key]
  · exact congrArg Outcome.value (key b .Section (to_string t))
  · exact congrArg Outcome.value (key b .SectionRepres (to_string t))
  · exact congrArg Outcome.value (key b .NDMaterial (to_string t))
  · exact congrArg Outcome.value (key b .UniaxialMaterial (to_string t))
  · exact congrArg Outcome.value (key b .CrdTransf (to_string t))

end TclSafeBuilder

/-! ## Lemmas on the `geomTransf` command -/

theorem readDoubles_argi (ext : Externals) (argv : List String) :
    ∀ (k i argi : Nat) (v : Vec) (a : Nat) (w : Vec),
      readDoubles ext argv k i argi v = some (a, w) →
      a = argi + k ∧ (argi ≤ argv.length → a ≤ argv.length) := by
  intro k
  induction k with
  | zero =>
    intro i argi v a w h
    simp only [readDoubles, Option.some.injEq, Prod.mk.injEq] at h
    exact ⟨by omega, fun hle => by omega⟩
  | succ k ih =>
    intro i argi v a w h
    simp only [readDoubles] at h
    split at h
    · exact absurd h (by simp)
    · rename_i hne
      split at h
      · exact absurd h (by simp)
      · obtain ⟨h1, h2⟩ := ih _ _ _ _ _ h
        exact ⟨by omega, fun hle => h2 (by omega)⟩

theorem numbersAt_false_readDoubles (ext : Externals) (argv : List String) :
    ∀ (k i argi : Nat) (v : Vec), argi ≤ argv.length → numbersAt ext argv k argi = false →
      readDoubles ext argv k i argi v = none := by
  intro k
  induction k with
  | zero => intro i argi v _ h; simp [numbersAt] at h
  | succ k ih =>
    intro i argi v hle h
    simp only [readDoubles]
    split
    · rfl
    · rename_i hne
      cases hd : ext.Tcl_GetDouble (argAt argv argi) with
      | none => rfl
      | some x =>
        have hlt : argi < argv.length := by omega
        have hrest : numbersAt ext argv k (argi + 1) = false := by
          simpa [numbersAt, hlt, hd] using h
        exact ih (i + 1) (argi + 1) (vec_set v i x) (by omega) hrest

theorem numbersAt_true_readDoubles (ext : Externals) (argv : List String) :
    ∀ (k i argi : Nat) (v : Vec), numbersAt ext argv k argi = true →
      readDoubles ext argv k i argi v
        = some (argi + k, fun m => if i ≤ m ∧ m < i + k then numberAt ext argv (argi + (m - i))
            else v m) := by
  intro k
  induction k with
  | zero =>
    intro i argi v _
    simp only [readDoubles, Nat.add_zero, Option.some.injEq, Prod.mk.injEq, true_and]
    funext m
    have : ¬ (i ≤ m ∧ m < i) := by omega
    simp [this]
  | succ k ih =>
    intro i argi v h
    simp only [numbersAt, Bool.and_eq_true, decide_eq_true_eq] at h
    obtain ⟨⟨hlt, hnum⟩, hrest⟩ := h
    obtain ⟨x, hx⟩ := Option.isSome_iff_exists.mp hnum
    have hne : ¬ argi = argv.length := by omega
    simp only [readDoubles, hne, if_false, hx]
    rw [ih (i + 1) (argi + 1) (vec_set v i x) hrest]
    have e1 : argi + 1 + k = argi + (k + 1) := by omega
    rw [e1]
    congr 2
    funext m
    by_cases hm : m = i
    · subst hm
      have c1 : ¬ (m + 1 ≤ m ∧ m < m + 1 + k) := by omega
      have c2 : m ≤ m ∧ m < m + (k + 1) := by omega
      simp [c1, c2, vec_set, numberAt, hx]
    · by_cases hin : i + 1 ≤ m ∧ m < i + 1 + k
      · have c2 : i ≤ m ∧ m < i + (k + 1) := by omega
        have e2 : argi + 1 + (m - (i + 1)) = argi + (m - i) := by omega
        simp [hin, c2, e2]
      · have c2 : ¬ (i ≤ m ∧ m < i + (k + 1)) := by omega
        simp [hin, c2, vec_set, hm]

theorem numbersAt_add (ext : Externals) (argv : List String) :
    ∀ (k l argi : Nat), numbersAt ext argv (k + l) argi
      = (numbersAt ext argv k argi && numbersAt ext argv l (argi + k)) := by
  intro k
  induction k with
  | zero => intro l argi; simp [numbersAt]
  | succ k ih =>
    intro l argi
    have e : k + 1 + l = (k + l) + 1 := by omega
    have e2 : argi + (k + 1) = argi + 1 + k := by omega
    rw [e]
    simp only [numbersAt, ih, e2, Bool.and_assoc]

theorem numbersAt_le (ext : Externals) (argv : List String) :
    ∀ (k argi : Nat), argi ≤ argv.length → numbersAt ext argv k argi = true →
      argi + k ≤ argv.length := by
  intro k
  induction k with
  | zero => intro argi hle _; omega
  | succ k ih =>
    intro argi _ h
    simp only [numbersAt, Bool.and_eq_true, decide_eq_true_eq] at h
    have := ih (argi + 1) (by omega) h.2
    omega

theorem argAt_eq_mem {argv : List String} {i : Nat} {s : String} (hs : s ≠ "")
    (h : argAt argv i = s) : s ∈ argv ∧ i < argv.length := by
  unfold argAt at h
  by_cases hi : i < argv.length
  · refine ⟨?_, hi⟩
    rw [← h, List.getD_eq_getElem argv "" hi]
    exact List.getElem_mem hi
  · rw [List.getD_eq_default argv "" (by omega)] at h
    exact absurd h.symm hs

/-- With more fuel than arguments left, the joint-offset loop does not run out of fuel. -/
theorem jntOffsetLoop_total (ext : Externals) (n : Nat) (argv : List String) :
    ∀ (fuel argi : Nat) (I J : Vec), argi ≤ argv.length → argv.length - argi < fuel →
      ∃ r, jntOffsetLoop ext n argv fuel argi I J = some r := by
  intro fuel
  induction fuel with
  | zero => intro argi I J _ hf; omega
  | succ fuel ih =>
    intro argi I J hle hf
    unfold jntOffsetLoop
    split
    · exact ⟨_, rfl⟩
    · rename_i hne
      split
      · split
        · exact ⟨_, rfl⟩
        · rename_i argi1 offI h1
          obtain ⟨e1, b1⟩ := readDoubles_argi ext argv _ _ _ _ _ _ h1
          split
          · exact ⟨_, rfl⟩
          · rename_i argi2 offJ h2
            obtain ⟨e2, b2⟩ := readDoubles_argi ext argv _ _ _ _ _ _ h2
            have hb1 := b1 (by omega)
            have hb2 := b2 hb1
            exact ih _ _ _ hb2 (by omega)
      · exact ⟨_, rfl⟩

theorem registry_add_cases {α : Type} (no_clobber : Bool) (m : Int → Option α) (tag : Int)
    (obj : α) :
    ((registry_add no_clobber m tag obj).1 = TCL_OK ∧
        (registry_add no_clobber m tag obj).2 tag = some obj) ∨
    ((registry_add no_clobber m tag obj).1 = TCL_ERROR ∧
        (registry_add no_clobber m tag obj).2 = m) := by
  unfold registry_add
  split
  · exact Or.inr ⟨rfl, rfl⟩
  · exact Or.inl ⟨rfl, by simp⟩

theorem TCL_ERROR_ne_TCL_OK : TCL_ERROR ≠ TCL_OK := by decide

namespace BasicModelBuilder

theorem addTaggedObject_FrameTransformBuilder_cases (b : BasicModelBuilder)
    (obj : FrameTransformBuilder) :
    ((b.addTaggedObject_FrameTransformBuilder obj).1 = TCL_OK ∧
      (b.addTaggedObject_FrameTransformBuilder obj).2.m_FrameTransformBuilder obj.tag
        = some obj) ∨
    ((b.addTaggedObject_FrameTransformBuilder obj).1 = TCL_ERROR ∧
      (b.addTaggedObject_FrameTransformBuilder obj).2 = b) := by
  rcases registry_add_cases b.no_clobber b.m_FrameTransformBuilder obj.tag obj with h | h
  · exact Or.inl ⟨h.1, h.2⟩
  · refine Or.inr ⟨h.1, ?_⟩
    simp only [addTaggedObject_FrameTransformBuilder, h.2]

theorem addTaggedObject_FrameTransform2d_cases (b : BasicModelBuilder) (obj : FrameTransform) :
    ((b.addTaggedObject_FrameTransform2d obj).1 = TCL_OK ∧
      (b.addTaggedObject_FrameTransform2d obj).2.m_FrameTransform2d obj.tag = some obj) ∨
    ((b.addTaggedObject_FrameTransform2d obj).1 = TCL_ERROR ∧
      (b.addTaggedObject_FrameTransform2d obj).2 = b) := by
  rcases registry_add_cases b.no_clobber b.m_FrameTransform2d obj.tag obj with h | h
  · exact Or.inl ⟨h.1, h.2⟩
  · refine Or.inr ⟨h.1, ?_⟩
    simp only [addTaggedObject_FrameTransform2d, h.2]

theorem addTaggedObject_FrameTransform3d_cases (b : BasicModelBuilder) (obj : FrameTransform) :
    ((b.addTaggedObject_FrameTransform3d obj).1 = TCL_OK ∧
      (b.addTaggedObject_FrameTransform3d obj).2.m_FrameTransform3d obj.tag = some obj) ∨
    ((b.addTaggedObject_FrameTransform3d obj).1 = TCL_ERROR ∧
      (b.addTaggedObject_FrameTransform3d obj).2 = b) := by
  rcases registry_add_cases b.no_clobber b.m_FrameTransform3d obj.tag obj with h | h
  · exact Or.inl ⟨h.1, h.2⟩
  · refine Or.inr ⟨h.1, ?_⟩
    simp only [addTaggedObject_FrameTransform3d, h.2]

end BasicModelBuilder

theorem readDoubles_zero_offsetFrom (ext : Externals) (argv : List String) (n a : Nat)
    (h : numbersAt ext argv n a = true) :
    readDoubles ext argv n 0 a vec_zero = some (a + n, offsetFrom ext argv a n) := by
  rw [numbersAt_true_readDoubles ext argv n 0 a vec_zero h]
  congr 2
  funext m
  simp [offsetFrom, vec_zero]

theorem readDoubles_offsetOver (ext : Externals) (argv : List String) (n a : Nat) (v : Vec)
    (h : numbersAt ext argv n a = true) :
    readDoubles ext argv n 0 a v
      = some (a + n, fun m => if m < n then numberAt ext argv (a + m) else v m) := by
  rw [numbersAt_true_readDoubles ext argv n 0 a v h]
  congr 2
  funext m
  simp

theorem readDoubles_pair_none (ext : Externals) (argv : List String) (n a : Nat) (v w : Vec)
    (ha : a ≤ argv.length) (h : numbersAt ext argv (2 * n) a = false) :
    readDoubles ext argv n 0 a v = none ∨
      ∃ a1 v1, readDoubles ext argv n 0 a v = some (a1, v1) ∧
        readDoubles ext argv n 0 a1 w = none := by
  cases h1 : readDoubles ext argv n 0 a v with
  | none => exact Or.inl rfl
  | some p =>
    obtain ⟨a1, v1⟩ := p
    refine Or.inr ⟨a1, v1, rfl, ?_⟩
    obtain ⟨e1, b1⟩ := readDoubles_argi ext argv _ _ _ _ _ _ h1
    have hfirst : numbersAt ext argv n a = true := by
      by_contra hf
      rw [numbersAt_false_readDoubles ext argv n 0 a v ha (by simpa using hf)] at h1
      exact absurd h1 (by simp)
    have hsplit := numbersAt_add ext argv n n a
    rw [show n + n = 2 * n by omega, h, hfirst] at hsplit
    have hsecond : numbersAt ext argv n (a + n) = false := by simpa using hsplit.symm
    rw [e1]
    exact numbersAt_false_readDoubles ext argv n 0 (a + n) w (by rw [← e1]; exact b1 ha) hsecond

theorem drop_eq_argAt_cons (argv : List String) (argi : Nat) (h : argi < argv.length) :
    argv.drop argi = argAt argv argi :: argv.drop (argi + 1) := by
  rw [List.drop_eq_getElem_cons h]
  unfold argAt
  rw [List.getD_eq_getElem argv "" h]

theorem offsetFlagsOf_local (ext : Externals) (ws : List String) (f : Nat) :
    (f ||| ext.OffsetLocal) ||| offsetFlagsOf ext ws
      = f ||| offsetFlagsOf ext ("-offset-local" :: ws) := by
  unfold offsetFlagsOf
  have h1 : ("-offset-local" ∈ "-offset-local" :: ws) := List.mem_cons_self _ _
  have h2 : ("-offset-length" ∈ "-offset-local" :: ws) ↔ "-offset-length" ∈ ws := by
    simp
  simp only [h1, h2, if_true]
  by_cases hl : "-offset-local" ∈ ws
  · simp only [hl, if_true]
    apply Nat.eq_of_testBit_eq
    intro i
    simp only [Nat.testBit_or]
    cases f.testBit i <;> cases ext.OffsetLocal.testBit i <;> simp
  · simp only [hl, if_false]
    apply Nat.eq_of_testBit_eq
    intro i
    simp only [Nat.testBit_or]
    cases f.testBit i <;> cases ext.OffsetLocal.testBit i <;> simp

theorem offsetFlagsOf_length (ext : Externals) (ws : List String) (f : Nat) :
    (f ||| ext.OffsetNormalized) ||| offsetFlagsOf ext ws
      = f ||| offsetFlagsOf ext ("-offset-length" :: ws) := by
  unfold offsetFlagsOf
  have h1 : ("-offset-length" ∈ "-offset-length" :: ws) := List.mem_cons_self _ _
  have h2 : ("-offset-local" ∈ "-offset-length" :: ws) ↔ "-offset-local" ∈ ws := by
    simp
  simp only [h1, h2, if_true]
  by_cases hl : "-offset-length" ∈ ws
  · simp only [hl, if_true]
    apply Nat.eq_of_testBit_eq
    intro i
    simp only [Nat.testBit_or]
    cases f.testBit i <;> cases ext.OffsetNormalized.testBit i <;>
      cases (if "-offset-local" ∈ ws then ext.OffsetLocal else 0).testBit i <;> simp
  · simp only [hl, if_false]
    apply Nat.eq_of_testBit_eq
    intro i
    simp only [Nat.testBit_or]
    cases f.testBit i <;> cases ext.OffsetNormalized.testBit i <;>
      cases (if "-offset-local" ∈ ws then ext.OffsetLocal else 0).testBit i <;> simp

theorem optionLoop_offset_local (ext : Externals) (ndm : Int) (argv : List String)
    (fuel argi : Nat) (st : ScanState) (hkey : argAt argv argi = "-offset-local") :
    optionLoop ext ndm argv (fuel + 1) argi st
      = optionLoop ext ndm argv fuel (argi + 1)
          ⟨⟨st.transform.ndm, st.transform.tag, st.transform.name, st.transform.vz,
            st.transform.offsets, st.transform.offset_flags ||| ext.OffsetLocal⟩,
            st.parsed_xz, st.argxz⟩ := by
  obtain ⟨_, hlt⟩ := argAt_eq_mem (by decide) hkey
  conv_lhs => unfold optionLoop
  rw [if_neg (by omega), hkey, if_neg (by decide), if_neg (by decide), if_pos rfl]

theorem optionLoop_offset_length (ext : Externals) (ndm : Int) (argv : List String)
    (fuel argi : Nat) (st : ScanState) (hkey : argAt argv argi = "-offset-length") :
    optionLoop ext ndm argv (fuel + 1) argi st
      = optionLoop ext ndm argv fuel (argi + 1)
          ⟨⟨st.transform.ndm, st.transform.tag, st.transform.name, st.transform.vz,
            st.transform.offsets, st.transform.offset_flags ||| ext.OffsetNormalized⟩,
            st.parsed_xz, st.argxz⟩ := by
  obtain ⟨_, hlt⟩ := argAt_eq_mem (by decide) hkey
  conv_lhs => unfold optionLoop
  rw [if_neg (by omega), hkey, if_neg (by decide), if_neg (by decide), if_neg (by decide),
    if_pos rfl]

/-- The 2-D case returns: with `TCL_ERROR` and the builder as it was, or with `TCL_OK` after
a successful add of the transform built for the type name. -/
theorem addGeomTransf_2d_cases (ext : Externals) (b : BasicModelBuilder) (argv : List String)
    (tag : Int) (hlen : 3 ≤ argv.length) :
    ∃ r, addGeomTransf_2d ext b argv tag = some r ∧
      ((r.code = TCL_ERROR ∧ r.builder = b) ∨
       (r.code = TCL_OK ∧ ∃ I J T, construct2d (argAt argv 1) b.getNDF tag I J = some T ∧
         r.builder = (b.addTaggedObject_FrameTransform2d T).2 ∧
         r.builder.m_FrameTransform2d T.tag = some T)) := by
  unfold addGeomTransf_2d
  obtain ⟨lr, hlr⟩ := jntOffsetLoop_total ext 2 argv (argv.length + 1) 3 vec_zero vec_zero
    (by omega) (by omega)
  simp only [hlr]
  cases lr with
  | none => exact ⟨_, rfl, Or.inl ⟨rfl, rfl⟩⟩
  | some IJ =>
    obtain ⟨I, J⟩ := IJ
    simp only
    cases hc : construct2d (argAt argv 1) b.getNDF tag I J with
    | none => exact ⟨_, rfl, Or.inl ⟨rfl, rfl⟩⟩
    | some T =>
      simp only
      rcases b.addTaggedObject_FrameTransform2d_cases T with hadd | hadd
      · exact ⟨_, by rw [if_neg (by simp [hadd.1])], Or.inr ⟨rfl, I, J, T, hc, rfl, hadd.2⟩⟩
      · exact ⟨_, by rw [if_pos (by rw [hadd.1]; exact TCL_ERROR_ne_TCL_OK)],
          Or.inl ⟨rfl, hadd.2⟩⟩

theorem construct2d_variant (typeName : String) (ndf tag : Int) (I J : Vec) (T : FrameTransform)
    (h : construct2d typeName ndf tag I J = some T) :
    T.tag = tag ∧ T.cls.variant = variantByTypeName 2 ndf typeName ∧ T.cls.variant ≠ none := by
  unfold construct2d at h
  unfold variantByTypeName
  by_cases h1 : typeName = "Linear"
  · simp only [h1, if_true, Option.some.injEq] at h ⊢
    subst h
    exact ⟨rfl, rfl, by simp [TransfClass.variant]⟩
  · by_cases h2 : typeName = "LinearInt"
    · subst h2
      simp only [show ¬ ("LinearInt" = "Linear") by decide,
        show ¬ ("LinearInt" = "PDelta" ∨ "LinearInt" = "LinearWithPDelta") by decide,
        if_true, if_false, Option.some.injEq] at h ⊢
      subst h
      exact ⟨rfl, rfl, by simp [TransfClass.variant]⟩
    · by_cases h3 : typeName = "PDelta" ∨ typeName = "LinearWithPDelta"
      · simp only [h1, h2, h3, if_true, if_false, Option.some.injEq] at h ⊢
        subst h
        exact ⟨rfl, rfl, by simp [TransfClass.variant]⟩
      · by_cases h4 : typeName = "Corotational"
        · subst h4
          by_cases hf3 : ndf = 3
          · subst hf3
            simp only [show ¬ ("Corotational" = "Linear") by decide,
              show ¬ ("Corotational" = "LinearInt") by decide,
              show ¬ ("Corotational" = "PDelta" ∨ "Corotational" = "LinearWithPDelta")
                by decide, true_and, if_true, if_false, Option.some.injEq] at h ⊢
            subst h
            exact ⟨rfl, rfl, by simp [TransfClass.variant]⟩
          · by_cases hf4 : ndf = 4
            · subst hf4
              simp only [show ¬ ("Corotational" = "Linear") by decide,
                show ¬ ("Corotational" = "LinearInt") by decide,
                show ¬ ("Corotational" = "PDelta" ∨ "Corotational" = "LinearWithPDelta")
                  by decide, show ¬ ((4 : Int) = 3) by decide, true_and, if_true, if_false,
                Option.some.injEq] at h ⊢
              subst h
              exact ⟨rfl, rfl, by simp [TransfClass.variant]⟩
            · simp [hf3, hf4] at h
        · simp [h1, h2, h3, h4] at h

theorem construct3d_variant (ext : Externals) (typeName : String) (tag : Int) (xz I J : Vec)
    (T : FrameTransform) (h : construct3d ext typeName tag xz I J = some T) (ndf : Int) :
    T.tag = tag ∧ T.cls.variant = variantByTypeName 3 ndf typeName ∧ T.cls.variant ≠ none := by
  unfold construct3d at h
  unfold variantByTypeName
  simp only [show ¬ ((3 : Int) = 2) by decide, if_true, if_false]
  by_cases h1 : typeName = "Linear"
  · simp only [h1, if_true] at h ⊢
    split at h
    · simp only [Option.some.injEq] at h
      subst h
      exact ⟨rfl, rfl, by simp [TransfClass.variant]⟩
    · simp only [Option.some.injEq] at h
      subst h
      exact ⟨rfl, rfl, by simp [TransfClass.variant]⟩
  · by_cases h3 : typeName = "PDelta" ∨ typeName = "LinearWithPDelta"
    · simp only [h1, h3, if_true, if_false] at h ⊢
      split at h
      · simp only [Option.some.injEq] at h
        subst h
        exact ⟨rfl, rfl, by simp [TransfClass.variant]⟩
      · simp only [Option.some.injEq] at h
        subst h
        exact ⟨rfl, rfl, by simp [TransfClass.variant]⟩
    · by_cases h4 : typeName = "Corotational"
      · subst h4
        simp only [show ¬ ("Corotational" = "Linear") by decide,
          show ¬ ("Corotational" = "PDelta" ∨ "Corotational" = "LinearWithPDelta") by decide,
          if_true, if_false] at h ⊢
        split at h
        · simp only [Option.some.injEq] at h
          subst h
          exact ⟨rfl, rfl, by simp [TransfClass.variant]⟩
        · simp only [Option.some.injEq] at h
          subst h
          exact ⟨rfl, rfl, by simp [TransfClass.variant]⟩
      · simp [h1, h3, h4] at h

theorem variantByTypeName_none_construct2d (typeName : String) (ndf tag : Int) (I J : Vec)
    (h : variantByTypeName 2 ndf typeName = none) :
    construct2d typeName ndf tag I J = none := by
  cases hc : construct2d typeName ndf tag I J with
  | none => rfl
  | some T =>
    obtain ⟨_, hv, hne⟩ := construct2d_variant typeName ndf tag I J T hc
    rw [h] at hv
    exact absurd hv hne

theorem variantByTypeName_none_construct3d (ext : Externals) (typeName : String)
    (ndf tag : Int) (xz I J : Vec) (h : variantByTypeName 3 ndf typeName = none) :
    construct3d ext typeName tag xz I J = none := by
  cases hc : construct3d ext typeName tag xz I J with
  | none => rfl
  | some T =>
    obtain ⟨_, hv, hne⟩ := construct3d_variant ext typeName tag xz I J T hc ndf
    rw [h] at hv
    exact absurd hv hne

/-! ## The option loop, step by step -/

/-- One pass of the option loop at an argument: it returns `TCL_ERROR`, or it has undefined
behaviour (at `-orient` with a value that is no well-formed list, or in the evaluation of an
offset script), or it goes on at a later argument with variables that are described: the
orientation is marked as parsed exactly when it was so or the word is `-orient`, and the
first positional argument is recorded when the word is no keyword. -/
theorem optionLoop_step (ext : Externals) (ndm : Int) (argv : List String)
    (fuel argi : Nat) (st : ScanState) (hlt : argi < argv.length) :
    optionLoop ext ndm argv (fuel + 1) argi st = some (.ok none) ∨
    (∃ e, optionLoop ext ndm argv (fuel + 1) argi st = some (.error e) ∧
      ((argAt argv argi = "-orient" ∧ argi + 1 < argv.length ∧
          ext.Tcl_SplitList (argAt argv (argi + 1)) = none) ∨
        (argAt argv argi = "-offset" ∧ argi + 1 < argv.length ∧
          ext.Tcl_Eval (argAt argv (argi + 1)) (TclCommand_addOffset ext) st.transform
            = .error e))) ∨
    ∃ next st2, optionLoop ext ndm argv (fuel + 1) argi st
        = optionLoop ext ndm argv fuel next st2 ∧
      argi < next ∧ next ≤ argv.length ∧
      optionPositions ndm argv (fuel + 1) argi = argi :: optionPositions ndm argv fuel next ∧
      (st2.parsed_xz = (st.parsed_xz || decide (argAt argv argi = "-orient"))) ∧
      (st2.argxz = if isKeyword (argAt argv argi) = true then st.argxz
        else if st.argxz = 0 then argi else st.argxz) := by
  have hne : ¬ argi = argv.length := by omega
  have hge : ¬ argi ≥ argv.length := by omega
  have hpos : optionPositions ndm argv (fuel + 1) argi
      = (if argi ≥ argv.length then []
        else if argAt argv argi = "-jntOffset" then
          argi :: optionPositions ndm argv fuel (argi + 1 + ndm.toNat + ndm.toNat)
        else if argAt argv argi = "-orient" then
          argi :: optionPositions ndm argv fuel (argi + 2)
        else if argAt argv argi = "-offset-local" then
          argi :: optionPositions ndm argv fuel (argi + 1)
        else if argAt argv argi = "-offset-length" then
          argi :: optionPositions ndm argv fuel (argi + 1)
        else if argAt argv argi = "-offset" then
          argi :: optionPositions ndm argv fuel (argi + 2)
        else argi :: optionPositions ndm argv fuel (argi + 1)) := by
    conv_lhs => unfold optionPositions
  by_cases h1 : argAt argv argi = "-jntOffset"
  · have hp : optionPositions ndm argv (fuel + 1) argi
        = argi :: optionPositions ndm argv fuel (argi + 1 + ndm.toNat + ndm.toNat) := by
      rw [hpos, if_neg hge, if_pos h1]
    cases hr1 : readDoubles ext argv ndm.toNat 0 (argi + 1) vec_zero with
    | none =>
      left
      unfold optionLoop
      rw [if_neg hne, if_pos h1]
      simp only [hr1]
    | some p1 =>
      obtain ⟨a1, offI⟩ := p1
      obtain ⟨ha1, hb1⟩ := readDoubles_argi ext argv _ _ _ _ _ _ hr1
      cases hr2 : readDoubles ext argv ndm.toNat 0 a1 vec_zero with
      | none =>
        left
        unfold optionLoop
        rw [if_neg hne, if_pos h1]
        simp only [hr1, hr2]
      | some p2 =>
        obtain ⟨a2, offJ⟩ := p2
        obtain ⟨ha2, hb2⟩ := readDoubles_argi ext argv _ _ _ _ _ _ hr2
        right; right
        refine ⟨argi + 1 + ndm.toNat + ndm.toNat,
          ⟨(st.transform.setOffset 1 offI).setOffset 2 offJ, st.parsed_xz, st.argxz⟩,
          ?_, by omega, ?_, hp, ?_, ?_⟩
        · conv_lhs => unfold optionLoop
          rw [if_neg hne, if_pos h1]
          simp only [hr1, hr2]
          rw [ha2, ha1]
        · have := hb2 (hb1 (by omega))
          omega
        · simp [h1]
        · simp [h1, isKeyword]
  by_cases h2 : argAt argv argi = "-orient"
  · have hp : optionPositions ndm argv (fuel + 1) argi
        = argi :: optionPositions ndm argv fuel (argi + 2) := by
      rw [hpos, if_neg hge, if_neg h1, if_pos h2]
    by_cases hb1 : st.parsed_xz = true
    · left
      unfold optionLoop
      rw [if_neg hne, if_neg h1, if_pos h2, if_pos hb1]
    by_cases hb2 : argi + 1 = argv.length
    · left
      unfold optionLoop
      rw [if_neg hne, if_neg h1, if_pos h2, if_neg hb1, if_pos hb2]
    cases hsp : ext.Tcl_SplitList (argAt argv (argi + 1)) with
    | none =>
      right; left
      refine ⟨.undefined, ?_, Or.inl ⟨h2, by omega, rfl⟩⟩
      unfold optionLoop
      rw [if_neg hne, if_neg h1, if_pos h2, if_neg hb1, if_neg hb2]
      simp only [hsp]
    | some xzarg =>
      by_cases hb3 : xzarg.length ≠ 3
      · left
        unfold optionLoop
        rw [if_neg hne, if_neg h1, if_pos h2, if_neg hb1, if_neg hb2]
        simp only [hsp]
        rw [if_pos hb3]
      cases hre : readElems ext xzarg 0 st.transform.vz with
      | none =>
        left
        unfold optionLoop
        rw [if_neg hne, if_neg h1, if_pos h2, if_neg hb1, if_neg hb2]
        simp only [hsp]
        rw [if_neg hb3]
        simp only [hre]
      | some vz =>
        right; right
        refine ⟨argi + 2, ⟨⟨st.transform.ndm, st.transform.tag, st.transform.name, vz,
          st.transform.offsets, st.transform.offset_flags⟩, true, st.argxz⟩, ?_, by omega,
          by omega, hp, ?_, ?_⟩
        · conv_lhs => unfold optionLoop
          rw [if_neg hne, if_neg h1, if_pos h2, if_neg hb1, if_neg hb2]
          simp only [hsp]
          rw [if_neg hb3]
          simp only [hre]
        · simp [h2]
        · simp [h2, isKeyword]
  by_cases h3 : argAt argv argi = "-offset-local"
  · have hp : optionPositions ndm argv (fuel + 1) argi
        = argi :: optionPositions ndm argv fuel (argi + 1) := by
      rw [hpos, if_neg hge, if_neg h1, if_neg h2, if_pos h3]
    right; right
    refine ⟨argi + 1, _, optionLoop_offset_local ext ndm argv fuel argi st h3, by omega,
      by omega, hp, ?_, ?_⟩
    · simp [h3]
    · simp [h3, isKeyword]
  by_cases h4 : argAt argv argi = "-offset-length"
  · have hp : optionPositions ndm argv (fuel + 1) argi
        = argi :: optionPositions ndm argv fuel (argi + 1) := by
      rw [hpos, if_neg hge, if_neg h1, if_neg h2, if_neg h3, if_pos h4]
    right; right
    refine ⟨argi + 1, _, optionLoop_offset_length ext ndm argv fuel argi st h4, by omega,
      by omega, hp, ?_, ?_⟩
    · simp [h4]
    · simp [h4, isKeyword]
  by_cases h5 : argAt argv argi = "-offset"
  · have hp : optionPositions ndm argv (fuel + 1) argi
        = argi :: optionPositions ndm argv fuel (argi + 2) := by
      rw [hpos, if_neg hge, if_neg h1, if_neg h2, if_neg h3, if_neg h4, if_pos h5]
    by_cases hlast : argi + 1 = argv.length
    · left
      unfold optionLoop
      rw [if_neg hne, if_neg h1, if_neg h2, if_neg h3, if_neg h4, if_pos h5, if_pos hlast]
    cases hev : ext.Tcl_Eval (argAt argv (argi + 1)) (TclCommand_addOffset ext)
        st.transform with
    | error e =>
      right; left
      refine ⟨e, ?_, Or.inr ⟨h5, by omega, rfl⟩⟩
      unfold optionLoop
      rw [if_neg hne, if_neg h1, if_neg h2, if_neg h3, if_neg h4, if_pos h5, if_neg hlast]
      simp only [hev]
    | ok o =>
      cases o with
      | none =>
        left
        unfold optionLoop
        rw [if_neg hne, if_neg h1, if_neg h2, if_neg h3, if_neg h4, if_pos h5, if_neg hlast]
        simp only [hev]
      | some tr =>
        right; right
        refine ⟨argi + 2, ⟨tr, st.parsed_xz, st.argxz⟩, ?_, by omega, by omega, hp, ?_, ?_⟩
        · conv_lhs => unfold optionLoop
          rw [if_neg hne, if_neg h1, if_neg h2, if_neg h3, if_neg h4, if_pos h5,
            if_neg hlast]
          simp only [hev]
        · simp [h2]
        · simp [h5, isKeyword]
  · have hp : optionPositions ndm argv (fuel + 1) argi
        = argi :: optionPositions ndm argv fuel (argi + 1) := by
      rw [hpos, if_neg hge, if_neg h1, if_neg h2, if_neg h3, if_neg h4, if_neg h5]
    right; right
    refine ⟨argi + 1, ⟨st.transform, st.parsed_xz, if st.argxz = 0 then argi else st.argxz⟩,
      ?_, by omega, by omega, hp, ?_, ?_⟩
    · conv_lhs => unfold optionLoop
      rw [if_neg hne, if_neg h1, if_neg h2, if_neg h3, if_neg h4, if_neg h5]
    · simp [h2]
    · simp [h1, h2, h3, h4, h5, isKeyword]

/-- With more fuel than arguments left, the option loop does not run out of fuel. -/
theorem optionLoop_total (ext : Externals) (ndm : Int) (argv : List String) :
    ∀ (fuel argi : Nat) (st : ScanState), argi ≤ argv.length → argv.length - argi < fuel →
      ∃ r, optionLoop ext ndm argv fuel argi st = some r := by
  intro fuel
  induction fuel with
  | zero => intro argi st _ hf; omega
  | succ fuel ih =>
    intro argi st hle hf
    by_cases hlen : argi = argv.length
    · exact ⟨_, by unfold optionLoop; rw [if_pos hlen]⟩
    · rcases optionLoop_step ext ndm argv fuel argi st (by omega) with h | ⟨e, h, _⟩ |
        ⟨next, st2, h, h1, h2, _⟩
      · exact ⟨_, h⟩
      · exact ⟨_, h⟩
      · rw [h]
        exact ih next st2 h2 (by omega)

/-- Run of the option loop over arguments that are all `-offset-local` or `-offset-length`:
it ends without error and leaves the flags joined with those of the keywords met. -/
theorem optionLoop_offset_keywords (ext : Externals) (ndm : Int) (argv : List String) :
    ∀ (d argi fuel : Nat) (st : ScanState), argi + d = argv.length → d + 1 ≤ fuel →
      (∀ i, argi ≤ i → i < argv.length →
        argAt argv i = "-offset-local" ∨ argAt argv i = "-offset-length") →
      optionLoop ext ndm argv fuel argi st
        = some (.ok (some ⟨⟨st.transform.ndm, st.transform.tag, st.transform.name,
            st.transform.vz, st.transform.offsets,
            st.transform.offset_flags ||| offsetFlagsOf ext (argv.drop argi)⟩,
            st.parsed_xz, st.argxz⟩)) := by
  intro d
  induction d with
  | zero =>
    intro argi fuel st hd hf _
    obtain ⟨f, rfl⟩ : ∃ f, fuel = f + 1 := ⟨fuel - 1, by omega⟩
    have hlen : argi = argv.length := by omega
    unfold optionLoop
    rw [if_pos hlen, hlen, List.drop_length]
    simp [offsetFlagsOf]
  | succ d ih =>
    intro argi fuel st hd hf hkw
    obtain ⟨f, rfl⟩ : ∃ f, fuel = f + 1 := ⟨fuel - 1, by omega⟩
    have hlt : argi < argv.length := by omega
    have hkw1 : ∀ i, argi + 1 ≤ i → i < argv.length →
        argAt argv i = "-offset-local" ∨ argAt argv i = "-offset-length" :=
      fun i hi hl => hkw i (by omega) hl
    rcases hkw argi (le_refl _) hlt with hkey | hkey
    · rw [optionLoop_offset_local ext ndm argv f argi st hkey,
        ih (argi + 1) f _ (by omega) (by omega) hkw1, drop_eq_argAt_cons argv argi hlt, hkey]
      simp only [offsetFlagsOf_local]
    · rw [optionLoop_offset_length ext ndm argv f argi st hkey,
        ih (argi + 1) f _ (by omega) (by omega) hkw1, drop_eq_argAt_cons argv argi hlt, hkey]
      simp only [offsetFlagsOf_length]

/-! ## How the commands return -/

/-- `TclCommand_addTransformBuilder` has undefined behaviour, or returns: with `TCL_ERROR`
and the builder as it was, or with `TCL_OK` after a successful add of a transform builder to
the registry. -/
theorem addTransformBuilder_cases (ext : Externals) (b : BasicModelBuilder)
    (argv : List String) :
    ∃ o, TclCommand_addTransformBuilder ext b argv = some o ∧
      ((∃ e, o = .error e ∧
          ((∃ fuel argi st, optionLoop ext b.ndm argv fuel argi st = some (.error e)) ∨
            ∃ st, ensureOrientation ext argv st = .error e)) ∨
       ∃ r, o = .ok r ∧
        ((r.code = TCL_ERROR ∧ r.builder = b) ∨
         (r.code = TCL_OK ∧ 3 ≤ argv.length ∧ (b.ndm = 2 ∨ b.ndm = 3) ∧
           ∃ tr, (b.addTaggedObject_FrameTransformBuilder tr).1 = TCL_OK ∧
             r.builder = (b.addTaggedObject_FrameTransformBuilder tr).2))) := by
  unfold TclCommand_addTransformBuilder
  split
  · exact ⟨_, rfl, Or.inr ⟨_, rfl, Or.inl ⟨rfl, rfl⟩⟩⟩
  · rename_i hlen
    split
    · exact ⟨_, rfl, Or.inr ⟨_, rfl, Or.inl ⟨rfl, rfl⟩⟩⟩
    · rename_i hndm
      have hdim : b.ndm = 2 ∨ b.ndm = 3 := by
        simp only [BasicModelBuilder.getNDM] at hndm
        by_cases h2 : b.ndm = 2
        · exact Or.inl h2
        · by_cases h3 : b.ndm = 3
          · exact Or.inr h3
          · exact absurd ⟨h2, h3⟩ hndm
      cases hint : ext.Tcl_GetInt (argAt argv 2) with
      | none => exact ⟨_, rfl, Or.inr ⟨_, rfl, Or.inl ⟨rfl, rfl⟩⟩⟩
      | some tag =>
        obtain ⟨lr, hlr⟩ := optionLoop_total ext b.getNDM argv (argv.length + 1) 3
          ⟨ext.FrameTransformBuilder_ctor b.getNDM tag (argAt argv 1),
            decide (b.getNDM = 2), 0⟩ (by omega) (by omega)
        simp only [hlr]
        cases lr with
        | error e => exact ⟨_, rfl, Or.inl ⟨e, rfl, Or.inl ⟨_, _, _, hlr⟩⟩⟩
        | ok ost =>
          cases ost with
          | none => exact ⟨_, rfl, Or.inr ⟨_, rfl, Or.inl ⟨rfl, rfl⟩⟩⟩
          | some st =>
            simp only
            cases hori : ensureOrientation ext argv st with
            | error e => exact ⟨_, rfl, Or.inl ⟨e, rfl, Or.inr ⟨st, hori⟩⟩⟩
            | ok otr =>
              cases otr with
              | none => exact ⟨_, rfl, Or.inr ⟨_, rfl, Or.inl ⟨rfl, rfl⟩⟩⟩
              | some tr =>
                simp only
                rcases b.addTaggedObject_FrameTransformBuilder_cases tr with hadd | hadd
                · refine ⟨_, by rw [if_neg (by simp [hadd.1])], Or.inr ⟨_, rfl,
                    Or.inr ⟨rfl, by omega, hdim, tr, hadd.1, rfl⟩⟩⟩
                · refine ⟨_, by rw [if_pos (by rw [hadd.1]; exact TCL_ERROR_ne_TCL_OK)],
                    Or.inr ⟨_, rfl, Or.inl ⟨rfl, hadd.2⟩⟩⟩

/-- The 3-D case has undefined behaviour, or returns: with `TCL_ERROR` and the builder as it
was, or with `TCL_OK` after a successful add of the transform built for the type name. -/
theorem addGeomTransf_3d_cases (ext : Externals) (b : BasicModelBuilder) (argv : List String) :
    ∃ o, addGeomTransf_3d ext b argv = some o ∧
      ((∃ e, o = .error e ∧ 6 ≤ argv.length ∧ ext.Tcl_SplitList (argAt argv 3) = none) ∨
       ∃ r, o = .ok r ∧
        ((r.code = TCL_ERROR ∧ r.builder = b) ∨
         (r.code = TCL_OK ∧ 6 ≤ argv.length ∧ ∃ tag xz I J T,
           ext.Tcl_GetInt (argAt argv 2) = some tag ∧
           construct3d ext (argAt argv 1) tag xz I J = some T ∧
           r.builder = (b.addTaggedObject_FrameTransform3d T).2 ∧
           r.builder.m_FrameTransform3d T.tag = some T))) := by
  unfold addGeomTransf_3d
  split
  · exact ⟨_, rfl, Or.inr ⟨_, rfl, Or.inl ⟨rfl, rfl⟩⟩⟩
  · rename_i hlen
    cases hint : ext.Tcl_GetInt (argAt argv 2) with
    | none => exact ⟨_, rfl, Or.inr ⟨_, rfl, Or.inl ⟨rfl, rfl⟩⟩⟩
    | some tag =>
      simp only
      cases hori : orientation3d ext argv with
      | error e =>
        refine ⟨_, rfl, Or.inl ⟨e, rfl, by omega, ?_⟩⟩
        unfold orientation3d at hori
        cases hsp : ext.Tcl_SplitList (argAt argv 3) with
        | none => rfl
        | some l =>
          rw [hsp] at hori
          simp only at hori
          split at hori
          · split at hori <;> simp at hori
          · split at hori <;> simp at hori
      | ok oax =>
        cases oax with
        | none => exact ⟨_, rfl, Or.inr ⟨_, rfl, Or.inl ⟨rfl, rfl⟩⟩⟩
        | some ax =>
          obtain ⟨argi, xz⟩ := ax
          have hargi : argi ≤ argv.length := by
            unfold orientation3d at hori
            cases hsp : ext.Tcl_SplitList (argAt argv 3) with
            | none =>
              rw [hsp] at hori
              simp at hori
            | some l =>
              rw [hsp] at hori
              simp only at hori
              split at hori
              · split at hori
                · simp at hori
                · simp only [Except.ok.injEq, Option.some.injEq, Prod.mk.injEq] at hori
                  omega
              · split at hori
                · simp at hori
                · simp only [Except.ok.injEq, Option.some.injEq, Prod.mk.injEq] at hori
                  omega
          obtain ⟨lr, hlr⟩ := jntOffsetLoop_total ext 3 argv (argv.length + 1) argi vec_zero
            vec_zero hargi (by omega)
          simp only [hlr]
          cases lr with
          | none => exact ⟨_, rfl, Or.inr ⟨_, rfl, Or.inl ⟨rfl, rfl⟩⟩⟩
          | some IJ =>
            obtain ⟨I, J⟩ := IJ
            simp only
            cases hc : construct3d ext (argAt argv 1) tag xz I J with
            | none => exact ⟨_, rfl, Or.inr ⟨_, rfl, Or.inl ⟨rfl, rfl⟩⟩⟩
            | some T =>
              simp only
              rcases b.addTaggedObject_FrameTransform3d_cases T with hadd | hadd
              · exact ⟨_, by rw [if_neg (by simp [hadd.1])], Or.inr ⟨_, rfl,
                  Or.inr ⟨rfl, by omega, tag, xz, I, J, T, rfl, hc, rfl, hadd.2⟩⟩⟩
              · exact ⟨_, by rw [if_pos (by rw [hadd.1]; exact TCL_ERROR_ne_TCL_OK)],
                  Or.inr ⟨_, rfl, Or.inl ⟨rfl, hadd.2⟩⟩⟩

/-- How `TclCommand_addGeomTransf` ends, by the result of its first step
`TclCommand_addTransformBuilder`: undefined behaviour of the first step is that of the
command; after a first step that returns, the command has undefined behaviour only in the
3-D case, and otherwise returns as described. -/
theorem addGeomTransf_cases (ext : Externals) (b : BasicModelBuilder) (argv : List String) :
    ∃ o1 o, TclCommand_addTransformBuilder ext b argv = some o1 ∧
      TclCommand_addGeomTransf ext b argv = some o ∧
      ((∃ e, o1 = .error e ∧ o = .error e) ∨
       ∃ r1, o1 = .ok r1 ∧
        r1.builder.ndm = b.ndm ∧ r1.builder.ndf = b.ndf ∧
        r1.builder.m_FrameTransform2d = b.m_FrameTransform2d ∧
        r1.builder.m_FrameTransform3d = b.m_FrameTransform3d ∧
        ((∃ e, o = .error e ∧ r1.code = TCL_OK ∧ argAt argv 0 ≠ "transform" ∧
            ext.getenv_CRD04 = false ∧ b.ndm = 3 ∧ b.ndf ≥ 6 ∧ 6 ≤ argv.length ∧
            ext.Tcl_SplitList (argAt argv 3) = none) ∨
         ∃ r, o = .ok r ∧
          ((r.code = TCL_ERROR ∧ r.builder = r1.builder) ∨
           (r.code = TCL_OK ∧ r1.code = TCL_OK ∧
             (argAt argv 0 = "transform" ∧ r.builder = r1.builder ∨
              (argAt argv 0 ≠ "transform" ∧ ext.getenv_CRD04 = true ∧ ∃ T,
                r.builder = (r1.builder.addTaggedObject_FrameTransform3d T).2) ∨
              (argAt argv 0 ≠ "transform" ∧ ext.getenv_CRD04 = false ∧ b.ndm = 2 ∧
                (b.ndf = 3 ∨ b.ndf = 4) ∧ ∃ tag I J T,
                  ext.Tcl_GetInt (argAt argv 2) = some tag ∧
                  construct2d (argAt argv 1) b.ndf tag I J = some T ∧
                  r.builder = (r1.builder.addTaggedObject_FrameTransform2d T).2 ∧
                  r.builder.m_FrameTransform2d T.tag = some T) ∨
              (argAt argv 0 ≠ "transform" ∧ ext.getenv_CRD04 = false ∧ b.ndm = 3 ∧
                b.ndf ≥ 6 ∧ 6 ≤ argv.length ∧ ∃ tag xz I J T,
                  ext.Tcl_GetInt (argAt argv 2) = some tag ∧
                  construct3d ext (argAt argv 1) tag xz I J = some T ∧
                  r.builder = (r1.builder.addTaggedObject_FrameTransform3d T).2 ∧
                  r.builder.m_FrameTransform3d T.tag = some T)))))) := by
  obtain ⟨o1, ho1, hcase⟩ := addTransformBuilder_cases ext b argv
  rcases hcase with ⟨e, he, _⟩ | ⟨r1, hr1, hcase⟩
  · subst he
    refine ⟨_, _, ho1, ?_, Or.inl ⟨e, rfl, rfl⟩⟩
    unfold TclCommand_addGeomTransf
    rw [ho1]
  subst hr1
  have hsame : r1.builder.ndm = b.ndm ∧ r1.builder.ndf = b.ndf ∧
      r1.builder.m_FrameTransform2d = b.m_FrameTransform2d ∧
      r1.builder.m_FrameTransform3d = b.m_FrameTransform3d := by
    rcases hcase with ⟨_, hb⟩ | ⟨_, _, _, tr, _, hb⟩
    · rw [hb]
      exact ⟨rfl, rfl, rfl, rfl⟩
    · rw [hb]
      exact ⟨rfl, rfl, rfl, rfl⟩
  obtain ⟨hndm, hndf, h2d, h3d⟩ := hsame
  refine ⟨.ok r1, ?_⟩
  suffices hmain : ∃ o, TclCommand_addGeomTransf ext b argv = some o ∧
      ((∃ e, o = .error e ∧ r1.code = TCL_OK ∧ argAt argv 0 ≠ "transform" ∧
          ext.getenv_CRD04 = false ∧ b.ndm = 3 ∧ b.ndf ≥ 6 ∧ 6 ≤ argv.length ∧
          ext.Tcl_SplitList (argAt argv 3) = none) ∨
       ∃ r, o = .ok r ∧
        ((r.code = TCL_ERROR ∧ r.builder = r1.builder) ∨
         (r.code = TCL_OK ∧ r1.code = TCL_OK ∧
           (argAt argv 0 = "transform" ∧ r.builder = r1.builder ∨
            (argAt argv 0 ≠ "transform" ∧ ext.getenv_CRD04 = true ∧ ∃ T,
              r.builder = (r1.builder.addTaggedObject_FrameTransform3d T).2) ∨
            (argAt argv 0 ≠ "transform" ∧ ext.getenv_CRD04 = false ∧ b.ndm = 2 ∧
              (b.ndf = 3 ∨ b.ndf = 4) ∧ ∃ tag I J T,
                ext.Tcl_GetInt (argAt argv 2) = some tag ∧
                construct2d (argAt argv 1) b.ndf tag I J = some T ∧
                r.builder = (r1.builder.addTaggedObject_FrameTransform2d T).2 ∧
                r.builder.m_FrameTransform2d T.tag = some T) ∨
            (argAt argv 0 ≠ "transform" ∧ ext.getenv_CRD04 = false ∧ b.ndm = 3 ∧
              b.ndf ≥ 6 ∧ 6 ≤ argv.length ∧ ∃ tag xz I J T,
                ext.Tcl_GetInt (argAt argv 2) = some tag ∧
                construct3d ext (argAt argv 1) tag xz I J = some T ∧
                r.builder = (r1.builder.addTaggedObject_FrameTransform3d T).2 ∧
                r.builder.m_FrameTransform3d T.tag = some T))))) by
    obtain ⟨o, ho, hc⟩ := hmain
    exact ⟨o, ho1, ho, Or.inr ⟨r1, rfl, hndm, hndf, h2d, h3d, hc⟩⟩
  unfold TclCommand_addGeomTransf
  simp only [ho1]
  by_cases hcode : r1.code ≠ TCL_OK
  · rw [if_pos hcode]
    exact ⟨_, rfl, Or.inr ⟨_, rfl, Or.inl ⟨rfl, rfl⟩⟩⟩
  · have hok : r1.code = TCL_OK := not_not.mp hcode
    rw [if_neg hcode]
    have hlen : 3 ≤ argv.length := by
      rcases hcase with ⟨he, _⟩ | ⟨_, hl, _⟩
      · rw [he] at hok
        exact absurd hok TCL_ERROR_ne_TCL_OK
      · exact hl
    by_cases hname : argAt argv 0 = "transform"
    · rw [if_pos hname]
      exact ⟨_, rfl, Or.inr ⟨_, rfl, Or.inr ⟨rfl, hok, Or.inl ⟨hname, rfl⟩⟩⟩⟩
    · rw [if_neg hname, if_neg (by omega)]
      cases hint : ext.Tcl_GetInt (argAt argv 2) with
      | none => exact ⟨_, rfl, Or.inr ⟨_, rfl, Or.inl ⟨rfl, rfl⟩⟩⟩
      | some tag =>
        simp only
        cases hcrd : ext.getenv_CRD04 with
        | true =>
          simp only [if_true]
          cases hget : r1.builder.getTypedObject_FrameTransformBuilder tag with
          | none => exact ⟨_, rfl, Or.inr ⟨_, rfl, Or.inl ⟨rfl, rfl⟩⟩⟩
          | some tb =>
            simp only
            rcases r1.builder.addTaggedObject_FrameTransform3d_cases
              (ext.BasicFrameTransf3d_create tb) with hadd | hadd
            · exact ⟨_, rfl, Or.inr ⟨_, rfl,
                Or.inr ⟨hadd.1, hok, Or.inr (Or.inl ⟨hname, trivial, _, rfl⟩)⟩⟩⟩
            · exact ⟨_, rfl, Or.inr ⟨_, rfl, Or.inl ⟨hadd.1, hadd.2⟩⟩⟩
        | false =>
          simp only [Bool.false_eq_true, if_false, BasicModelBuilder.getNDM,
            BasicModelBuilder.getNDF, hndm, hndf]
          by_cases hd2 : (b.ndm = 2 ∧ b.ndf = 3) ∨ (b.ndm = 2 ∧ b.ndf = 4)
          · rw [if_pos hd2]
            obtain ⟨r, hr, hrc⟩ := addGeomTransf_2d_cases ext r1.builder argv tag hlen
            refine ⟨.ok r, by rw [hr]; rfl, Or.inr ⟨r, rfl, ?_⟩⟩
            rcases hrc with hrc | ⟨hrok, I, J, T, hcon, hb, hreg⟩
            · exact Or.inl hrc
            · refine Or.inr ⟨hrok, hok, Or.inr (Or.inr (Or.inl ⟨hname, trivial, ?_, ?_, tag, I, J,
                T, rfl, ?_, hb, hreg⟩))⟩
              · rcases hd2 with h | h <;> exact h.1
              · rcases hd2 with h | h
                · exact Or.inl h.2
                · exact Or.inr h.2
              · simpa [BasicModelBuilder.getNDF, hndf] using hcon
          · rw [if_neg hd2]
            by_cases hd3 : b.ndm = 3 ∧ b.ndf ≥ 6
            · rw [if_pos hd3]
              obtain ⟨o, ho, hoc⟩ := addGeomTransf_3d_cases ext r1.builder argv
              refine ⟨o, ho, ?_⟩
              rcases hoc with ⟨e, he, hl6, hsp⟩ | ⟨r, hr, hrc⟩
              · exact Or.inl ⟨e, he, hok, hname, trivial, hd3.1, hd3.2, hl6, hsp⟩
              · refine Or.inr ⟨r, hr, ?_⟩
                rcases hrc with hrc | ⟨hrok, hl6, tag3, xz, I, J, T, htag3, hcon, hb, hreg⟩
                · exact Or.inl hrc
                · exact Or.inr ⟨hrok, hok, Or.inr (Or.inr (Or.inr ⟨hname, trivial, hd3.1,
                    hd3.2, hl6, tag3, xz, I, J, T, hint ▸ htag3, hcon, hb, hreg⟩))⟩
            · rw [if_neg hd3]
              exact ⟨_, rfl, Or.inr ⟨_, rfl, Or.inl ⟨rfl, rfl⟩⟩⟩

/-- C13: a failing `geomTransf` command does not abort the whole add. Whatever
`TclCommand_addGeomTransf` returns, the table of the transform builders is as its first step
`TclCommand_addTransformBuilder` left it: no path removes the transform builder that the
first step registered. In a 2-D model with an empty registry and clobbering disabled,
`geomTransf Foo 1` returns `TCL_ERROR` for the unknown type name and leaves the transform
builder of type `Foo` registered under the tag 1; the corrected command `geomTransf Linear 1`
then returns `TCL_ERROR` too, while on the registry as it was before it returns `TCL_OK`. -/
theorem failing_geomTransf_leaves_builder :
    (∀ (ext : Externals) (b : BasicModelBuilder) (argv : List String) (r1 r : CmdResult),
      TclCommand_addTransformBuilder ext b argv = some (.ok r1) →
      TclCommand_addGeomTransf ext b argv = some (.ok r) →
      r.builder.m_FrameTransformBuilder = r1.builder.m_FrameTransformBuilder) ∧
    ∃ r, TclCommand_addGeomTransf sampleExternals (sampleModel 2 3 true)
        ["geomTransf", "Foo", "1"] = some (.ok r) ∧
      r.code = TCL_ERROR ∧
      (sampleModel 2 3 true).m_FrameTransformBuilder 1 = none ∧
      (r.builder.m_FrameTransformBuilder 1).map (fun t => (t.ndm, t.tag, t.name))
        = some (2, 1, "Foo") ∧
      (TclCommand_addGeomTransf sampleExternals r.builder ["geomTransf", "Linear", "1"]).map
        (fun o => o.toOption.map (fun r2 => r2.code)) = some (some TCL_ERROR) ∧
      (TclCommand_addGeomTransf sampleExternals (sampleModel 2 3 true)
        ["geomTransf", "Linear", "1"]).map
        (fun o => o.toOption.map (fun r2 => r2.code)) = some (some TCL_OK) := by
  refine ⟨?_, _, rfl, rfl, rfl, rfl, rfl, rfl⟩
  intro ext b argv r1 r h1 h
  obtain ⟨o1, o, ho1, ho, hcase⟩ := addGeomTransf_cases ext b argv
  rw [h1] at ho1
  rw [h] at ho
  have e1 : o1 = .ok r1 := (Option.some.inj ho1).symm
  have e2 : o = .ok r := (Option.some.inj ho).symm
  subst e1
  subst e2
  rcases hcase with ⟨e, he, _⟩ | ⟨r1', hr1', _, _, _, _, hc⟩
  · simp at he
  · have : r1 = r1' := by simpa using hr1'
    subst this
    rcases hc with ⟨e, he, _⟩ | ⟨r2, hr2, hc⟩
    · simp at he
    · have : r = r2 := by simpa using hr2
      subst this
      rcases hc with ⟨_, hb⟩ | ⟨_, _, hc⟩
      · rw [hb]
      · rcases hc with ⟨_, hb⟩ | ⟨_, _, T, hb⟩ | ⟨_, _, _, _, _, _, _, T, _, _, hb, _⟩ |
          ⟨_, _, _, _, _, _, _, _, _, T, _, _, hb, _⟩
        · rw [hb]
        · rw [hb]
          rfl
        · rw [hb]
          rfl
        · rw [hb]
          rfl

/-! ## The orientation vector -/

/-- C20: where a loop of the command meets `-jntOffset` at `argv[argi]`, it returns
`TCL_ERROR` when fewer than `2 * ndm` arguments follow or one of them is not a number, and
otherwise goes on behind them with the first `ndm` numbers as the offset of end I and the
next `ndm` numbers as the offset of end J: in the option loop of
`TclCommand_addTransformBuilder` (offsets 1 and 2 of the transform builder) and in the 2-D and
3-D loops of `TclCommand_addGeomTransf` (`jntOffsetI`, `jntOffsetJ`). With `-jntOffset` right
after the tag and too few numbers behind it both commands return `TCL_ERROR`. -/
theorem jntOffset_values (ext : Externals) (argv : List String) (argi : Nat)
    (hkey : argAt argv argi = "-jntOffset") :
    (∀ (ndm : Int) (fuel : Nat) (st : ScanState),
      (numbersAt ext argv (2 * ndm.toNat) (argi + 1) = false →
        optionLoop ext ndm argv (fuel + 1) argi st = some (.ok none)) ∧
      (numbersAt ext argv (2 * ndm.toNat) (argi + 1) = true →
        optionLoop ext ndm argv (fuel + 1) argi st
          = optionLoop ext ndm argv fuel (argi + 1 + 2 * ndm.toNat)
              ⟨(st.transform.setOffset 1 (offsetFrom ext argv (argi + 1) ndm.toNat)).setOffset
                2 (offsetFrom ext argv (argi + 1 + ndm.toNat) ndm.toNat),
                st.parsed_xz, st.argxz⟩)) ∧
    (∀ (n fuel : Nat) (I J : Vec),
      (numbersAt ext argv (2 * n) (argi + 1) = false →
        jntOffsetLoop ext n argv (fuel + 1) argi I J = some none) ∧
      (numbersAt ext argv (2 * n) (argi + 1) = true →
        jntOffsetLoop ext n argv (fuel + 1) argi I J
          = jntOffsetLoop ext n argv fuel (argi + 1 + 2 * n)
              (fun m => if m < n then numberAt ext argv (argi + 1 + m) else I m)
              (fun m => if m < n then numberAt ext argv (argi + 1 + n + m) else J m))) ∧
    (∀ b : BasicModelBuilder, argi = 3 →
      numbersAt ext argv (2 * b.ndm.toNat) 4 = false →
      TclCommand_addTransformBuilder ext b argv = some (.ok ⟨TCL_ERROR, b⟩) ∧
      TclCommand_addGeomTransf ext b argv = some (.ok ⟨TCL_ERROR, b⟩)) := by
  obtain ⟨_, hlt⟩ := argAt_eq_mem (by decide) hkey
  have hne : ¬ argi = argv.length := by omega
  have hloop_err : ∀ (ndm : Int) (fuel : Nat) (st : ScanState),
      numbersAt ext argv (2 * ndm.toNat) (argi + 1) = false →
      optionLoop ext ndm argv (fuel + 1) argi st = some (.ok none) := by
    intro ndm fuel st hnum
    unfold optionLoop
    rw [if_neg hne, if_pos hkey]
    rcases readDoubles_pair_none ext argv ndm.toNat (argi + 1) vec_zero vec_zero (by omega) hnum
      with h1 | ⟨a1, v1, h1, h2⟩
    · simp only [h1]
    · simp only [h1, h2]
  refine ⟨fun ndm fuel st => ⟨hloop_err ndm fuel st, ?_⟩, fun n fuel I J => ⟨?_, ?_⟩, ?_⟩
  · intro hnum
    have hsplit := numbersAt_add ext argv ndm.toNat ndm.toNat (argi + 1)
    rw [show ndm.toNat + ndm.toNat = 2 * ndm.toNat by omega, hnum] at hsplit
    have h12 : numbersAt ext argv ndm.toNat (argi + 1) = true ∧
        numbersAt ext argv ndm.toNat (argi + 1 + ndm.toNat) = true := by
      simpa using hsplit.symm
    conv_lhs => unfold optionLoop
    rw [if_neg hne, if_pos hkey]
    simp only [readDoubles_zero_offsetFrom ext argv _ _ h12.1,
      readDoubles_zero_offsetFrom ext argv _ _ h12.2]
    rw [show argi + 1 + ndm.toNat + ndm.toNat = argi + 1 + 2 * ndm.toNat by omega]
  · intro hnum
    unfold jntOffsetLoop
    rw [if_neg hne, if_pos hkey]
    rcases readDoubles_pair_none ext argv n (argi + 1) I J (by omega) hnum
      with h1 | ⟨a1, v1, h1, h2⟩
    · simp only [h1]
    · simp only [h1, h2]
  · intro hnum
    have hsplit := numbersAt_add ext argv n n (argi + 1)
    rw [show n + n = 2 * n by omega, hnum] at hsplit
    have h12 : numbersAt ext argv n (argi + 1) = true ∧
        numbersAt ext argv n (argi + 1 + n) = true := by
      simpa using hsplit.symm
    conv_lhs => unfold jntOffsetLoop
    rw [if_neg hne, if_pos hkey]
    simp only [readDoubles_offsetOver ext argv _ _ _ h12.1,
      readDoubles_offsetOver ext argv _ _ _ h12.2]
    rw [show argi + 1 + n + n = argi + 1 + 2 * n by omega]
  · intro b h3 hnum
    subst h3
    have h1 : TclCommand_addTransformBuilder ext b argv = some (.ok ⟨TCL_ERROR, b⟩) := by
      unfold TclCommand_addTransformBuilder
      rw [if_neg (by omega)]
      split
      · rfl
      · cases hint : ext.Tcl_GetInt (argAt argv 2) with
        | none => rfl
        | some tag =>
          simp only [BasicModelBuilder.getNDM]
          rw [hloop_err b.ndm argv.length _ hnum]
    refine ⟨h1, ?_⟩
    unfold TclCommand_addGeomTransf
    simp only [h1]
    rw [if_pos TCL_ERROR_ne_TCL_OK]

/-- Witness of C20: `geomTransf Linear 1 -jntOffset 1 2 3 4` in a 2-D model stores `(1, 2)`
for end I and `(3, 4)` for end J; with the last number missing the command fails. -/
theorem jntOffset_values_witness :
    argAt ["geomTransf", "Linear", "1", "-jntOffset", "1", "2", "3"] 3 = "-jntOffset" ∧
    numbersAt sampleExternals ["geomTransf", "Linear", "1", "-jntOffset", "1", "2", "3"]
      (2 * (sampleModel 2 3 true).ndm.toNat) 4 = false ∧
    TclCommand_addGeomTransf sampleExternals (sampleModel 2 3 true)
      ["geomTransf", "Linear", "1", "-jntOffset", "1", "2", "3"]
      = some (.ok ⟨TCL_ERROR, sampleModel 2 3 true⟩) ∧
    ((TclCommand_addGeomTransf sampleExternals (sampleModel 2 3 true)
      ["geomTransf", "Linear", "1", "-jntOffset", "1", "2", "3", "4"]).bind (fun o =>
        o.toOption.bind (fun r => (r.builder.m_FrameTransform2d 1).map (fun T =>
          [T.jntOffsetI 0, T.jntOffsetI 1, T.jntOffsetJ 0, T.jntOffsetJ 1]))))
      = some [1, 2, 3, 4] ∧
    ((TclCommand_addGeomTransf sampleExternals (sampleModel 2 3 true)
      ["geomTransf", "Linear", "1", "-jntOffset", "1", "2", "3", "4"]).bind (fun o =>
        o.toOption.bind (fun r => (r.builder.m_FrameTransformBuilder 1).map (fun t =>
          [t.offsets 1 0, t.offsets 1 1, t.offsets 1 2, t.offsets 2 0, t.offsets 2 1,
            t.offsets 2 2]))))
      = some [1, 2, 0, 3, 4, 0] := by
  have H := jntOffset_values sampleExternals
    ["geomTransf", "Linear", "1", "-jntOffset", "1", "2", "3"] 3 rfl
  exact ⟨rfl, rfl, (H.2.2 (sampleModel 2 3 true) rfl rfl).2, rfl, rfl⟩

/-! ## The offset flags -/

/-- C21: at an option position the keyword `-offset-local` joins `OffsetLocal` to the flags
of the transform builder and `-offset-length` joins `OffsetNormalized`; a step sets every bit
of its constant, clears no bit, and changes nothing else. Over arguments that are all one of
the two keywords the loop ends with the flags joined with `OffsetLocal` when `-offset-local`
occurs and with `OffsetNormalized` when `-offset-length` occurs: how often and in which
order the keywords occur plays no part. -/
theorem offset_flags_accumulate (ext : Externals) (ndm : Int) (argv : List String) :
    (∀ (fuel argi : Nat) (st : ScanState),
      (argAt argv argi = "-offset-local" →
        optionLoop ext ndm argv (fuel + 1) argi st
          = optionLoop ext ndm argv fuel (argi + 1)
              ⟨⟨st.transform.ndm, st.transform.tag, st.transform.name, st.transform.vz,
                st.transform.offsets, st.transform.offset_flags ||| ext.OffsetLocal⟩,
                st.parsed_xz, st.argxz⟩) ∧
      (argAt argv argi = "-offset-length" →
        optionLoop ext ndm argv (fuel + 1) argi st
          = optionLoop ext ndm argv fuel (argi + 1)
              ⟨⟨st.transform.ndm, st.transform.tag, st.transform.name, st.transform.vz,
                st.transform.offsets, st.transform.offset_flags ||| ext.OffsetNormalized⟩,
                st.parsed_xz, st.argxz⟩)) ∧
    (∀ (st : ScanState) (i : Nat),
      ((st.transform.offset_flags ||| ext.OffsetLocal).testBit i
        = (st.transform.offset_flags.testBit i || ext.OffsetLocal.testBit i)) ∧
      ((st.transform.offset_flags ||| ext.OffsetNormalized).testBit i
        = (st.transform.offset_flags.testBit i || ext.OffsetNormalized.testBit i))) ∧
    (∀ (argi : Nat) (st : ScanState), argi ≤ argv.length →
      (∀ i, argi ≤ i → i < argv.length →
        argAt argv i = "-offset-local" ∨ argAt argv i = "-offset-length") →
      optionLoop ext ndm argv (argv.length + 1) argi st
        = some (.ok (some ⟨⟨st.transform.ndm, st.transform.tag, st.transform.name,
            st.transform.vz, st.transform.offsets,
            st.transform.offset_flags ||| offsetFlagsOf ext (argv.drop argi)⟩,
            st.parsed_xz, st.argxz⟩))) ∧
    (∀ (ws1 ws2 : List String), (∀ w, w ∈ ws1 ↔ w ∈ ws2) →
      offsetFlagsOf ext ws1 = offsetFlagsOf ext ws2) := by
  refine ⟨fun fuel argi st => ⟨optionLoop_offset_local ext ndm argv fuel argi st,
    optionLoop_offset_length ext ndm argv fuel argi st⟩,
    fun st i => ⟨Nat.testBit_or _ _ _, Nat.testBit_or _ _ _⟩, ?_, ?_⟩
  · intro argi st hle hkw
    exact optionLoop_offset_keywords ext ndm argv (argv.length - argi) argi _ st (by omega)
      (by omega) hkw
  · intro ws1 ws2 h
    unfold offsetFlagsOf
    simp only [h]

/-- Witness of C21: the keywords in either order, and one of them twice, leave the flags
`OffsetLocal | OffsetNormalized` (3 with the sample constants 1 and 2) in the registered
transform builder. -/
theorem offset_flags_accumulate_witness :
    ((TclCommand_addTransformBuilder sampleExternals (sampleModel 2 3 true)
      ["geomTransf", "Linear", "1", "-offset-local", "-offset-length", "-offset-local"]).bind
        (fun o => o.toOption.bind
          (fun r => (r.builder.m_FrameTransformBuilder 1).map (fun t => t.offset_flags))))
      = some 3 ∧
    ((TclCommand_addTransformBuilder sampleExternals (sampleModel 2 3 true)
      ["geomTransf", "Linear", "1", "-offset-length", "-offset-local"]).bind
        (fun o => o.toOption.bind
          (fun r => (r.builder.m_FrameTransformBuilder 1).map (fun t => t.offset_flags))))
      = some 3 ∧
    offsetFlagsOf sampleExternals ["-offset-local", "-offset-length", "-offset-local"]
      = offsetFlagsOf sampleExternals ["-offset-length", "-offset-local"] :=
  ⟨rfl, rfl,
    (offset_flags_accumulate sampleExternals 2 []).2.2.2
      ["-offset-local", "-offset-length", "-offset-local"] ["-offset-length", "-offset-local"]
      (by intro w; simp; exact fun h => Or.inr h)⟩

/-! ## The 3-D case and the number of arguments -/

namespace CircReinfLayer

variable {K : Type} [LinearOrderedField K]

theorem fullCircle_theta (M : MathLib K) (area0 : K) (m n : Int) (a : K) (c : K × K) (R : K)
    (hn : 1 ≤ n) (k : Nat) (hk : (k : Int) < n) :
    theta M (fullCircle area0 m n a c R) k = M.pi * fullCircleDegrees n k / 180 := by
  have hnK : (n : K) ≠ 0 := by
    have : (0 : K) < (n : K) := by exact_mod_cast (by omega : 0 < n)
    exact ne_of_gt this
  have hpos : n > 0 := by omega
  unfold theta dtheta fullCircle fullCircleDegrees
  simp only [hpos, if_true]
  by_cases h1 : n > 1
  · have hn1 : ((n - 1 : Int) : K) ≠ 0 := by
      have : (0 : K) < ((n - 1 : Int) : K) := by exact_mod_cast (by omega : 0 < n - 1)
      exact ne_of_gt this
    simp only [h1, if_true]
    have hcast : ((n - 1 : Int) : K) = (n : K) - 1 := by push_cast; ring
    rw [hcast] at hn1 ⊢
    field_simp
    ring
  · have hn1 : n = 1 := by omega
    subst hn1
    have hk0 : k = 0 := by omega
    subst hk0
    simp

theorem fullCircleDegrees_range (n : Int) (k : Nat) (hk : (k : Int) < n) :
    (0 : K) ≤ fullCircleDegrees n k ∧ fullCircleDegrees n k < (360 : K) := by
  have hnpos : (0 : K) < (n : K) := by exact_mod_cast (by omega : 0 < n)
  have hkn : (k : K) < (n : K) := by exact_mod_cast hk
  have hk0 : (0 : K) ≤ (k : K) := Nat.cast_nonneg k
  unfold fullCircleDegrees
  constructor
  · positivity
  · rw [div_lt_iff₀ hnpos]
    nlinarith

theorem fullCircleDegrees_injective (n : Int) (j k : Nat) (hn : 1 ≤ n)
    (h : (fullCircleDegrees n j : K) = fullCircleDegrees n k) : j = k := by
  have hnK : (n : K) ≠ 0 := by
    have : (0 : K) < (n : K) := by exact_mod_cast (by omega : 0 < n)
    exact ne_of_gt this
  unfold fullCircleDegrees at h
  have h1 : (j : K) * 360 = (k : K) * 360 := by
    have := congrArg (fun x => x * (n : K)) h
    simpa [div_mul_cancel₀, hnK] using this
  have h360 : (360 : K) ≠ 0 := by norm_num
  have h2 : (j : K) = (k : K) := mul_right_cancel₀ h360 h1
  exact_mod_cast h2

theorem cos_sin_inj_on_turn {a b : ℝ} (ha0 : 0 ≤ a) (ha : a < 2 * Real.pi) (hb0 : 0 ≤ b)
    (hb : b < 2 * Real.pi) (hc : Real.cos a = Real.cos b) (hs : Real.sin a = Real.sin b) :
    a = b := by
  have hang : (a : Real.Angle) = (b : Real.Angle) := Real.Angle.cos_sin_inj hc hs
  obtain ⟨z, hz⟩ := Real.Angle.angle_eq_iff_two_pi_dvd_sub.mp hang
  have hpi : 0 < Real.pi := Real.pi_pos
  have hz1 : (z : ℝ) < 1 := by
    by_contra hge
    push_neg at hge
    nlinarith
  have hz2 : (-1 : ℝ) < (z : ℝ) := by
    by_contra hle
    push_neg at hle
    nlinarith
  have hz0 : z = 0 := by
    have h1 : z < 1 := by exact_mod_cast hz1
    have h2 : -1 < z := by exact_mod_cast hz2
    omega
  rw [hz0] at hz
  simp at hz
  linarith

/-- C17, as stated, fails: on a full circle of radius zero the bars do coincide. With two
bars and the radius 0 the bar 0 and the bar 1 are both at the centre. -/
theorem fullCircle_bars_counterexample :
    (1 : Int) ≤ 2 ∧
    getReinfBars ⟨Real.pi, Real.cos, Real.sin⟩ (fullCircle (0 : ℝ) 1 2 1 (3, 4) 0)
      = some [bar ⟨Real.pi, Real.cos, Real.sin⟩ (fullCircle (0 : ℝ) 1 2 1 (3, 4) 0) 0,
          bar ⟨Real.pi, Real.cos, Real.sin⟩ (fullCircle (0 : ℝ) 1 2 1 (3, 4) 0) 1] ∧
    (bar ⟨Real.pi, Real.cos, Real.sin⟩ (fullCircle (0 : ℝ) 1 2 1 (3, 4) 0) 0).position
      = (3, 4) ∧
    (bar ⟨Real.pi, Real.cos, Real.sin⟩ (fullCircle (0 : ℝ) 1 2 1 (3, 4) 0) 1).position
      = (3, 4) := by
  refine ⟨by decide, ?_, ?_, ?_⟩
  · simp [getReinfBars, fullCircle, List.range_succ]
  · simp [bar, fullCircle]
  · simp [bar, fullCircle]

/-- C17, amended: a full-circle layer of `n >= 1` bars has the final angle `360 - 360 / n`;
the method `getReinfBars` returns `n` bars, the bar `k` at the angle `k * 360 / n` degrees
(`theta` is that angle in radians); these angles lie in `[0, 360)`, are `360 / n` apart and
pairwise distinct. In exact real arithmetic and for a radius other than zero two different
bars, in particular the first and the last of at least two, are at different positions; for
the radius zero every bar is at the centre. -/
theorem fullCircle_bars_distinct (area0 : ℝ) (m n : Int) (a : ℝ) (c : ℝ × ℝ) (R : ℝ)
    (hn : 1 ≤ n) :
    (fullCircle area0 m n a c R).finalAng = 360 - 360 / (n : ℝ) ∧
    getReinfBars ⟨Real.pi, Real.cos, Real.sin⟩ (fullCircle area0 m n a c R)
      = some ((List.range n.toNat).map
          (bar ⟨Real.pi, Real.cos, Real.sin⟩ (fullCircle area0 m n a c R))) ∧
    ((List.range n.toNat).map
      (bar ⟨Real.pi, Real.cos, Real.sin⟩ (fullCircle area0 m n a c R))).length = n.toNat ∧
    (∀ k : Nat, (k : Int) < n →
      theta ⟨Real.pi, Real.cos, Real.sin⟩ (fullCircle area0 m n a c R) k
        = Real.pi * fullCircleDegrees n k / 180 ∧
      (0 : ℝ) ≤ fullCircleDegrees n k ∧ (fullCircleDegrees n k : ℝ) < 360) ∧
    (∀ k : Nat, (fullCircleDegrees n (k + 1) : ℝ) - fullCircleDegrees n k = 360 / (n : ℝ)) ∧
    (∀ j k : Nat, (j : Int) < n → (k : Int) < n → j ≠ k →
      (fullCircleDegrees n j : ℝ) ≠ fullCircleDegrees n k) ∧
    (R ≠ 0 → ∀ j k : Nat, (j : Int) < n → (k : Int) < n → j ≠ k →
      (bar ⟨Real.pi, Real.cos, Real.sin⟩ (fullCircle area0 m n a c R) j).position
        ≠ (bar ⟨Real.pi, Real.cos, Real.sin⟩ (fullCircle area0 m n a c R) k).position) ∧
    (R ≠ 0 → 2 ≤ n →
      (bar ⟨Real.pi, Real.cos, Real.sin⟩ (fullCircle area0 m n a c R) 0).position
        ≠ (bar ⟨Real.pi, Real.cos, Real.sin⟩ (fullCircle area0 m n a c R)
            (n.toNat - 1)).position) ∧
    (R = 0 → ∀ k : Nat,
      (bar ⟨Real.pi, Real.cos, Real.sin⟩ (fullCircle area0 m n a c R) k).position = c) := by
  have hpos : n > 0 := by omega
  have hnR : (n : ℝ) ≠ 0 := by
    have : (0 : ℝ) < (n : ℝ) := by exact_mod_cast hpos
    exact ne_of_gt this
  have hdist : R ≠ 0 → ∀ j k : Nat, (j : Int) < n → (k : Int) < n → j ≠ k →
      (bar ⟨Real.pi, Real.cos, Real.sin⟩ (fullCircle area0 m n a c R) j).position
        ≠ (bar ⟨Real.pi, Real.cos, Real.sin⟩ (fullCircle area0 m n a c R) k).position := by
    intro hR j k hj hk hjk heq
    have hθj := fullCircle_theta ⟨Real.pi, Real.cos, Real.sin⟩ area0 m n a c R hn j hj
    have hθk := fullCircle_theta ⟨Real.pi, Real.cos, Real.sin⟩ area0 m n a c R hn k hk
    simp only [bar, Prod.mk.injEq, hθj, hθk] at heq
    obtain ⟨h1, h2⟩ := heq
    have hRarc : (fullCircle area0 m n a c R).arcRad = R := rfl
    rw [hRarc] at h1 h2
    have hc : Real.cos (Real.pi * fullCircleDegrees n j / 180)
        = Real.cos (Real.pi * fullCircleDegrees n k / 180) :=
      mul_left_cancel₀ hR (add_left_cancel h1)
    have hs : Real.sin (Real.pi * fullCircleDegrees n j / 180)
        = Real.sin (Real.pi * fullCircleDegrees n k / 180) :=
      mul_left_cancel₀ hR (add_left_cancel h2)
    obtain ⟨hj0, hj1⟩ := fullCircleDegrees_range (K := ℝ) n j hj
    obtain ⟨hk0, hk1⟩ := fullCircleDegrees_range (K := ℝ) n k hk
    have hpi : 0 < Real.pi := Real.pi_pos
    have hθ : Real.pi * fullCircleDegrees n j / 180 = Real.pi * fullCircleDegrees n k / 180 := by
      apply cos_sin_inj_on_turn _ _ _ _ hc hs
      · positivity
      · rw [div_lt_iff₀ (by norm_num)]
        nlinarith
      · positivity
      · rw [div_lt_iff₀ (by norm_num)]
        nlinarith
    have hdeg : (fullCircleDegrees n j : ℝ) = fullCircleDegrees n k := by
      have h180 : (180 : ℝ) ≠ 0 := by norm_num
      have := mul_left_cancel₀ (ne_of_gt hpi) ((div_left_inj' h180).mp hθ)
      exact this
    exact hjk (fullCircleDegrees_injective n j k hn hdeg)
  refine ⟨?_, ?_, by simp, ?_, ?_, ?_, hdist, ?_, ?_⟩
  · simp [fullCircle, hpos]
  · have hnot : ¬ n < 0 := by omega
    have hfield : (fullCircle area0 m n a c R).nReinfBars = n := rfl
    simp only [getReinfBars, hfield, hnot, hpos, if_true, if_false]
  · intro k hk
    exact ⟨fullCircle_theta _ area0 m n a c R hn k hk, fullCircleDegrees_range n k hk⟩
  · intro k
    unfold fullCircleDegrees
    push_cast
    field_simp
    ring
  · intro j k _ _ hjk heq
    exact hjk (fullCircleDegrees_injective n j k hn heq)
  · intro hR h2
    apply hdist hR 0 (n.toNat - 1)
    · exact_mod_cast hpos
    · omega
    · omega
  · intro hR k
    subst hR
    simp [bar, fullCircle]

/-- Witness of C17, amended: four bars on a circle of radius one; the first and the last
are at different positions. -/
theorem fullCircle_bars_distinct_witness :
    (1 : Int) ≤ 4 ∧
    (fullCircle (0 : ℝ) 1 4 0 (0, 0) 1).finalAng = 360 - 360 / ((4 : Int) : ℝ) ∧
    (∀ j k : Nat, (j : Int) < 4 → (k : Int) < 4 → j ≠ k →
      (fullCircleDegrees 4 j : ℝ) ≠ fullCircleDegrees 4 k) ∧
    (bar ⟨Real.pi, Real.cos, Real.sin⟩ (fullCircle (0 : ℝ) 1 4 0 (0, 0) 1) 0).position
      ≠ (bar ⟨Real.pi, Real.cos, Real.sin⟩ (fullCircle (0 : ℝ) 1 4 0 (0, 0) 1)
          ((4 : Int).toNat - 1)).position := by
  have H := fullCircle_bars_distinct (0 : ℝ) 1 4 0 (0, 0) 1 (by decide)
  exact ⟨by decide, H.1, H.2.2.2.2.2.1, H.2.2.2.2.2.2.2.1 one_ne_zero (by decide)⟩

end CircReinfLayer

/-! ## Lemmas on the Newton loops -/

namespace TriangleLMEElement

variable {X σ V L : Type}

/-- The loop of `shapefn` ends within `max_it + 1 - it` passes when it has that much fuel,
and more fuel does not change what it leaves. -/
theorem shapefn_loop_bounded (k : LMEKernel X σ V L) :
    ∀ (fuel it : Nat) (s : σ) (n : Nat), 1 ≤ it → it ≤ max_it → max_it + 1 - it ≤ fuel →
      ∃ e, shapefn_loop k fuel it s n = some e ∧ n + 1 ≤ e.iterations ∧
        e.iterations ≤ n + (max_it + 1 - it) ∧
        (∀ extra, shapefn_loop k (fuel + extra) it s n = some e) ∧
        (e.thrown = none → .error_exception ∉ e.log) := by
  intro fuel
  induction fuel with
  | zero =>
    intro it s n _ h2 h3
    omega
  | succ fuel ih =>
    intro it s n h1 h2 h3
    have hstep : ∀ extra, fuel + 1 + extra = (fuel + extra) + 1 := by intro extra; omega
    cases hb : k.body s with
    | error l =>
      refine ⟨⟨s, n + 1, [.error_exception], some l⟩, by simp [shapefn_loop, hb], le_refl _,
        by simp only; omega, ?_, by simp⟩
      intro extra
      rw [hstep]
      simp [shapefn_loop, hb]
    | ok s1 =>
      by_cases hsmall : k.residual_small s1 = true
      · refine ⟨⟨s1, n + 1, [], none⟩, by simp [shapefn_loop, hb, hsmall], le_refl _,
          by simp only; omega, ?_, by simp⟩
        intro extra
        rw [hstep]
        simp [shapefn_loop, hb, hsmall]
      · by_cases hit : it = max_it
        · refine ⟨⟨s1, n + 1,
            .warn_max_iteration :: (if k.singular s1 then [.warn_singular] else []), none⟩,
            by simp [shapefn_loop, hb, hsmall, hit], le_refl _, by simp only; omega, ?_, ?_⟩
          · intro extra
            rw [hstep]
            simp [shapefn_loop, hb, hsmall, hit]
          · intro _
            cases k.singular s1 <;> simp
        · have hlt : it + 1 ≤ max_it := by omega
          obtain ⟨e, he, hlo, hhi, hext, hlog⟩ := ih (it + 1) s1 (n + 1) (by omega) hlt (by omega)
          refine ⟨e, by simp [shapefn_loop, hb, hsmall, hit, he], by omega, by omega, ?_, hlog⟩
          intro extra
          rw [hstep]
          simp [shapefn_loop, hb, hsmall, hit, hext extra]

/-- The loop of `grad_shapefn` ends within `max_it + 1 - it` passes when it has that much
fuel, and more fuel does not change what it leaves. -/
theorem grad_shapefn_loop_bounded (k : LMEKernel X σ V L) :
    ∀ (fuel it : Nat) (s : σ) (n : Nat), 1 ≤ it → it ≤ max_it → max_it + 1 - it ≤ fuel →
      ∃ e, grad_shapefn_loop k fuel it s n = some e ∧ n + 1 ≤ e.iterations ∧
        e.iterations ≤ n + (max_it + 1 - it) ∧
        (∀ extra, grad_shapefn_loop k (fuel + extra) it s n = some e) ∧
        (e.thrown = none → e.log = []) := by
  intro fuel
  induction fuel with
  | zero =>
    intro it s n _ h2 h3
    omega
  | succ fuel ih =>
    intro it s n h1 h2 h3
    have hstep : ∀ extra, fuel + 1 + extra = (fuel + extra) + 1 := by intro extra; omega
    cases hb : k.body s with
    | error l =>
      refine ⟨⟨s, n + 1, [.error_exception], some l⟩, by simp [grad_shapefn_loop, hb], le_refl _,
        by simp only; omega, ?_, by simp⟩
      intro extra
      rw [hstep]
      simp [grad_shapefn_loop, hb]
    | ok s1 =>
      by_cases hdone : (k.residual_small s1 || decide (it = max_it)) = true
      · refine ⟨⟨s1, n + 1, [], none⟩, ?_, le_refl _, by simp only; omega, ?_, by simp⟩
        · simp only [grad_shapefn_loop, hb, hdone, if_true]
        · intro extra
          rw [hstep]
          simp only [grad_shapefn_loop, hb, hdone, if_true]
      · have hit : it ≠ max_it := by
          intro h
          apply hdone
          simp [h]
        have hlt : it + 1 ≤ max_it := by omega
        obtain ⟨e, he, hlo, hhi, hext, hlog⟩ := ih (it + 1) s1 (n + 1) (by omega) hlt (by omega)
        refine ⟨e, ?_, by omega, by omega, ?_, hlog⟩
        · simp only [grad_shapefn_loop, hb, hdone]
          exact he
        · intro extra
          rw [hstep]
          simp only [grad_shapefn_loop, hb, hdone]
          exact hext extra

theorem run_total (k : LMEKernel X σ V L)
    (loop : Nat → Nat → σ → Nat → Option (LoopEnd σ L)) (x : X)
    (hloop : ∀ s, ∃ e, loop max_it 1 s 0 = some e ∧ e.iterations ≤ max_it ∧
      ∀ extra, loop (max_it + extra) 1 s 0 = some e) :
    (∃ res, run k loop max_it x = some res ∧ res.iterations ≤ max_it) ∧
    (∀ extra, run k loop (max_it + extra) x = run k loop max_it x) := by
  unfold run
  by_cases h3 : k.nconnectivity x = 3
  · simp only [h3, if_true]
    exact ⟨⟨_, rfl, Nat.zero_le _⟩, fun _ => trivial⟩
  · simp only [h3, if_false]
    cases hs : k.setup x with
    | error l => exact ⟨⟨_, rfl, Nat.zero_le _⟩, fun _ => rfl⟩
    | ok s =>
      simp only
      by_cases hl : k.residual_large s = true
      · obtain ⟨e, he, hle, hext⟩ := hloop s
        simp only [hl, if_true, he, hext]
        refine ⟨?_, fun _ => trivial⟩
        cases ht : e.thrown with
        | some l => exact ⟨_, rfl, hle⟩
        | none => exact ⟨_, rfl, hle⟩
      · simp only [hl]
        exact ⟨⟨_, rfl, Nat.zero_le _⟩, fun _ => rfl⟩

/-- The loop of `shapefn` along a run in which no pass throws and the residual never gets
small: it stops at the cap, after the pass with `it = max_it`. -/
theorem shapefn_loop_cap (k : LMEKernel X σ V L) (iter : Nat → σ)
    (hbody : ∀ j, j < max_it → k.body (iter j) = .ok (iter (j + 1)))
    (hres : ∀ j, j < max_it → k.residual_small (iter (j + 1)) = false) :
    ∀ (d it n fuel : Nat), it + d = max_it → 1 ≤ it → d + 1 ≤ fuel →
      shapefn_loop k fuel it (iter (it - 1)) n
        = some ⟨iter max_it, n + d + 1,
            .warn_max_iteration :: (if k.singular (iter max_it) then [.warn_singular] else []),
            none⟩ := by
  intro d
  induction d with
  | zero =>
    intro it n fuel hit h1 hf
    obtain ⟨f, rfl⟩ : ∃ f, fuel = f + 1 := ⟨fuel - 1, by omega⟩
    have hit' : it = max_it := by omega
    subst hit'
    have hb := hbody (max_it - 1) (by decide)
    have hr := hres (max_it - 1) (by decide)
    have e1 : max_it - 1 + 1 = max_it := by decide
    rw [e1] at hb hr
    simp [shapefn_loop, hb, hr]
  | succ d ih =>
    intro it n fuel hit h1 hf
    obtain ⟨f, rfl⟩ : ∃ f, fuel = f + 1 := ⟨fuel - 1, by omega⟩
    have hne : it ≠ max_it := by omega
    have hlt : it - 1 < max_it := by omega
    have hb := hbody (it - 1) hlt
    have hr := hres (it - 1) hlt
    have e1 : it - 1 + 1 = it := by omega
    rw [e1] at hb hr
    have hrec := ih (it + 1) (n + 1) f (by omega) (by omega) (by omega)
    have e2 : it + 1 - 1 = it := by omega
    rw [e2] at hrec
    simp only [shapefn_loop, hb, hr, hne, if_false, Bool.false_eq_true]
    rw [hrec]
    have e3 : n + 1 + d + 1 = n + (d + 1) + 1 := by omega
    rw [e3]

/-- The loop of `grad_shapefn` along a run in which no pass throws and the residual never
gets small: it stops at the cap, after the pass with `it = max_it`, without a message. -/
theorem grad_shapefn_loop_cap (k : LMEKernel X σ V L) (iter : Nat → σ)
    (hbody : ∀ j, j < max_it → k.body (iter j) = .ok (iter (j + 1)))
    (hres : ∀ j, j < max_it → k.residual_small (iter (j + 1)) = false) :
    ∀ (d it n fuel : Nat), it + d = max_it → 1 ≤ it → d + 1 ≤ fuel →
      grad_shapefn_loop k fuel it (iter (it - 1)) n = some ⟨iter max_it, n + d + 1, [], none⟩ := by
  intro d
  induction d with
  | zero =>
    intro it n fuel hit h1 hf
    obtain ⟨f, rfl⟩ : ∃ f, fuel = f + 1 := ⟨fuel - 1, by omega⟩
    have hit' : it = max_it := by omega
    subst hit'
    have hb := hbody (max_it - 1) (by decide)
    have e1 : max_it - 1 + 1 = max_it := by decide
    rw [e1] at hb
    simp [grad_shapefn_loop, hb]
  | succ d ih =>
    intro it n fuel hit h1 hf
    obtain ⟨f, rfl⟩ : ∃ f, fuel = f + 1 := ⟨fuel - 1, by omega⟩
    have hne : it ≠ max_it := by omega
    have hlt : it - 1 < max_it := by omega
    have hb := hbody (it - 1) hlt
    have hr := hres (it - 1) hlt
    have e1 : it - 1 + 1 = it := by omega
    rw [e1] at hb hr
    have hrec := ih (it + 1) (n + 1) f (by omega) (by omega) (by omega)
    have e2 : it + 1 - 1 = it := by omega
    rw [e2] at hrec
    simp only [grad_shapefn_loop, hb, hr, hne, decide_False, Bool.or_self, Bool.false_eq_true,
      if_false]
    rw [hrec]
    have e3 : n + 1 + d + 1 = n + (d + 1) + 1 := by omega
    rw [e3]

/-- C16: the Newton iteration of `shapefn` and of `grad_shapefn` is bounded, but the cap of
`grad_shapefn` is silent. Whatever the floating-point steps compute, both functions return,
after at most 10 passes through the loop body, and fuel beyond 10 passes changes nothing.
When no step throws and the residual never gets small, both make exactly 10 passes and
return the value of the current local variables, and neither sends an error; at the cap
`shapefn` sends the warning to the console, while `grad_shapefn` sends nothing at all: the
warning that the specification asks for at the cap is missing there. -/
theorem newton_iteration_bounded (k : LMEKernel X σ V L) (x : X) :
    (∃ res, shapefn k x = some res ∧ res.iterations ≤ 10) ∧
    (∃ res, grad_shapefn k x = some res ∧ res.iterations ≤ 10) ∧
    (∀ extra, run k (shapefn_loop k) (max_it + extra) x = shapefn k x) ∧
    (∀ extra, run k (grad_shapefn_loop k) (max_it + extra) x = grad_shapefn k x) ∧
    (∀ iter : Nat → σ, k.nconnectivity x ≠ 3 → k.setup x = .ok (iter 0) →
      k.residual_large (iter 0) = true →
      (∀ j, j < 10 → k.body (iter j) = .ok (iter (j + 1))) →
      (∀ j, j < 10 → k.residual_small (iter (j + 1)) = false) →
      shapefn k x = some ⟨k.value (iter 10), k.lambda (iter 10), 10,
        .warn_max_iteration :: (if k.singular (iter 10) then [.warn_singular] else [])⟩ ∧
      grad_shapefn k x = some ⟨k.value (iter 10), k.lambda (iter 10), 10, []⟩ ∧
      ∀ res, shapefn k x = some res ∨ grad_shapefn k x = some res →
        LogEntry.error_exception ∉ res.log) := by
  have hs : ∀ s, ∃ e, shapefn_loop k max_it 1 s 0 = some e ∧ e.iterations ≤ max_it ∧
      ∀ extra, shapefn_loop k (max_it + extra) 1 s 0 = some e := by
    intro s
    obtain ⟨e, he, _, hhi, hext, _⟩ := shapefn_loop_bounded k max_it 1 s 0 (le_refl _)
      (by decide) (by decide)
    exact ⟨e, he, by simpa using hhi, hext⟩
  have hg : ∀ s, ∃ e, grad_shapefn_loop k max_it 1 s 0 = some e ∧ e.iterations ≤ max_it ∧
      ∀ extra, grad_shapefn_loop k (max_it + extra) 1 s 0 = some e := by
    intro s
    obtain ⟨e, he, _, hhi, hext, _⟩ := grad_shapefn_loop_bounded k max_it 1 s 0 (le_refl _)
      (by decide) (by decide)
    exact ⟨e, he, by simpa using hhi, hext⟩
  refine ⟨(run_total k _ x hs).1, (run_total k _ x hg).1, (run_total k _ x hs).2,
    (run_total k _ x hg).2, ?_⟩
  intro iter h3 hsetup hlarge hbody hres
  have hcap := shapefn_loop_cap k iter hbody hres 9 1 0 max_it (by decide) (le_refl _)
    (by decide)
  have hval : shapefn k x = some ⟨k.value (iter 10), k.lambda (iter 10), 10,
      .warn_max_iteration :: (if k.singular (iter 10) then [.warn_singular] else [])⟩ := by
    simp only [shapefn, run, h3, if_false, hsetup, hlarge, if_true]
    rw [show iter 0 = iter (1 - 1) from rfl, hcap]
    rfl
  have hgcap := grad_shapefn_loop_cap k iter hbody hres 9 1 0 max_it (by decide) (le_refl _)
    (by decide)
  have hgval : grad_shapefn k x = some ⟨k.value (iter 10), k.lambda (iter 10), 10, []⟩ := by
    simp only [grad_shapefn, run, h3, if_false, hsetup, hlarge, if_true]
    rw [show iter 0 = iter (1 - 1) from rfl, hgcap]
    rfl
  refine ⟨hval, hgval, ?_⟩
  intro res hres2
  rcases hres2 with hres2 | hres2
  · rw [hval] at hres2
    have := Option.some.inj hres2
    subst this
    cases k.singular (iter 10) <;> simp
  · rw [hgval] at hres2
    have := Option.some.inj hres2
    subst this
    simp

/-- Witness of C16: a kernel whose residual is never small runs 10 passes; `shapefn` warns
and `grad_shapefn` leaves the console empty. -/
theorem newton_iteration_bounded_witness :
    shapefn (sampleKernel 4) 0 = some ⟨10, 10, 10, [.warn_max_iteration]⟩ ∧
    grad_shapefn (sampleKernel 4) 0 = some ⟨10, 10, 10, []⟩ :=
  ⟨((newton_iteration_bounded (sampleKernel 4) 0).2.2.2.2 (fun j => j) (by decide) rfl rfl
      (fun _ _ => rfl) (fun _ _ => rfl)).1,
    ((newton_iteration_bounded (sampleKernel 4) 0).2.2.2.2 (fun j => j) (by decide) rfl rfl
      (fun _ _ => rfl) (fun _ _ => rfl)).2.1⟩

end TriangleLMEElement

/-! ## Commit and revert -/

namespace ElementState

variable {σ M F : Type}

/-- C18: `commitState()` followed at once by `revertToLastCommit()` leaves the trial state
as it was, so `getTangentStiff()` and `getResistingForce()` return the same values after the
two calls as before them; both calls report success. -/
theorem commit_then_revert (stiff : σ → M) (force : σ → F) (e : ElementState σ) :
    getTangentStiff stiff (revertToLastCommit (commitState e).2).2 = getTangentStiff stiff e ∧
    getResistingForce force (revertToLastCommit (commitState e).2).2
      = getResistingForce force e ∧
    (revertToLastCommit (commitState e).2).2.trial = e.trial ∧
    (revertToLastCommit (commitState e).2).2.committed = e.trial ∧
    (commitState e).1 = 0 ∧ (revertToLastCommit (commitState e).2).1 = 0 :=
  ⟨rfl, rfl, rfl, rfl, rfl, rfl⟩

end ElementState

/-! ## Bars of a `CircReinfLayer` -/

namespace CircReinfLayer

variable {K : Type} [LinearOrderedField K]

theorem getReinfBars_eq (M : MathLib K) (L : CircReinfLayer K) (h : 0 ≤ L.nReinfBars) :
    getReinfBars M L = some ((List.range L.nReinfBars.toNat).map (bar M L)) := by
  unfold getReinfBars
  have h1 : ¬ L.nReinfBars < 0 := by omega
  rw [if_neg h1]
  by_cases h2 : L.nReinfBars > 0
  · rw [if_pos h2]
  · rw [if_neg h2]
    have h3 : L.nReinfBars = 0 := by omega
    rw [h3]
    rfl

theorem getReinfBars_mem (M : MathLib K) (L : CircReinfLayer K) (bars : List (Cell K))
    (h : getReinfBars M L = some bars) (c : Cell K) (hc : c ∈ bars) :
    c.material = L.material ∧ c.area = L.area := by
  have h0 : 0 ≤ L.nReinfBars := by
    by_contra hneg
    have hneg2 : L.nReinfBars < 0 := by omega
    simp [getReinfBars, hneg2] at h
  rw [getReinfBars_eq M L h0] at h
  have hb := Option.some.inj h
  subst hb
  obtain ⟨i, _, rfl⟩ := List.mem_map.mp hc
  exact ⟨rfl, rfl⟩

/-- C22: every bar that `getReinfBars` returns carries the material and the area of the
layer. For a layer built by the arc constructor these are the arguments `material` and
`reinfBarArea`. For a layer built by the full-circle constructor the material is the argument
`materialID`, but the area is the value `area0` that the member `area` held before its
initialisation, whatever `reinfBarArea` is: two bars built with `reinfBarArea = 5` carry the
area 0 when that value is 0. -/
theorem getReinfBars_material_area (M : MathLib K) (m n : Int) (a : K) (c : K × K)
    (R i f area0 : K) :
    (∀ bars, getReinfBars M (arc m n a c R i f) = some bars →
      ∀ b ∈ bars, b.material = m ∧ b.area = a) ∧
    (∀ bars, getReinfBars M (fullCircle area0 m n a c R) = some bars →
      ∀ b ∈ bars, b.material = m ∧ b.area = area0) ∧
    (∀ M0 : MathLib ℚ, (getReinfBars M0 (fullCircle 0 7 2 5 (0, 0) 1)).map
      (fun bars => bars.map (fun b => (b.material, b.area))) = some [(7, 0), (7, 0)]) := by
  refine ⟨?_, ?_, ?_⟩
  · intro bars h b hb
    exact getReinfBars_mem M _ bars h b hb
  · intro bars h b hb
    exact getReinfBars_mem M _ bars h b hb
  · intro M0
    rfl

end CircReinfLayer

/-! ## Cells of a `CircPatch` -/

namespace CircPatch

variable {K : Type} [LinearOrderedField K]

end CircPatch

/-! ## Bars on an arc -/

namespace CircReinfLayer

/-- C25: an arc layer of `n >= 0` bars. The method `getReinfBars` returns `n` bars; every
bar is at the distance `|arcRad|` from the centre, which is `arcRad` for a radius that is not
negative (exact real arithmetic). For `n >= 2` the bar `k` is at the angle
`initAng + k * (finalAng - initAng) / (n - 1)` degrees, the first bar at `initAng` and the
last at `finalAng`; for `n = 1` the bar is at `initAng`; for `n = 0` there is no bar. -/
theorem arc_bars (m n : Int) (a : ℝ) (c : ℝ × ℝ) (R i f : ℝ) (hn : 0 ≤ n) :
    getReinfBars ⟨Real.pi, Real.cos, Real.sin⟩ (arc m n a c R i f)
      = some ((List.range n.toNat).map
          (bar ⟨Real.pi, Real.cos, Real.sin⟩ (arc m n a c R i f))) ∧
    ((List.range n.toNat).map
      (bar ⟨Real.pi, Real.cos, Real.sin⟩ (arc m n a c R i f))).length = n.toNat ∧
    (∀ k : Nat,
      ((bar ⟨Real.pi, Real.cos, Real.sin⟩ (arc m n a c R i f) k).position.1 - c.1) ^ 2 +
        ((bar ⟨Real.pi, Real.cos, Real.sin⟩ (arc m n a c R i f) k).position.2 - c.2) ^ 2
        = R ^ 2 ∧
      Real.sqrt
        (((bar ⟨Real.pi, Real.cos, Real.sin⟩ (arc m n a c R i f) k).position.1 - c.1) ^ 2 +
        ((bar ⟨Real.pi, Real.cos, Real.sin⟩ (arc m n a c R i f) k).position.2 - c.2) ^ 2)
        = |R| ∧
      (0 ≤ R → Real.sqrt
        (((bar ⟨Real.pi, Real.cos, Real.sin⟩ (arc m n a c R i f) k).position.1 - c.1) ^ 2 +
        ((bar ⟨Real.pi, Real.cos, Real.sin⟩ (arc m n a c R i f) k).position.2 - c.2) ^ 2)
        = R) ∧
      (bar ⟨Real.pi, Real.cos, Real.sin⟩ (arc m n a c R i f) k).position
        = (c.1 + R * Real.cos (theta ⟨Real.pi, Real.cos, Real.sin⟩ (arc m n a c R i f) k),
            c.2 + R * Real.sin (theta ⟨Real.pi, Real.cos, Real.sin⟩ (arc m n a c R i f) k))) ∧
    (2 ≤ n → ∀ k : Nat,
      theta ⟨Real.pi, Real.cos, Real.sin⟩ (arc m n a c R i f) k
        = Real.pi * (i + (k : ℝ) * (f - i) / ((n : ℝ) - 1)) / 180) ∧
    (2 ≤ n →
      theta ⟨Real.pi, Real.cos, Real.sin⟩ (arc m n a c R i f) 0 = Real.pi * i / 180 ∧
      theta ⟨Real.pi, Real.cos, Real.sin⟩ (arc m n a c R i f) (n.toNat - 1)
        = Real.pi * f / 180) ∧
    (n = 1 →
      getReinfBars ⟨Real.pi, Real.cos, Real.sin⟩ (arc m n a c R i f)
        = some [bar ⟨Real.pi, Real.cos, Real.sin⟩ (arc m n a c R i f) 0] ∧
      theta ⟨Real.pi, Real.cos, Real.sin⟩ (arc m n a c R i f) 0 = Real.pi * i / 180) ∧
    (n = 0 → getReinfBars ⟨Real.pi, Real.cos, Real.sin⟩ (arc m n a c R i f) = some []) := by
  have hget := getReinfBars_eq ⟨Real.pi, Real.cos, Real.sin⟩ (arc m n a c R i f) hn
  have hfield : (arc m n a c R i f).nReinfBars = n := rfl
  rw [hfield] at hget
  have hsq : ∀ k : Nat,
      ((bar ⟨Real.pi, Real.cos, Real.sin⟩ (arc m n a c R i f) k).position.1 - c.1) ^ 2 +
        ((bar ⟨Real.pi, Real.cos, Real.sin⟩ (arc m n a c R i f) k).position.2 - c.2) ^ 2
        = R ^ 2 := by
    intro k
    simp only [bar, arc]
    have h1 := Real.cos_sq_add_sin_sq
      (theta ⟨Real.pi, Real.cos, Real.sin⟩ (arc m n a c R i f) k)
    simp only [arc] at h1
    linear_combination R ^ 2 * h1
  have hth : 2 ≤ n → ∀ k : Nat,
      theta ⟨Real.pi, Real.cos, Real.sin⟩ (arc m n a c R i f) k
        = Real.pi * (i + (k : ℝ) * (f - i) / ((n : ℝ) - 1)) / 180 := by
    intro h2 k
    have hn1 : (n : ℝ) - 1 ≠ 0 := by
      have : (0 : ℝ) < (n : ℝ) - 1 := by
        have : (1 : ℝ) < (n : ℝ) := by exact_mod_cast (by omega : 1 < n)
        linarith
      exact ne_of_gt this
    have hgt : n > 1 := by omega
    simp only [theta, dtheta, arc, hgt, if_true]
    push_cast
    field_simp
    ring
  refine ⟨hget, by simp, ?_, hth, ?_, ?_, ?_⟩
  · intro k
    refine ⟨hsq k, ?_, ?_, rfl⟩
    · rw [hsq k]
      exact Real.sqrt_sq_eq_abs R
    · intro hR
      rw [hsq k]
      exact Real.sqrt_sq hR
  · intro h2
    have hn1 : (n : ℝ) - 1 ≠ 0 := by
      have : (0 : ℝ) < (n : ℝ) - 1 := by
        have : (1 : ℝ) < (n : ℝ) := by exact_mod_cast (by omega : 1 < n)
        linarith
      exact ne_of_gt this
    constructor
    · rw [hth h2 0]
      simp
    · rw [hth h2 (n.toNat - 1)]
      have hcast : ((n.toNat - 1 : Nat) : ℝ) = (n : ℝ) - 1 := by
        have h1 : 1 ≤ n.toNat := by omega
        have h3 : ((n.toNat : Nat) : ℝ) = (n : ℝ) := by
          exact_mod_cast Int.toNat_of_nonneg hn
        rw [Nat.cast_sub h1, h3]
        simp
      rw [hcast]
      field_simp
  · intro h1
    subst h1
    refine ⟨hget, ?_⟩
    simp [theta, dtheta, arc]
  · intro h0
    subst h0
    exact hget

/-- Witness of C25: three bars on a quarter circle of radius 2. -/
theorem arc_bars_witness :
    (0 : Int) ≤ 3 ∧
    theta ⟨Real.pi, Real.cos, Real.sin⟩ (arc 1 3 (1 : ℝ) (0, 0) 2 0 90) 0
      = Real.pi * 0 / 180 ∧
    theta ⟨Real.pi, Real.cos, Real.sin⟩ (arc 1 3 (1 : ℝ) (0, 0) 2 0 90) ((3 : Int).toNat - 1)
      = Real.pi * 90 / 180 :=
  ⟨by decide, ((arc_bars 1 3 1 (0, 0) 2 0 90 (by decide)).2.2.2.2.1 (by decide)).1,
    ((arc_bars 1 3 1 (0, 0) 2 0 90 (by decide)).2.2.2.2.1 (by decide)).2⟩

end CircReinfLayer

/-! ## Partition of unity -/

namespace TriangleLMEElement

variable {X σ V L : Type}

/-- A property of the local variables that every pass of the loop body keeps holds for what
the loop of `shapefn` leaves, unless an exception left the loop; the loop logs an error
exactly when an exception left it. -/
theorem shapefn_loop_invariant (k : LMEKernel X σ V L) (I : σ → Prop)
    (hbody : ∀ s s1, I s → k.body s = .ok s1 → I s1) :
    ∀ (fuel it : Nat) (s : σ) (n : Nat) (e : LoopEnd σ L), I s →
      shapefn_loop k fuel it s n = some e →
      (e.thrown = none → I e.state ∧ LogEntry.error_exception ∉ e.log) ∧
      (e.thrown ≠ none → LogEntry.error_exception ∈ e.log) ∧
      ((∀ s, I s → ∃ s1, k.body s = .ok s1) → e.thrown = none) := by
  intro fuel
  induction fuel with
  | zero =>
    intro it s n e _ h
    simp [shapefn_loop] at h
  | succ fuel ih =>
    intro it s n e hI h
    unfold shapefn_loop at h
    cases hb : k.body s with
    | error l =>
      simp only [hb, Option.some.injEq] at h
      subst h
      refine ⟨fun hc => by simp at hc, fun _ => by simp, ?_⟩
      intro hall
      obtain ⟨s1, hs1⟩ := hall s hI
      rw [hb] at hs1
      exact absurd hs1 (by simp)
    | ok s1 =>
      have hI1 := hbody s s1 hI hb
      simp only [hb] at h
      by_cases hsmall : k.residual_small s1 = true
      · rw [if_pos hsmall] at h
        simp only [Option.some.injEq] at h
        subst h
        exact ⟨fun _ => ⟨hI1, by simp⟩, fun hc => absurd rfl hc, fun _ => rfl⟩
      · rw [if_neg hsmall] at h
        by_cases hit : it = max_it
        · rw [if_pos hit] at h
          simp only [Option.some.injEq] at h
          subst h
          refine ⟨fun _ => ⟨hI1, ?_⟩, fun hc => absurd rfl hc, fun _ => rfl⟩
          cases k.singular s1 <;> simp
        · rw [if_neg hit] at h
          exact ih (it + 1) s1 (n + 1) e hI1 h

variable {K Λ : Type} [LinearOrderedField K]

theorem foldl_cond_add (c : Nat → Prop) [DecidablePred c] (w : Nat → K) :
    ∀ (N : Nat) (a : K),
      (List.range N).foldl (fun acc n => if c n then acc + w n else acc) a
        = a + ∑ n ∈ (Finset.range N).filter c, w n := by
  intro N
  induction N with
  | zero => intro a; simp
  | succ N ih =>
    intro a
    rw [List.range_succ, List.foldl_append, ih, Finset.range_succ, Finset.filter_insert]
    by_cases hc : c N
    · have hnot : N ∉ (Finset.range N).filter c := by simp
      simp only [List.foldl_cons, List.foldl_nil, hc, if_true, Finset.sum_insert hnot]
      ring
    · simp only [List.foldl_cons, List.foldl_nil, hc, if_false]

theorem sum_exp_f_eq (exp : K → K) (x : LMEArguments K Λ) (g : LMEGeometry K Λ)
    (f : Nat → K) :
    sum_exp_f exp x g f
      = ∑ n ∈ (Finset.range x.nconnectivity).filter
          (fun n => g.distance n < x.support_radius), exp (f n) := by
  unfold sum_exp_f
  rw [foldl_cond_add (fun n => g.distance n < x.support_radius) (fun n => exp (f n))]
  simp

theorem sum_exp_f_eval_f (exp : K → K) (x : LMEArguments K Λ) (g : LMEGeometry K Λ)
    (lam : Λ) (f : Nat → K) :
    sum_exp_f exp x g (eval_f x g lam f)
      = ∑ n ∈ (Finset.range x.nconnectivity).filter
          (fun n => g.distance n < x.support_radius), exp (f_of x g lam n) := by
  rw [sum_exp_f_eq]
  apply Finset.sum_congr rfl
  intro n hn
  obtain ⟨h1, h2⟩ := Finset.mem_filter.mp hn
  have h3 : n < x.nconnectivity := Finset.mem_range.mp h1
  simp only [eval_f, f_of, h2, h3, and_self, if_true]

theorem setup_isPartition (exp : K → K) (x : LMEArguments K Λ) (g : LMEGeometry K Λ)
    (hg : x.geometry = .ok g) :
    ∃ s, (shapefn_kernel exp).setup x = .ok s ∧ IsPartition exp x g s := by
  refine ⟨⟨x, g, g.lambda, eval_f x g g.lambda (fun _ => 0),
    eval_p exp x g (eval_f x g g.lambda (fun _ => 0)) (fun _ => 0), false⟩, ?_, rfl, rfl, ?_⟩
  · simp only [shapefn_kernel, hg]
  · intro n
    simp only [eval_p]
    by_cases hc : n < x.nconnectivity ∧ g.distance n < x.support_radius
    · rw [if_pos hc, if_pos hc, sum_exp_f_eval_f]
      simp only [eval_f, f_of, hc, and_self, if_true]
    · rw [if_neg hc, if_neg hc]

theorem body_isPartition (exp : K → K) (x : LMEArguments K Λ) (g : LMEGeometry K Λ)
    (s s1 : LMEVars K Λ) (hs : IsPartition exp x g s)
    (hb : (shapefn_kernel exp).body s = .ok s1) : IsPartition exp x g s1 := by
  obtain ⟨hx, hgeo, hp⟩ := hs
  simp only [shapefn_kernel] at hb
  cases hn : s.g.newton s.lambda s.p with
  | error l =>
    rw [hn] at hb
    exact absurd hb (by simp)
  | ok r =>
    obtain ⟨lam, sing⟩ := r
    rw [hn] at hb
    simp only [Except.ok.injEq] at hb
    subst hb
    subst hx
    subst hgeo
    refine ⟨rfl, rfl, ?_⟩
    intro n
    simp only [eval_p]
    by_cases hc : n < s.x.nconnectivity ∧ s.g.distance n < s.x.support_radius
    · rw [if_pos hc, if_pos hc, sum_exp_f_eval_f]
      simp only [eval_f, f_of, hc, and_self, if_true]
    · rw [if_neg hc, if_neg hc, hp n, if_neg hc]

theorem body_ok_of_newton (exp : K → K) (g : LMEGeometry K Λ)
    (hnewton : ∀ lam p, ∃ r, g.newton lam p = .ok r) (s : LMEVars K Λ) (hs : s.g = g) :
    ∃ s1, (shapefn_kernel exp).body s = .ok s1 := by
  obtain ⟨r, hr⟩ := hnewton s.lambda s.p
  obtain ⟨lam, sing⟩ := r
  simp only [shapefn_kernel, hs, hr]
  exact ⟨_, rfl⟩

/-- What `shapefn` returns, when it logs no error, are the value and the `lambda` of local
variables with a property that the setup gives and every pass keeps. -/
theorem shapefn_invariant (k : LMEKernel X σ V L) (I : σ → Prop)
    (hbody : ∀ s s1, I s → k.body s = .ok s1 → I s1) (x : X)
    (h3 : k.nconnectivity x ≠ 3) (s0 : σ) (hs0 : k.setup x = .ok s0) (hI : I s0) :
    ∃ res, shapefn k x = some res ∧
      ((∀ s, I s → ∃ s1, k.body s = .ok s1) → LogEntry.error_exception ∉ res.log) ∧
      (LogEntry.error_exception ∉ res.log →
        ∃ s, I s ∧ res.value = k.value s ∧ res.lambda = k.lambda s) := by
  unfold shapefn run
  rw [if_neg h3]
  simp only [hs0]
  by_cases hl : k.residual_large s0 = true
  · rw [if_pos hl]
    obtain ⟨e, he, _, _, _, _⟩ := shapefn_loop_bounded k max_it 1 s0 0 (le_refl _)
      (by decide) (by decide)
    obtain ⟨hnone, hsome, hall⟩ := shapefn_loop_invariant k I hbody max_it 1 s0 0 e hI he
    simp only [he]
    cases ht : e.thrown with
    | some l =>
      refine ⟨_, rfl, ?_, ?_⟩
      · intro hok
        rw [hall hok] at ht
        exact absurd ht (by simp)
      · intro hlog
        exact absurd (hsome (by simp [ht])) hlog
    | none =>
      refine ⟨_, rfl, fun _ => (hnone ht).2, fun _ => ⟨e.state, (hnone ht).1, rfl, rfl⟩⟩
  · rw [if_neg hl]
    exact ⟨_, rfl, fun _ => by simp, fun _ => ⟨s0, hI, rfl, rfl⟩⟩

/-- C26: for more than 3 nodes and a geometry that is computed without exception, `shapefn`
returns; it logs no error when no Newton step throws; and when it logs no error the values
returned are a partition of unity over the support for the `lambda` it leaves (exact real
arithmetic): 0 for a node at a distance of the support radius or more, the strictly positive
quotient `exp(f_n) / sum exp(f_m)` for a node inside the support, the sum running over the
nodes inside the support, and the values sum to 1 when a node lies inside the support. -/
theorem shapefn_partition_of_unity (x : LMEArguments ℝ Λ) (g : LMEGeometry ℝ Λ)
    (hN : 3 < x.nconnectivity) (hg : x.geometry = .ok g) :
    ∃ res, shapefn (shapefn_kernel Real.exp) x = some res ∧
      ((∀ lam p, ∃ r, g.newton lam p = .ok r) → LogEntry.error_exception ∉ res.log) ∧
      (LogEntry.error_exception ∉ res.log →
        (∀ n, n < x.nconnectivity → x.support_radius ≤ g.distance n → res.value n = 0) ∧
        (∀ n, n < x.nconnectivity → g.distance n < x.support_radius →
          res.value n = Real.exp (f_of x g res.lambda n) /
            ∑ m ∈ (Finset.range x.nconnectivity).filter
              (fun m => g.distance m < x.support_radius), Real.exp (f_of x g res.lambda m) ∧
          0 < res.value n) ∧
        ((∃ n, n < x.nconnectivity ∧ g.distance n < x.support_radius) →
          ∑ n ∈ Finset.range x.nconnectivity, res.value n = 1)) := by
  obtain ⟨s0, hs0, hI0⟩ := setup_isPartition Real.exp x g hg
  obtain ⟨res, hres, hnoerr, hval⟩ := shapefn_invariant (shapefn_kernel Real.exp)
    (IsPartition Real.exp x g) (fun s s1 => body_isPartition Real.exp x g s s1) x
    (by simp only [shapefn_kernel]; omega) s0 hs0 hI0
  refine ⟨res, hres, ?_, ?_⟩
  · intro hnewton
    apply hnoerr
    intro s hs
    exact body_ok_of_newton Real.exp g hnewton s hs.2.1
  · intro hlog
    obtain ⟨s, ⟨_, _, hp⟩, hv, hlam⟩ := hval hlog
    have hv2 : ∀ n, res.value n = s.p n := fun n => by rw [hv]; rfl
    have hl2 : res.lambda = s.lambda := hlam
    have hSpos : (∃ n, n < x.nconnectivity ∧ g.distance n < x.support_radius) →
        0 < ∑ m ∈ (Finset.range x.nconnectivity).filter
          (fun m => g.distance m < x.support_radius), Real.exp (f_of x g s.lambda m) := by
      rintro ⟨n, hn1, hn2⟩
      apply Finset.sum_pos
      · intro i _
        exact Real.exp_pos _
      · exact ⟨n, Finset.mem_filter.mpr ⟨Finset.mem_range.mpr hn1, hn2⟩⟩
    refine ⟨?_, ?_, ?_⟩
    · intro n _ hfar
      rw [hv2 n, hp n, if_neg]
      intro hc
      exact absurd hc.2 (not_lt.mpr hfar)
    · intro n hn hin
      rw [hv2 n, hp n, if_pos ⟨hn, hin⟩, hl2]
      exact ⟨rfl, div_pos (Real.exp_pos _) (hSpos ⟨n, hn, hin⟩)⟩
    · intro hex
      have hS := hSpos hex
      have hsum : ∑ n ∈ Finset.range x.nconnectivity, res.value n
          = ∑ n ∈ (Finset.range x.nconnectivity).filter
              (fun m => g.distance m < x.support_radius),
              Real.exp (f_of x g s.lambda n) /
                ∑ m ∈ (Finset.range x.nconnectivity).filter
                  (fun m => g.distance m < x.support_radius),
                  Real.exp (f_of x g s.lambda m) := by
        rw [Finset.sum_filter]
        apply Finset.sum_congr rfl
        intro n hn
        have hn1 : n < x.nconnectivity := Finset.mem_range.mp hn
        rw [hv2 n, hp n]
        by_cases hin : g.distance n < x.support_radius
        · rw [if_pos ⟨hn1, hin⟩, if_pos hin]
        · rw [if_neg (fun hc => hin hc.2), if_neg hin]
      rw [hsum, ← Finset.sum_div]
      exact div_self (ne_of_gt hS)

/-- Witness of C26: 4 nodes at the distances 0, 1/2, 1 and 3/2 with the support radius 1;
the values returned sum to 1. -/
theorem shapefn_partition_of_unity_witness :
    3 < (sampleArguments ℝ).nconnectivity ∧
    (sampleArguments ℝ).geometry = .ok (sampleGeometry ℝ) ∧
    ∃ res, shapefn (shapefn_kernel Real.exp) (sampleArguments ℝ) = some res ∧
      LogEntry.error_exception ∉ res.log ∧
      res.value 2 = 0 ∧ 0 < res.value 1 ∧
      ∑ n ∈ Finset.range (sampleArguments ℝ).nconnectivity, res.value n = 1 := by
  obtain ⟨res, hres, hnoerr, hpart⟩ := shapefn_partition_of_unity (sampleArguments ℝ)
    (sampleGeometry ℝ) (by decide) rfl
  have hlog := hnoerr (fun lam _ => ⟨(lam, false), rfl⟩)
  obtain ⟨hzero, hpos, hsum⟩ := hpart hlog
  refine ⟨by decide, rfl, res, hres, hlog, ?_, ?_, ?_⟩
  · apply hzero 2 (by decide)
    simp [sampleArguments, sampleGeometry]
  · apply (hpos 1 (by decide) _).2
    simp only [sampleArguments, sampleGeometry]
    norm_num
  · apply hsum
    refine ⟨0, by decide, ?_⟩
    simp [sampleArguments, sampleGeometry]

end TriangleLMEElement

end Xara
